import Mathlib

/-
Verification development for the GoDNet Δ-net graph-reduction engine
(package deltanet).  The Go source is shallowly embedded: the mutable
pointer graph of agents, ports and wires becomes an explicit `Network`
state record, and every operation of the engine becomes a pure state
transformer.  All concurrency primitives of the source (mutexes, the
atomic compare-and-set on the dead flag, the lock/re-validate/retry
loops inside `splice`, `fuse`, `reduceRepDecay` and `reducePair`)
collapse in the single-threaded projection: a load is never stale, so
the re-validation branches always succeed and a retry never happens.
`sync.WaitGroup` bookkeeping is dropped for the same reason.  Go map
iteration order is unspecified; the embedding iterates the node
registry in insertion order.
-/

set_option autoImplicit false
set_option linter.unusedTactic false

namespace GoDNet

/- NodeType mirrors the Go `NodeType` enumeration (deltanet.go). -/
inductive NodeType where
  | fan
  | eraser
  | replicator
  | var
  | data
  | pure
  | effect
  | handler
deriving DecidableEq, Repr

/- Opaque host values carried by Data nodes.  Go stores `interface{}`;
the embedding uses a first-order value universe: integers for ordinary
data and an error constructor for Go `error` values.  Host closures
(the currying case of `applyNative`) do not occur in this universe. -/
inductive Value where
  | num : Int → Value
  | errv : String → Value
deriving DecidableEq, Repr

/- A port is identified by its owning node id and port index
(Go `Port{Node, Index}`; the atomic wire pointer lives in
`Network.portWire`). -/
structure PortRef where
  node : Nat
  idx : Nat
deriving DecidableEq, Repr

/- Wire record: the two endpoint ports (atomic pointers, hence
optional) and the scheduling depth (Go `Wire{P0, P1, depth}`). -/
structure WireData where
  p0 : Option PortRef
  p1 : Option PortRef
  depth : Nat
deriving DecidableEq, Repr

/- Per-node data.  `numPorts` is the length of the Go `ports` slice;
`level` and `deltas` are the `ReplicatorNode` payload (zero / nil on
other node kinds, as `BaseNode.Level` / `BaseNode.Deltas` return);
`value` is the `DataNode` payload; `name` the `NativeNode` payload;
`dead` the atomic dead flag. -/
structure NodeData where
  typ : NodeType
  numPorts : Nat
  level : Int := 0
  deltas : List Int := []
  value : Value := Value.num 0
  name : String := ""
  dead : Bool := false
deriving DecidableEq, Repr

/- Reduction statistics (Go `Stats` / the counter fields of `Network`). -/
structure Stats where
  ops : Nat := 0
  fanAnn : Nat := 0
  repAnn : Nat := 0
  repComm : Nat := 0
  fanRepComm : Nat := 0
  erasure : Nat := 0
  repDecay : Nat := 0
  repMerge : Nat := 0
  auxFanRep : Nat := 0
deriving DecidableEq, Repr

/- The scheduler: `MaxPriority = 64` FIFO buckets of wire ids
(scheduler.go).  Go buckets are buffered channels; FIFO within a
bucket is channel order.  The bounded `signal` channel only wakes
blocked workers and has no effect on bucket contents, so it is not
modelled. -/
structure Scheduler where
  queues : List (List Nat)
deriving DecidableEq, Repr

def emptyScheduler : Scheduler := ⟨List.replicate 64 []⟩

/- Go `Push` clamps the depth into [0, MaxPriority-1]. -/
def clampIdx (d : Int) : Nat :=
  if d < 0 then 0 else min d.toNat 63

def Scheduler.push (s : Scheduler) (w : Nat) (d : Int) : Scheduler :=
  ⟨s.queues.set (clampIdx d) (s.queues.getD (clampIdx d) [] ++ [w])⟩

/- Scan the buckets from index 0 and take the head of the first
non-empty one (Go `Pop` scans `i = 0 .. MaxPriority-1`).  Go blocks on
the signal channel when everything is empty; the sequential projection
returns `none` instead (this is the `wire == nil` break that
`ReduceWithLimit` tests for). -/
def popQueues : List (List Nat) → Option (Nat × List (List Nat))
  | [] => none
  | [] :: rest =>
    match popQueues rest with
    | none => none
    | some (w, qs) => some (w, [] :: qs)
  | (w :: q) :: rest => some (w, q :: rest)

def Scheduler.pop (s : Scheduler) : Option (Nat × Scheduler) :=
  match popQueues s.queues with
  | none => none
  | some (w, qs) => some (w, ⟨qs⟩)

/- The network state: Go `Network` plus the heap of nodes and wires it
points into.  `nodes` is the id-keyed registry map, `registry` records
the map's keys in insertion order (Go iterates the map in arbitrary
order), `portWire` is each port's atomic wire pointer and `wires` the
wire heap keyed by creation index. -/
structure Network where
  nextId : Nat := 0
  nextWire : Nat := 0
  nodes : Nat → Option NodeData := fun _ => none
  registry : List Nat := []
  portWire : PortRef → Option Nat := fun _ => none
  wires : Nat → Option WireData := fun _ => none
  sched : Scheduler := emptyScheduler
  stats : Stats := {}
  natives : List (String × (Value → Except String Value)) := []
  phase : Nat := 1

def emptyNet : Network := {}

def updNodes (f : Nat → Option NodeData) (k : Nat) (v : Option NodeData) :
    Nat → Option NodeData :=
  fun x => if x = k then v else f x

def updWires (f : Nat → Option WireData) (k : Nat) (v : Option WireData) :
    Nat → Option WireData :=
  fun x => if x = k then v else f x

/- Accessors mirroring the `Node` interface methods; the defaults are
the `BaseNode` method results (`Level() = 0`, `Deltas() = nil`, ...).
A missing id never occurs in the Go heap; the defaults make the
missing case inert. -/
def typeOf (g : Network) (nid : Nat) : NodeType :=
  match g.nodes nid with
  | some nd => nd.typ
  | none => NodeType.var

def numPortsOf (g : Network) (nid : Nat) : Nat :=
  match g.nodes nid with
  | some nd => nd.numPorts
  | none => 0

def levelOf (g : Network) (nid : Nat) : Int :=
  match g.nodes nid with
  | some nd => nd.level
  | none => 0

def deltasOf (g : Network) (nid : Nat) : List Int :=
  match g.nodes nid with
  | some nd => nd.deltas
  | none => []

def nodeNameOf (g : Network) (nid : Nat) : String :=
  match g.nodes nid with
  | some nd => nd.name
  | none => ""

def nodeValueOf (g : Network) (nid : Nat) : Value :=
  match g.nodes nid with
  | some nd => nd.value
  | none => Value.num 0

def isDeadN (g : Network) (nid : Nat) : Bool :=
  match g.nodes nid with
  | some nd => nd.dead
  | none => false

/- Go `SetDead` (the CAS to 1) and `Revive` (store 0). -/
def setDeadN (g : Network) (nid : Nat) : Network :=
  { g with nodes := updNodes g.nodes nid ((g.nodes nid).map (fun nd => { nd with dead := true })) }

def reviveN (g : Network) (nid : Nat) : Network :=
  { g with nodes := updNodes g.nodes nid ((g.nodes nid).map (fun nd => { nd with dead := false })) }

/- Go `isActive`: every node kind other than Var can head an active
pair. -/
def isActiveId (g : Network) (nid : Nat) : Bool :=
  match g.nodes nid with
  | some nd => nd.typ ≠ NodeType.var
  | none => false

/- Go `Wire.Other`: compare against `P0`, else return `P0`. -/
def otherOf (w : WireData) (p : PortRef) : Option PortRef :=
  if w.p0 = some p then w.p1 else w.p0

/- Conditional scheduler push shared by `connect`, `splice`, `fuse`
and `reduceRepDecay`: push the wire when the two given endpoint ports
are both principal ports of active nodes. -/
def pushActive (g : Network) (wid : Nat) (p q : PortRef) (d : Nat) : Network :=
  if p.idx = 0 ∧ q.idx = 0 ∧ isActiveId g p.node ∧ isActiveId g q.node then
    { g with sched := g.sched.push wid (Int.ofNat d) }
  else g

/- Push helpers for the optional-neighbour cases of `splice`, `fuse`
and `reduceRepDecay` (Go tests the neighbours for nil before the
active-pair check). -/
def pushNb (g : Network) (wid : Nat) (p : PortRef) (nb : Option PortRef) (d : Nat) : Network :=
  match nb with
  | some q => pushActive g wid p q d
  | none => g

def pushNb2 (g : Network) (wid : Nat) (n1 n2 : Option PortRef) (d : Nat) : Network :=
  match n1, n2 with
  | some q1, some q2 => pushActive g wid q1 q2 d
  | _, _ => g

/- Node creation: Go `addNodeInternal` / `NewReplicator` / `NewData` /
`NewNative`.  `nextNodeID` increments the counter and returns the new
value, so the fresh id is `nextId + 1`.  A fresh Go node carries fresh
`Port` structs with nil wire pointers; the embedding clears `portWire`
on all ports of the fresh id accordingly. -/
def addNode (g : Network) (nd : NodeData) : Network × Nat :=
  let id := g.nextId + 1
  ({ g with
      nextId := id
      nodes := updNodes g.nodes id (some nd)
      registry := g.registry ++ [id]
      portWire := fun p => if p.node = id then none else g.portWire p }, id)

def newFan (g : Network) : Network × Nat :=
  addNode g { typ := NodeType.fan, numPorts := 3 }

def newEraser (g : Network) : Network × Nat :=
  addNode g { typ := NodeType.eraser, numPorts := 1 }

def newReplicator (g : Network) (level : Int) (deltas : List Int) : Network × Nat :=
  addNode g { typ := NodeType.replicator, numPorts := 1 + deltas.length,
              level := level, deltas := deltas }

def newVar (g : Network) : Network × Nat :=
  addNode g { typ := NodeType.var, numPorts := 1 }

def newData (g : Network) (v : Value) : Network × Nat :=
  addNode g { typ := NodeType.data, numPorts := 1, value := v }

/- Go `NewNative` registers the node under `NodeTypePure`. -/
def newNative (g : Network) (name : String) : Network × Nat :=
  addNode g { typ := NodeType.pure, numPorts := 1, name := name }

/- Go `LinkAt`: make a fresh wire at the given depth between the two
ports and schedule it when it is an active pair. -/
def linkAt (g : Network) (n1 p1 n2 p2 : Nat) (depth : Nat) : Network :=
  let q1 : PortRef := ⟨n1, p1⟩
  let q2 : PortRef := ⟨n2, p2⟩
  let wid := g.nextWire + 1
  let g1 : Network :=
    { g with
        nextWire := wid
        wires := updWires g.wires wid (some ⟨some q1, some q2, depth⟩)
        portWire := fun p => if p = q1 ∨ p = q2 then some wid else g.portWire p }
  if p1 = 0 ∧ p2 = 0 ∧ isActiveId g1 n1 ∧ isActiveId g1 n2 then
    { g1 with sched := g1.sched.push wid (Int.ofNat depth) }
  else g1

def link (g : Network) (n1 p1 n2 p2 : Nat) : Network :=
  linkAt g n1 p1 n2 p2 0

/- Go `GetLink`. -/
def getLink (g : Network) (nid pidx : Nat) : Option PortRef :=
  match g.portWire ⟨nid, pidx⟩ with
  | none => none
  | some wid =>
    match g.wires wid with
    | none => none
    | some w => otherOf w ⟨nid, pidx⟩

/- Go `connect`: fresh internal wire at `depth + 1` (the LMO depth
increment for wiring created inside a rewrite), scheduled when active. -/
def connect (g : Network) (q1 q2 : PortRef) (depth : Nat) : Network :=
  let nd := depth + 1
  let wid := g.nextWire + 1
  let g1 : Network :=
    { g with
        nextWire := wid
        wires := updWires g.wires wid (some ⟨some q1, some q2, nd⟩)
        portWire := fun p => if p = q1 ∨ p = q2 then some wid else g.portWire p }
  pushActive g1 wid q1 q2 nd

/- Go `splice`: `pNew` replaces `pOld` inside `pOld`'s wire, `pOld`'s
pointer is cleared, and the wire is scheduled (at its own depth) when
the updated endpoints form an active pair.  The lock/re-validate loop
of the source always succeeds sequentially; the defensive branch in
which `pOld` is not an endpoint of its own wire spins forever in Go
and cannot occur on a consistent heap, so it is left as the identity. -/
def splice (g : Network) (pNew pOld : PortRef) : Network :=
  match g.portWire pOld with
  | none => g
  | some wid =>
    match g.wires wid with
    | none => g
    | some w =>
      if w.p0 = some pOld ∨ w.p1 = some pOld then
        let w' : WireData :=
          if w.p0 = some pOld then { w with p0 := some pNew } else { w with p1 := some pNew }
        let g1 : Network :=
          { g with
              wires := updWires g.wires wid (some w')
              portWire := fun p => if p = pNew then some wid else if p = pOld then none else g.portWire p }
        pushNb g1 wid pNew (otherOf w' pNew) w.depth
      else g

/- Go `fuse`: collapse the two wires touching `p1` and `p2`, keeping
`p1`'s wire.  The `w1 == w2` case (a loop between the two fused ports)
clears the wire entirely.  Sequentially the dual-lock in address order
and the re-validation are invisible. -/
def fuse (g : Network) (p1 p2 : PortRef) : Network :=
  match g.portWire p1, g.portWire p2 with
  | some w1id, some w2id =>
    match g.wires w1id, g.wires w2id with
    | some w1, some w2 =>
      if w1id = w2id then
        { g with
            wires := updWires g.wires w1id (some { w1 with p0 := none, p1 := none })
            portWire := fun p => if p = p1 ∨ p = p2 then none else g.portWire p }
      else
        let n1 := otherOf w1 p1
        let n2 := otherOf w2 p2
        let w1' : WireData :=
          if w1.p0 = some p1 then { w1 with p0 := n2 } else { w1 with p1 := n2 }
        let g1 : Network :=
          { g with
              wires := updWires (updWires g.wires w1id (some w1')) w2id
                (some { w2 with p0 := none, p1 := none })
              portWire := fun p =>
                if p = p1 ∨ p = p2 then none
                else if n2 = some p then some w1id
                else g.portWire p }
        pushNb2 g1 w1id n1 n2 w1.depth
    | _, _ => g
  | _, _ => g

/- Go `removeNode` is a no-op (garbage collection reclaims memory). -/
def removeNode (g : Network) (_nid : Nat) : Network := g

/- Go `annihilate`: fuse corresponding auxiliary ports of `a` and `b`,
up to the smaller arity. -/
def annihilateLoop (g : Network) (a b : Nat) : List Nat → Network
  | [] => g
  | i :: rest => annihilateLoop (fuse g ⟨a, i⟩ ⟨b, i⟩) a b rest

def annihilate (g : Network) (a b : Nat) : Network :=
  let count := min (numPortsOf g a) (numPortsOf g b)
  annihilateLoop g a b (List.range' 1 (count - 1))

/- Go `erase`: one fresh Eraser per auxiliary port of the victim,
spliced into the victim's neighbour (the eraser is created even when
the port turns out to be unwired, exactly as in the source). -/
def eraseLoop (g : Network) (victim : Nat) : List Nat → Network
  | [] => g
  | i :: rest =>
    let gp := newEraser g
    eraseLoop (splice gp.1 ⟨gp.2, 0⟩ ⟨victim, i⟩) victim rest

def erase (g : Network) (_eraser victim : Nat) : Network :=
  eraseLoop g victim (List.range' 1 (numPortsOf g victim - 1))

/- Go `createReplicatorCopy` / `createReplicatorCopyWithLevel`. -/
def createReplicatorCopy (g : Network) (original : Nat) : Network × Nat :=
  newReplicator g (levelOf g original) (deltasOf g original)

def createReplicatorCopyWithLevel (g : Network) (original : Nat) (newLevel : Int) :
    Network × Nat :=
  newReplicator g newLevel (deltasOf g original)

/- Go `commuteFanReplicator`: the inner loop over the replicator's
auxiliary ports. -/
def fanRepLoop (g : Network) (rep r1 r2 : Nat) (depth : Nat) : List Nat → Network
  | [] => g
  | i :: rest =>
    let gf := newFan g
    let ga := gf.1
    let f := gf.2
    let gb := if (ga.portWire ⟨rep, i + 1⟩).isSome then splice ga ⟨f, 0⟩ ⟨rep, i + 1⟩ else ga
    let gc := connect gb ⟨f, 1⟩ ⟨r1, i + 1⟩ depth
    let gd := connect gc ⟨f, 2⟩ ⟨r2, i + 1⟩ depth
    fanRepLoop gd rep r1 r2 depth rest

def commuteFanReplicator (g : Network) (fan rep : Nat) (depth : Nat) : Network :=
  let gr1 := createReplicatorCopy g rep
  let gr2 := createReplicatorCopy gr1.1 rep
  let g2 := gr2.1
  let r1 := gr1.2
  let r2 := gr2.2
  let g3 := if (g2.portWire ⟨fan, 1⟩).isSome then splice g2 ⟨r1, 0⟩ ⟨fan, 1⟩ else g2
  let g4 := if (g3.portWire ⟨fan, 2⟩).isSome then splice g3 ⟨r2, 0⟩ ⟨fan, 2⟩ else g3
  let numRepAux := numPortsOf g4 rep - 1
  fanRepLoop g4 rep r1 r2 depth (List.range numRepAux)

/- Go `auxFanReplication` delegates to `commuteFanReplicator`. -/
def auxFanReplication (g : Network) (fan rep : Nat) (depth : Nat) : Network :=
  commuteFanReplicator g fan rep depth

/- Go `commuteReplicators`, first loop: one copy of `b` per auxiliary
port of `a`, at level `b.Level() + a.Deltas()[i]`, principal spliced
into `a`'s aux `i+1` when wired.  Returns the copies' ids in order. -/
def commuteBLoop (g : Network) (a b : Nat) : List Nat → Network × List Nat
  | [] => (g, [])
  | i :: rest =>
    let delta := (deltasOf g a).getD i 0
    let gc := createReplicatorCopyWithLevel g b (levelOf g b + delta)
    let g1 := gc.1
    let cid := gc.2
    let g2 := if (g1.portWire ⟨a, i + 1⟩).isSome then splice g1 ⟨cid, 0⟩ ⟨a, i + 1⟩ else g1
    let grest := commuteBLoop g2 a b rest
    (grest.1, cid :: grest.2)

/- Second loop body: the row of internal wires from one `a`-copy to
every `b`-copy (`connect(aCopy.Ports()[k+1], bCopies[k].Ports()[i+1], depth)`). -/
def connectRow (g : Network) (aCopy : Nat) (i : Nat) (depth : Nat) :
    List (Nat × Nat) → Network
  | [] => g
  | (k, bk) :: rest =>
    connectRow (connect g ⟨aCopy, k + 1⟩ ⟨bk, i + 1⟩ depth) aCopy i depth rest

/- Go `commuteReplicators`, second loop: one copy of `a` per auxiliary
port of `b`, spliced into `b`'s aux, then the full row of internal
wires. -/
def commuteALoop (g : Network) (a b : Nat) (bCopies : List Nat) (depth : Nat) :
    List Nat → Network
  | [] => g
  | i :: rest =>
    let gc := createReplicatorCopy g a
    let g1 := gc.1
    let cid := gc.2
    let g2 := if (g1.portWire ⟨b, i + 1⟩).isSome then splice g1 ⟨cid, 0⟩ ⟨b, i + 1⟩ else g1
    let g3 := connectRow g2 cid i depth bCopies.enum
    commuteALoop g3 a b bCopies depth rest

def commuteReplicatorsGo (g : Network) (a b : Nat) (depth : Nat) : Network :=
  let numAAux := numPortsOf g a - 1
  let gb := commuteBLoop g a b (List.range numAAux)
  let numBAux := numPortsOf gb.1 b - 1
  commuteALoop gb.1 a b gb.2 depth (List.range numBAux)

/- The `a.Level() > b.Level()` guard of the source recurses once with
the arguments swapped; the embedding inlines that single swap. -/
def commuteReplicators (g : Network) (a b : Nat) (depth : Nat) : Network :=
  if levelOf g a > levelOf g b then commuteReplicatorsGo g b a depth
  else commuteReplicatorsGo g a b depth

def lookupNative (g : Network) (name : String) : Option (Value → Except String Value) :=
  match g.natives.find? (fun kv => kv.1 = name) with
  | some kv => some kv.2
  | none => none

/- Go `applyNative` (Fan ↔ Pure dispatch).  The diagnostic `Printf`
calls are I/O and do not change the graph.  Go additionally checks
whether the host value returned by the native function is itself a
closure (the currying case, which registers a fresh partial native);
in the first-order `Value` universe that case is vacuous.  Error
returns become Data nodes holding the error value, as in the source. -/
def applyNative (g : Network) (fan native : Nat) (_depth : Nat) : Network :=
  match lookupNative g (nodeNameOf g native) with
  | none =>
    let ge := newData g (Value.errv "native function not found")
    if (ge.1.portWire ⟨fan, 1⟩).isSome then splice ge.1 ⟨ge.2, 0⟩ ⟨fan, 1⟩ else ge.1
  | some fn =>
    match getLink g fan 2 with
    | none =>
      let ge := newData g (Value.errv "nil argument")
      if (ge.1.portWire ⟨fan, 1⟩).isSome then splice ge.1 ⟨ge.2, 0⟩ ⟨fan, 1⟩ else ge.1
    | some argPort =>
      if typeOf g argPort.node = NodeType.data then
        let res : Value :=
          match fn (nodeValueOf g argPort.node) with
          | Except.error e => Value.errv e
          | Except.ok r => r
        let gr := newData g res
        if (gr.1.portWire ⟨fan, 1⟩).isSome then splice gr.1 ⟨gr.2, 0⟩ ⟨fan, 1⟩ else gr.1
      else
        reviveN (reviveN g fan) native

def bumpOps (g : Network) : Network :=
  { g with stats := { g.stats with ops := g.stats.ops + 1 } }

def bumpFanAnn (g : Network) : Network :=
  { g with stats := { g.stats with fanAnn := g.stats.fanAnn + 1 } }

def bumpRepAnn (g : Network) : Network :=
  { g with stats := { g.stats with repAnn := g.stats.repAnn + 1 } }

def bumpRepComm (g : Network) : Network :=
  { g with stats := { g.stats with repComm := g.stats.repComm + 1 } }

def bumpFanRepComm (g : Network) : Network :=
  { g with stats := { g.stats with fanRepComm := g.stats.fanRepComm + 1 } }

def bumpErasure (g : Network) : Network :=
  { g with stats := { g.stats with erasure := g.stats.erasure + 1 } }

def bumpRepDecay (g : Network) : Network :=
  { g with stats := { g.stats with repDecay := g.stats.repDecay + 1 } }

def bumpRepMerge (g : Network) : Network :=
  { g with stats := { g.stats with repMerge := g.stats.repMerge + 1 } }

def bumpAuxFanRep (g : Network) : Network :=
  { g with stats := { g.stats with auxFanRep := g.stats.auxFanRep + 1 } }

/- The type-dispatch switch of Go `reducePair` (after the wire is
disconnected and `n.ops` bumped).  `recordTrace` only writes the
optional trace ring buffer and is not modelled.  The two `Printf`
diagnostics (Fan–Data and the default unknown-combination case) are
I/O; note that only the Fan–Data branch revives the two agents — the
default branch leaves both dead. -/
/- The disconnect step of `reducePair`: clear both endpoint slots of
the popped wire and both ports' wire pointers. -/
def disconnectWire (g : Network) (wid : Nat) (w : WireData) (p0 p1 : PortRef) : Network :=
  { g with
      wires := updWires g.wires wid (some { w with p0 := none, p1 := none })
      portWire := fun p => if p = p0 ∨ p = p1 then none else g.portWire p }

def dispatchRule (g : Network) (a b : Nat) (depth : Nat) : Network :=
  let ta := typeOf g a
  let tb := typeOf g b
  if ta = tb then
    if ta = NodeType.replicator then
      if levelOf g a = levelOf g b then bumpRepAnn (annihilate g a b)
      else bumpRepComm (commuteReplicators g a b depth)
    else bumpFanAnn (annihilate g a b)
  else if ta = NodeType.eraser then bumpErasure (erase g a b)
  else if tb = NodeType.eraser then bumpErasure (erase g b a)
  else if (ta = NodeType.fan ∧ tb = NodeType.replicator) ∨
          (ta = NodeType.replicator ∧ tb = NodeType.fan) then
    if g.phase = 2 then
      if ta = NodeType.fan then bumpAuxFanRep (auxFanReplication g a b depth)
      else bumpAuxFanRep (auxFanReplication g b a depth)
    else
      if ta = NodeType.fan then bumpFanRepComm (commuteFanReplicator g a b depth)
      else bumpFanRepComm (commuteFanReplicator g b a depth)
  else if (ta = NodeType.fan ∧ tb = NodeType.pure) ∨
          (ta = NodeType.pure ∧ tb = NodeType.fan) then
    if ta = NodeType.fan then applyNative g a b depth else applyNative g b a depth
  else if (ta = NodeType.fan ∧ tb = NodeType.data) ∨
          (ta = NodeType.data ∧ tb = NodeType.fan) then
    reviveN (reviveN g a) b
  else g

/- Go `reducePair`: re-read the endpoints under the wire lock, verify
the wire is current, claim both agents via their dead flags (rolling
back the first claim when the second fails, which also covers a
degenerate self-pair), disconnect the wire, bump `TotalReductions`,
and dispatch. -/
def reducePair (g : Network) (wid : Nat) : Network :=
  match g.wires wid with
  | none => g
  | some w =>
    match w.p0, w.p1 with
    | some p0, some p1 =>
      if g.portWire p0 = some wid ∧ g.portWire p1 = some wid then
        if isDeadN g p0.node then g
        else
          let ga := setDeadN g p0.node
          if isDeadN ga p1.node then reviveN ga p0.node
          else
            let gb := setDeadN ga p1.node
            dispatchRule (bumpOps (disconnectWire gb wid w p0 p1)) p0.node p1.node w.depth
      else g
    | _, _ => g

/- Go `reduceRepDecay`: claim the replicator, load the wires on ports
0 and 1 (reviving and aborting when either is missing), join the two
neighbours by reusing wire `w0` — so the surviving wire keeps its
pre-existing depth — clear the replicator's ports and wire `w1`, and
bump the decay statistic.  When `w0 == w1` (the replicator's two ports
wired to each other) the Go store sequence ends with both endpoint
slots of the single wire nil. -/
def reduceRepDecay (g : Network) (r : Nat) : Network :=
  if isDeadN g r then g
  else
    let g0 := setDeadN g r
    let p0 : PortRef := ⟨r, 0⟩
    let p1 : PortRef := ⟨r, 1⟩
    match g0.portWire p0, g0.portWire p1 with
    | some w0id, some w1id =>
      match g0.wires w0id, g0.wires w1id with
      | some w0, some w1 =>
        let n0 := otherOf w0 p0
        let n1 := otherOf w1 p1
        let w0' : WireData :=
          if w0.p0 = some p0 then { w0 with p0 := n1 } else { w0 with p1 := n1 }
        let wiresUpd :=
          if w0id = w1id then
            updWires g0.wires w0id (some { w0 with p0 := none, p1 := none })
          else
            updWires (updWires g0.wires w0id (some w0')) w1id
              (some { w1 with p0 := none, p1 := none })
        let g1 : Network :=
          { g0 with
              wires := wiresUpd
              portWire := fun p =>
                if p = p0 ∨ p = p1 then none
                else if n1 = some p then some w0id
                else g0.portWire p }
        bumpRepDecay (pushNb2 g1 w0id n0 n1 w0.depth)
      | _, _ => reviveN g0 r
    | _, _ => reviveN g0 r

/- Go `mergeReplicators`: build the combined delta vector — `repA`'s
deltas with the entry at `auxIndexA` expanded into `repB`'s deltas
each shifted by `deltaA` — then a single new replicator at `repA`'s
level, re-splicing `repA`'s principal neighbour and, port by port in
order, `repB`'s auxiliary neighbours in place of the merged port and
`repA`'s remaining auxiliary neighbours. -/
def buildMergedDeltas (dsA dsB : List Int) (auxIndexA : Nat) (deltaA : Int) : List Int :=
  (dsA.enum.map (fun kd =>
    if kd.1 = auxIndexA then dsB.map (fun dB => deltaA + dB) else [kd.2])).flatten

def mergeBRun (g : Network) (newRep repB : Nat) (portIdx : Nat) : List Nat → Network
  | [] => g
  | m :: rest =>
    let g1 :=
      if (g.portWire ⟨repB, m + 1⟩).isSome then
        splice g ⟨newRep, portIdx + m⟩ ⟨repB, m + 1⟩
      else g
    mergeBRun g1 newRep repB portIdx rest

def mergeAuxLoop (g : Network) (newRep repA repB : Nat) (auxIndexA lenB : Nat) :
    List Nat → Nat → Network
  | [], _ => g
  | k :: rest, portIdx =>
    if k = auxIndexA then
      let g1 := mergeBRun g newRep repB portIdx (List.range lenB)
      mergeAuxLoop g1 newRep repA repB auxIndexA lenB rest (portIdx + lenB)
    else
      let g1 :=
        if (g.portWire ⟨repA, k + 1⟩).isSome then
          splice g ⟨newRep, portIdx⟩ ⟨repA, k + 1⟩
        else g
      mergeAuxLoop g1 newRep repA repB auxIndexA lenB rest (portIdx + 1)

def mergeReplicators (g : Network) (repA repB : Nat) (auxIndexA : Nat) : Network :=
  let deltaA := (deltasOf g repA).getD auxIndexA 0
  let newDeltas := buildMergedDeltas (deltasOf g repA) (deltasOf g repB) auxIndexA deltaA
  let gn := newReplicator g (levelOf g repA) newDeltas
  let g1 := gn.1
  let newRep := gn.2
  let g2 := if (g1.portWire ⟨repA, 0⟩).isSome then splice g1 ⟨newRep, 0⟩ ⟨repA, 0⟩ else g1
  let lenA := (deltasOf g2 repA).length
  let lenB := (deltasOf g2 repB).length
  let g3 := mergeAuxLoop g2 newRep repA repB auxIndexA lenB (List.range lenA) 1
  bumpRepMerge g3

/- Go `reduceRepMerge`: scan the auxiliary ports in order; at the
first port whose neighbour is the principal of another replicator at
the compatible level (`otherRep.Level() == rep.Level() + delta`),
claim both and merge (only one merge per pass); a failed claim of the
partner rolls the first claim back and abandons the pass. -/
def mergeScan (g : Network) (r : Nat) : List Nat → Network
  | [] => g
  | i :: rest =>
    match g.portWire ⟨r, i⟩ with
    | none => mergeScan g r rest
    | some wid =>
      match g.wires wid with
      | none => mergeScan g r rest
      | some w =>
        match otherOf w ⟨r, i⟩ with
        | none => mergeScan g r rest
        | some other =>
          if typeOf g other.node = NodeType.replicator ∧ other.idx = 0 then
            let delta := (deltasOf g r).getD (i - 1) 0
            if levelOf g other.node = levelOf g r + delta then
              if isDeadN g r then g
              else
                let g1 := setDeadN g r
                if isDeadN g1 other.node then reviveN g1 r
                else mergeReplicators (setDeadN g1 other.node) r other.node (i - 1)
            else mergeScan g r rest
          else mergeScan g r rest

def reduceRepMerge (g : Network) (r : Nat) : Network :=
  if isDeadN g r then g
  else mergeScan g r (List.range' 1 (numPortsOf g r - 1))

/- One iteration of the `ApplyCanonicalRules` sweep: skip nodes whose
principal port is disconnected, decay unit replicators with delta 0,
otherwise try to merge. -/
def canonStep (g : Network) (nid : Nat) : Network :=
  match g.nodes nid with
  | none => g
  | some nd =>
    if 0 < nd.numPorts ∧ g.portWire ⟨nid, 0⟩ = none then g
    else if nd.typ = NodeType.replicator then
      if nd.numPorts = 2 ∧ nd.deltas.head? = some 0 then reduceRepDecay g nid
      else reduceRepMerge g nid
    else g

/- Go `ApplyCanonicalRules`: snapshot the registry, sweep it once, and
report whether any decay or merge fired by comparing the counters.
The trailing `wg.Wait()` only synchronises with worker goroutines. -/
def applyCanonicalRules (g : Network) : Network × Bool :=
  let d0 := g.stats.repDecay
  let m0 := g.stats.repMerge
  let g' := g.registry.foldl canonStep g
  (g', decide (d0 < g'.stats.repDecay ∨ m0 < g'.stats.repMerge))

/- The depth-first traversal of Go `Canonicalize`: an explicit stack
of node ids (the Go stack stores (node, port) pairs but only the node
is consulted) and a visited set.  The traversal pushes, for every port
of a newly visited node, the node at the other end of the port's wire.
Termination is by fuel; `canonFuel` bounds the number of stack pops —
one initial entry plus at most one push per port of each registered
node, since pushes happen only on a first visit. -/
def dfsNeighbours (g : Network) (nid : Nat) : List Nat :=
  (List.range (numPortsOf g nid)).filterMap (fun i =>
    match g.portWire ⟨nid, i⟩ with
    | none => none
    | some wid =>
      match g.wires wid with
      | none => none
      | some w => (otherOf w ⟨nid, i⟩).map (fun p => p.node))

def canonDFS (g : Network) : Nat → List Nat → List Nat → List Nat
  | 0, _, vis => vis
  | _ + 1, [], vis => vis
  | fuel + 1, nid :: rest, vis =>
    if vis.contains nid then canonDFS g fuel rest vis
    else canonDFS g fuel (dfsNeighbours g nid ++ rest) (nid :: vis)

def canonFuel (g : Network) : Nat :=
  2 + g.registry.foldl (fun s id => s + numPortsOf g id) 0

def canonVisited (g : Network) (rootId : Nat) : List Nat :=
  canonDFS g (canonFuel g) [rootId] []

/- Pruning of one unreachable node: for every still-wired port, a
fresh Eraser is spliced in its place (Go then calls the no-op
`removeNode`). -/
def pruneLoop (g : Network) (nid : Nat) : List Nat → Network
  | [] => g
  | i :: rest =>
    let g1 :=
      if (g.portWire ⟨nid, i⟩).isSome then
        let ge := newEraser g
        splice ge.1 ⟨ge.2, 0⟩ ⟨nid, i⟩
      else g
    pruneLoop g1 nid rest

def pruneNode (g : Network) (nid : Nat) : Network :=
  pruneLoop g nid (List.range (numPortsOf g nid))

/- Go `Canonicalize(root, rootPort)`: mark everything reachable from
the root, then splice fresh erasers over the ports of every
unregistered-as-visited node from the snapshot.  `rootPort` is
carried on the Go stack but never read. -/
def canonicalize (g : Network) (rootId _rootPort : Nat) : Network :=
  let vis := canonVisited g rootId
  g.registry.foldl (fun acc nid => if vis.contains nid then acc else pruneNode acc nid) g

/- Go `CollectGarbage`: delete dead entries from the registry map
(the returned count is the number deleted). -/
def collectGarbage (g : Network) : Network × Nat :=
  let deadIds := g.registry.filter (fun id => isDeadN g id)
  ({ g with
      registry := g.registry.filter (fun id => ¬ isDeadN g id)
      nodes := fun id =>
        match g.nodes id with
        | some nd => if nd.dead then none else some nd
        | none => none }, deadIds.length)

/- The loop body of Go `ReduceWithLimit`: pop (the sequential
projection of the blocking `Pop`, cf. the scheduler comment), reduce
under the reduction mutex, and collect garbage every `gcInterval = 10`
iterations.  `n.Start()` only launches worker goroutines and is
invisible sequentially. -/
def rwlLoop (g : Network) : Nat → Nat → Network
  | 0, _ => g
  | rem + 1, i =>
    match g.sched.pop with
    | none => g
    | some ws =>
      let g1 := reducePair { g with sched := ws.2 } ws.1
      let g2 := if (i + 1) % 10 = 0 then (collectGarbage g1).1 else g1
      rwlLoop g2 rem (i + 1)

/- Go `ReduceWithLimit`: zero limit short-circuits; otherwise run the
bounded loop and return how much `TotalReductions` advanced. -/
def reduceWithLimit (g : Network) (maxReductions : Nat) : Network × Nat :=
  if maxReductions = 0 then (g, 0)
  else
    let start := g.stats.ops
    let g' := rwlLoop g maxReductions 0
    (g', g'.stats.ops - start)

/- Concrete networks used below to evaluate the operations on closed
inputs.  Ids are assigned by the counter: the first created node is 1,
the second 2, and so on; wires likewise. -/

/- A replicator stack for the canonical-rule sweep: R (id 1, level 0,
deltas [1,1]) has aux 1 on the principal of S1 (id 2, level 1,
deltas [5]) and aux 2 on the principal of S2 (id 3, level 1,
deltas [5]); vars 4, 5, 6 hold the principal of R, aux 1 of S1 and
aux 1 of S2. -/
def netC6 : Network :=
  let s1 := newReplicator emptyNet 0 [1, 1]
  let s2 := newReplicator s1.1 1 [5]
  let s3 := newReplicator s2.1 1 [5]
  let s4 := newVar s3.1
  let s5 := newVar s4.1
  let s6 := newVar s5.1
  let g := link s6.1 1 1 2 0
  let g := link g 1 2 3 0
  let g := link g 4 0 1 0
  let g := link g 5 0 2 1
  let g := link g 6 0 3 1
  g

/- An active pair of a Replicator (id 1) against a Data node (id 2):
a combination the dispatch table does not know. -/
def netC7 : Network :=
  let s1 := newReplicator emptyNet 0 [0]
  let s2 := newData s1.1 (Value.num 0)
  link s2.1 1 0 2 0

/- A root Var (id 1) with no wires, plus a disconnected component of
two linked Vars (ids 2 and 3). -/
def netC8 : Network :=
  let s1 := newVar emptyNet
  let s2 := newVar s1.1
  let s3 := newVar s2.1
  link s3.1 2 0 3 0

/- An active pair of replicators at levels 0 and 1 where the lower one
carries the negative delta -2. -/
def netC9 : Network :=
  let s1 := newReplicator emptyNet 0 [-2]
  let s2 := newReplicator s1.1 1 []
  link s2.1 1 0 2 0

/- A replicator pair for commutation: lower A (id 1, level 0,
deltas [1]) against higher B (id 2, level 1, deltas [2]), with vars 3
and 4 on their auxiliary ports. -/
def netC1 : Network :=
  let s1 := newReplicator emptyNet 0 [1]
  let s2 := newReplicator s1.1 1 [2]
  let s3 := newVar s2.1
  let s4 := newVar s3.1
  let g := link s4.1 1 0 2 0
  let g := link g 1 1 3 0
  let g := link g 2 1 4 0
  g

/- A merge candidate: R (id 1, level 0, deltas [1]) with aux 1 on the
principal of S (id 2, level 1, deltas [3]); vars 3 and 4 hold R's
principal and S's aux 1. -/
def netC2 : Network :=
  let s1 := newReplicator emptyNet 0 [1]
  let s2 := newReplicator s1.1 1 [3]
  let s3 := newVar s2.1
  let s4 := newVar s3.1
  let g := link s4.1 1 1 2 0
  let g := link g 3 0 1 0
  let g := link g 4 0 2 1
  g

/- A decayable unit replicator: R (id 1, level 0, deltas [0]) between
vars 2 and 3. -/
def netC3 : Network :=
  let s1 := newReplicator emptyNet 0 [0]
  let s2 := newVar s1.1
  let s3 := newVar s2.1
  let g := link s3.1 2 0 1 0
  let g := link g 3 0 1 1
  g

/- An Eraser–Eraser active pair (ids 1 and 2). -/
def netC10 : Network :=
  let s1 := newEraser emptyNet
  let s2 := newEraser s1.1
  link s2.1 1 0 2 0

/- Two linked Vars, everything reachable from node 1. -/
def netC8r : Network :=
  let s1 := newVar emptyNet
  let s2 := newVar s1.1
  link s2.1 1 0 2 0

/- Two unwired replicators with non-negative levels and deltas. -/
def netTiny : Network :=
  (newReplicator (newReplicator emptyNet 0 [1]).1 1 [3]).1

/- The defining equation of the replaced endpoint pair. -/
def replaceEndpoint (w : WireData) (pOld pNew : PortRef) : WireData :=
  if w.p0 = some pOld then { w with p0 := some pNew } else { w with p1 := some pNew }

/- The claim-and-verify prefix of `reducePair` succeeds exactly when
the wire still has both endpoints, both endpoint ports still point at
it, and both dead-flag claims succeed. -/
def dispatchGuard (g : Network) (wid : Nat) : Bool :=
  match g.wires wid with
  | none => false
  | some w =>
    match w.p0, w.p1 with
    | some p0, some p1 =>
      decide (g.portWire p0 = some wid) && decide (g.portWire p1 = some wid) &&
        !(isDeadN g p0.node) && !(isDeadN (setDeadN g p0.node) p1.node)
    | _, _ => false

/- The combinations of agent kinds that fall through every case of the
`reducePair` dispatch switch. -/
def unknownPair (ta tb : NodeType) : Prop :=
  ta ≠ tb ∧ ta ≠ NodeType.eraser ∧ tb ≠ NodeType.eraser ∧
  ¬((ta = NodeType.fan ∧ tb = NodeType.replicator) ∨
    (ta = NodeType.replicator ∧ tb = NodeType.fan)) ∧
  ¬((ta = NodeType.fan ∧ tb = NodeType.pure) ∨
    (ta = NodeType.pure ∧ tb = NodeType.fan)) ∧
  ¬((ta = NodeType.fan ∧ tb = NodeType.data) ∨
    (ta = NodeType.data ∧ tb = NodeType.fan))

instance unknownPairDec (ta tb : NodeType) : Decidable (unknownPair ta tb) := by
  unfold unknownPair
  infer_instance

/- The per-replicator invariants of the data model: the port-slice
arity law, level non-negativity, and delta non-negativity. -/
def repOK (nd : NodeData) : Prop :=
  nd.typ = NodeType.replicator → nd.numPorts = 1 + nd.deltas.length

def repLevelOK (nd : NodeData) : Prop :=
  nd.typ = NodeType.replicator → 0 ≤ nd.level

def repDeltasOK (nd : NodeData) : Prop :=
  nd.typ = NodeType.replicator → ∀ d ∈ nd.deltas, 0 ≤ d

def nodesInv (P : NodeData → Prop) (g : Network) : Prop :=
  ∀ id nd, g.nodes id = some nd → P nd

instance repOKDec (nd : NodeData) : Decidable (repOK nd) := by
  unfold repOK; infer_instance

instance repLevelOKDec (nd : NodeData) : Decidable (repLevelOK nd) := by
  unfold repLevelOK; infer_instance

instance repDeltasOKDec (nd : NodeData) : Decidable (repDeltasOK nd) := by
  unfold repDeltasOK; infer_instance

/- A wire's endpoint pair viewed as an unordered pair. -/
def connectsWD (w : WireData) (p q : PortRef) : Prop :=
  (w.p0 = some p ∧ w.p1 = some q) ∨ (w.p0 = some q ∧ w.p1 = some p)

/- Frame lemmas: which fields each primitive leaves untouched. -/

@[simp] theorem pushActive_nodes (g : Network) (wid : Nat) (p q : PortRef) (d : Nat) :
    (pushActive g wid p q d).nodes = g.nodes := by
  unfold pushActive; split <;> rfl

@[simp] theorem pushActive_stats (g : Network) (wid : Nat) (p q : PortRef) (d : Nat) :
    (pushActive g wid p q d).stats = g.stats := by
  unfold pushActive; split <;> rfl

@[simp] theorem pushActive_portWire (g : Network) (wid : Nat) (p q : PortRef) (d : Nat) :
    (pushActive g wid p q d).portWire = g.portWire := by
  unfold pushActive; split <;> rfl

@[simp] theorem pushActive_wires (g : Network) (wid : Nat) (p q : PortRef) (d : Nat) :
    (pushActive g wid p q d).wires = g.wires := by
  unfold pushActive; split <;> rfl

@[simp] theorem pushActive_nextId (g : Network) (wid : Nat) (p q : PortRef) (d : Nat) :
    (pushActive g wid p q d).nextId = g.nextId := by
  unfold pushActive; split <;> rfl

@[simp] theorem pushActive_nextWire (g : Network) (wid : Nat) (p q : PortRef) (d : Nat) :
    (pushActive g wid p q d).nextWire = g.nextWire := by
  unfold pushActive; split <;> rfl

@[simp] theorem pushActive_registry (g : Network) (wid : Nat) (p q : PortRef) (d : Nat) :
    (pushActive g wid p q d).registry = g.registry := by
  unfold pushActive; split <;> rfl

@[simp] theorem pushActive_phase (g : Network) (wid : Nat) (p q : PortRef) (d : Nat) :
    (pushActive g wid p q d).phase = g.phase := by
  unfold pushActive; split <;> rfl

@[simp] theorem pushNb_nodes (g : Network) (wid : Nat) (p : PortRef) (nb : Option PortRef) (d : Nat) :
    (pushNb g wid p nb d).nodes = g.nodes := by
  cases nb <;> simp [pushNb]

@[simp] theorem pushNb_stats (g : Network) (wid : Nat) (p : PortRef) (nb : Option PortRef) (d : Nat) :
    (pushNb g wid p nb d).stats = g.stats := by
  cases nb <;> simp [pushNb]

@[simp] theorem pushNb_portWire (g : Network) (wid : Nat) (p : PortRef) (nb : Option PortRef) (d : Nat) :
    (pushNb g wid p nb d).portWire = g.portWire := by
  cases nb <;> simp [pushNb]

@[simp] theorem pushNb_wires (g : Network) (wid : Nat) (p : PortRef) (nb : Option PortRef) (d : Nat) :
    (pushNb g wid p nb d).wires = g.wires := by
  cases nb <;> simp [pushNb]

@[simp] theorem pushNb_nextId (g : Network) (wid : Nat) (p : PortRef) (nb : Option PortRef) (d : Nat) :
    (pushNb g wid p nb d).nextId = g.nextId := by
  cases nb <;> simp [pushNb]

@[simp] theorem pushNb_nextWire (g : Network) (wid : Nat) (p : PortRef) (nb : Option PortRef) (d : Nat) :
    (pushNb g wid p nb d).nextWire = g.nextWire := by
  cases nb <;> simp [pushNb]

@[simp] theorem pushNb_registry (g : Network) (wid : Nat) (p : PortRef) (nb : Option PortRef) (d : Nat) :
    (pushNb g wid p nb d).registry = g.registry := by
  cases nb <;> simp [pushNb]

@[simp] theorem pushNb_phase (g : Network) (wid : Nat) (p : PortRef) (nb : Option PortRef) (d : Nat) :
    (pushNb g wid p nb d).phase = g.phase := by
  cases nb <;> simp [pushNb]

@[simp] theorem pushNb2_nodes (g : Network) (wid : Nat) (n1 n2 : Option PortRef) (d : Nat) :
    (pushNb2 g wid n1 n2 d).nodes = g.nodes := by
  cases n1 <;> cases n2 <;> simp [pushNb2]

@[simp] theorem pushNb2_stats (g : Network) (wid : Nat) (n1 n2 : Option PortRef) (d : Nat) :
    (pushNb2 g wid n1 n2 d).stats = g.stats := by
  cases n1 <;> cases n2 <;> simp [pushNb2]

@[simp] theorem pushNb2_portWire (g : Network) (wid : Nat) (n1 n2 : Option PortRef) (d : Nat) :
    (pushNb2 g wid n1 n2 d).portWire = g.portWire := by
  cases n1 <;> cases n2 <;> simp [pushNb2]

@[simp] theorem pushNb2_wires (g : Network) (wid : Nat) (n1 n2 : Option PortRef) (d : Nat) :
    (pushNb2 g wid n1 n2 d).wires = g.wires := by
  cases n1 <;> cases n2 <;> simp [pushNb2]

@[simp] theorem pushNb2_nextId (g : Network) (wid : Nat) (n1 n2 : Option PortRef) (d : Nat) :
    (pushNb2 g wid n1 n2 d).nextId = g.nextId := by
  cases n1 <;> cases n2 <;> simp [pushNb2]

@[simp] theorem pushNb2_nextWire (g : Network) (wid : Nat) (n1 n2 : Option PortRef) (d : Nat) :
    (pushNb2 g wid n1 n2 d).nextWire = g.nextWire := by
  cases n1 <;> cases n2 <;> simp [pushNb2]

@[simp] theorem pushNb2_registry (g : Network) (wid : Nat) (n1 n2 : Option PortRef) (d : Nat) :
    (pushNb2 g wid n1 n2 d).registry = g.registry := by
  cases n1 <;> cases n2 <;> simp [pushNb2]

@[simp] theorem pushNb2_phase (g : Network) (wid : Nat) (n1 n2 : Option PortRef) (d : Nat) :
    (pushNb2 g wid n1 n2 d).phase = g.phase := by
  cases n1 <;> cases n2 <;> simp [pushNb2]

@[simp] theorem splice_nodes (g : Network) (pNew pOld : PortRef) :
    (splice g pNew pOld).nodes = g.nodes := by
  unfold splice
  repeat' split
  all_goals simp

@[simp] theorem splice_stats (g : Network) (pNew pOld : PortRef) :
    (splice g pNew pOld).stats = g.stats := by
  unfold splice
  repeat' split
  all_goals simp

@[simp] theorem splice_nextId (g : Network) (pNew pOld : PortRef) :
    (splice g pNew pOld).nextId = g.nextId := by
  unfold splice
  repeat' split
  all_goals simp

@[simp] theorem splice_nextWire (g : Network) (pNew pOld : PortRef) :
    (splice g pNew pOld).nextWire = g.nextWire := by
  unfold splice
  repeat' split
  all_goals simp

@[simp] theorem splice_registry (g : Network) (pNew pOld : PortRef) :
    (splice g pNew pOld).registry = g.registry := by
  unfold splice
  repeat' split
  all_goals simp

@[simp] theorem splice_phase (g : Network) (pNew pOld : PortRef) :
    (splice g pNew pOld).phase = g.phase := by
  unfold splice
  repeat' split
  all_goals simp

theorem splice_portWire_frame (g : Network) (pNew pOld p : PortRef)
    (hn : p ≠ pNew) (ho : p ≠ pOld) :
    (splice g pNew pOld).portWire p = g.portWire p := by
  unfold splice
  repeat' split
  all_goals simp [hn, ho]

theorem splice_wires_frame (g : Network) (pNew pOld : PortRef) (wid : Nat)
    (h : g.portWire pOld ≠ some wid) :
    (splice g pNew pOld).wires wid = g.wires wid := by
  unfold splice
  split
  · rfl
  rename_i wid' hw
  have hne : wid ≠ wid' := by
    intro he; exact h (by rw [he, hw])
  repeat' split
  all_goals simp [updWires, hne]

theorem splice_spec (g : Network) (pNew pOld : PortRef) (wid : Nat) (w : WireData)
    (h1 : g.portWire pOld = some wid) (h2 : g.wires wid = some w)
    (h3 : w.p0 = some pOld ∨ w.p1 = some pOld) :
    (splice g pNew pOld).portWire pNew = some wid ∧
    (pOld ≠ pNew → (splice g pNew pOld).portWire pOld = none) ∧
    (splice g pNew pOld).wires wid = some (replaceEndpoint w pOld pNew) := by
  unfold splice
  simp only [h1, h2]
  rw [if_pos h3]
  refine ⟨?_, ?_, ?_⟩
  · split <;> simp
  · intro hne
    split <;> simp [hne]
  · split <;> rename_i hp <;> simp [updWires, replaceEndpoint, hp]

@[simp] theorem connect_nodes (g : Network) (q1 q2 : PortRef) (d : Nat) :
    (connect g q1 q2 d).nodes = g.nodes := by
  simp [connect]

@[simp] theorem connect_stats (g : Network) (q1 q2 : PortRef) (d : Nat) :
    (connect g q1 q2 d).stats = g.stats := by
  simp [connect]

@[simp] theorem connect_nextId (g : Network) (q1 q2 : PortRef) (d : Nat) :
    (connect g q1 q2 d).nextId = g.nextId := by
  simp [connect]

@[simp] theorem connect_nextWire (g : Network) (q1 q2 : PortRef) (d : Nat) :
    (connect g q1 q2 d).nextWire = g.nextWire + 1 := by
  simp [connect]

@[simp] theorem connect_registry (g : Network) (q1 q2 : PortRef) (d : Nat) :
    (connect g q1 q2 d).registry = g.registry := by
  simp [connect]

@[simp] theorem connect_phase (g : Network) (q1 q2 : PortRef) (d : Nat) :
    (connect g q1 q2 d).phase = g.phase := by
  simp [connect]

theorem connect_wires_new (g : Network) (q1 q2 : PortRef) (d : Nat) :
    (connect g q1 q2 d).wires (g.nextWire + 1) = some ⟨some q1, some q2, d + 1⟩ := by
  simp [connect, updWires]

theorem connect_wires_frame (g : Network) (q1 q2 : PortRef) (d : Nat) (wid : Nat)
    (h : wid ≠ g.nextWire + 1) :
    (connect g q1 q2 d).wires wid = g.wires wid := by
  simp [connect, updWires, h]

theorem connect_portWire_at (g : Network) (q1 q2 : PortRef) (d : Nat) (p : PortRef)
    (h : p = q1 ∨ p = q2) :
    (connect g q1 q2 d).portWire p = some (g.nextWire + 1) := by
  simp [connect, h]

theorem connect_portWire_frame (g : Network) (q1 q2 : PortRef) (d : Nat) (p : PortRef)
    (h1 : p ≠ q1) (h2 : p ≠ q2) :
    (connect g q1 q2 d).portWire p = g.portWire p := by
  simp [connect, h1, h2]

@[simp] theorem addNode_id (g : Network) (nd : NodeData) :
    (addNode g nd).2 = g.nextId + 1 := rfl

@[simp] theorem addNode_nextId (g : Network) (nd : NodeData) :
    (addNode g nd).1.nextId = g.nextId + 1 := rfl

@[simp] theorem addNode_nextWire (g : Network) (nd : NodeData) :
    (addNode g nd).1.nextWire = g.nextWire := rfl

@[simp] theorem addNode_stats (g : Network) (nd : NodeData) :
    (addNode g nd).1.stats = g.stats := rfl

@[simp] theorem addNode_wires (g : Network) (nd : NodeData) :
    (addNode g nd).1.wires = g.wires := rfl

@[simp] theorem addNode_registry (g : Network) (nd : NodeData) :
    (addNode g nd).1.registry = g.registry ++ [g.nextId + 1] := rfl

@[simp] theorem addNode_sched (g : Network) (nd : NodeData) :
    (addNode g nd).1.sched = g.sched := rfl

@[simp] theorem addNode_phase (g : Network) (nd : NodeData) :
    (addNode g nd).1.phase = g.phase := rfl

theorem addNode_nodes_new (g : Network) (nd : NodeData) :
    (addNode g nd).1.nodes (g.nextId + 1) = some nd := by
  simp [addNode, updNodes]

theorem addNode_nodes_frame (g : Network) (nd : NodeData) (i : Nat)
    (h : i ≠ g.nextId + 1) :
    (addNode g nd).1.nodes i = g.nodes i := by
  simp [addNode, updNodes, h]

theorem addNode_portWire_fresh (g : Network) (nd : NodeData) (p : PortRef)
    (h : p.node = g.nextId + 1) :
    (addNode g nd).1.portWire p = none := by
  simp [addNode, h]

theorem addNode_portWire_frame (g : Network) (nd : NodeData) (p : PortRef)
    (h : p.node ≠ g.nextId + 1) :
    (addNode g nd).1.portWire p = g.portWire p := by
  simp [addNode, h]

@[simp] theorem setDeadN_stats (g : Network) (nid : Nat) :
    (setDeadN g nid).stats = g.stats := rfl

@[simp] theorem setDeadN_portWire (g : Network) (nid : Nat) :
    (setDeadN g nid).portWire = g.portWire := rfl

@[simp] theorem setDeadN_wires (g : Network) (nid : Nat) :
    (setDeadN g nid).wires = g.wires := rfl

@[simp] theorem setDeadN_nextId (g : Network) (nid : Nat) :
    (setDeadN g nid).nextId = g.nextId := rfl

@[simp] theorem setDeadN_nextWire (g : Network) (nid : Nat) :
    (setDeadN g nid).nextWire = g.nextWire := rfl

@[simp] theorem setDeadN_registry (g : Network) (nid : Nat) :
    (setDeadN g nid).registry = g.registry := rfl

@[simp] theorem setDeadN_sched (g : Network) (nid : Nat) :
    (setDeadN g nid).sched = g.sched := rfl

@[simp] theorem setDeadN_phase (g : Network) (nid : Nat) :
    (setDeadN g nid).phase = g.phase := rfl

@[simp] theorem reviveN_stats (g : Network) (nid : Nat) :
    (reviveN g nid).stats = g.stats := rfl

@[simp] theorem reviveN_portWire (g : Network) (nid : Nat) :
    (reviveN g nid).portWire = g.portWire := rfl

@[simp] theorem reviveN_wires (g : Network) (nid : Nat) :
    (reviveN g nid).wires = g.wires := rfl

@[simp] theorem reviveN_nextId (g : Network) (nid : Nat) :
    (reviveN g nid).nextId = g.nextId := rfl

@[simp] theorem reviveN_nextWire (g : Network) (nid : Nat) :
    (reviveN g nid).nextWire = g.nextWire := rfl

@[simp] theorem reviveN_registry (g : Network) (nid : Nat) :
    (reviveN g nid).registry = g.registry := rfl

@[simp] theorem reviveN_phase (g : Network) (nid : Nat) :
    (reviveN g nid).phase = g.phase := rfl

theorem setDeadN_nodes_at (g : Network) (nid : Nat) :
    (setDeadN g nid).nodes nid = (g.nodes nid).map (fun nd => { nd with dead := true }) := by
  simp [setDeadN, updNodes]

theorem setDeadN_nodes_frame (g : Network) (nid i : Nat) (h : i ≠ nid) :
    (setDeadN g nid).nodes i = g.nodes i := by
  simp [setDeadN, updNodes, h]

theorem reviveN_nodes_at (g : Network) (nid : Nat) :
    (reviveN g nid).nodes nid = (g.nodes nid).map (fun nd => { nd with dead := false }) := by
  simp [reviveN, updNodes]

theorem reviveN_nodes_frame (g : Network) (nid i : Nat) (h : i ≠ nid) :
    (reviveN g nid).nodes i = g.nodes i := by
  simp [reviveN, updNodes, h]

/- Reviving an alive node undoes a claim exactly: the Go rollback
`a.Revive()` after a successful `a.SetDead()` restores the state. -/
theorem revive_setDead_of_alive (g : Network) (nid : Nat) (h : isDeadN g nid = false) :
    reviveN (setDeadN g nid) nid = g := by
  unfold reviveN setDeadN
  cases g with
  | mk nextId nextWire nodes registry portWire wires sched stats natives phase =>
    simp only [Network.mk.injEq, and_true, true_and, eq_self_iff_true]
    funext i
    simp only [updNodes]
    by_cases hi : i = nid
    · subst hi
      cases hn : nodes i with
      | none => simp [hn]
      | some nd =>
        have hd : nd.dead = false := by
          simpa [isDeadN, hn] using h
        cases nd
        simp_all
    · simp [hi]

@[simp] theorem fuse_nodes (g : Network) (p1 p2 : PortRef) :
    (fuse g p1 p2).nodes = g.nodes := by
  unfold fuse
  repeat' split
  all_goals simp

@[simp] theorem fuse_stats (g : Network) (p1 p2 : PortRef) :
    (fuse g p1 p2).stats = g.stats := by
  unfold fuse
  repeat' split
  all_goals simp

@[simp] theorem fuse_nextId (g : Network) (p1 p2 : PortRef) :
    (fuse g p1 p2).nextId = g.nextId := by
  unfold fuse
  repeat' split
  all_goals simp

@[simp] theorem fuse_nextWire (g : Network) (p1 p2 : PortRef) :
    (fuse g p1 p2).nextWire = g.nextWire := by
  unfold fuse
  repeat' split
  all_goals simp

@[simp] theorem fuse_registry (g : Network) (p1 p2 : PortRef) :
    (fuse g p1 p2).registry = g.registry := by
  unfold fuse
  repeat' split
  all_goals simp

@[simp] theorem fuse_phase (g : Network) (p1 p2 : PortRef) :
    (fuse g p1 p2).phase = g.phase := by
  unfold fuse
  repeat' split
  all_goals simp

@[simp] theorem disconnectWire_stats (g : Network) (wid : Nat) (w : WireData) (p0 p1 : PortRef) :
    (disconnectWire g wid w p0 p1).stats = g.stats := rfl

@[simp] theorem disconnectWire_nodes (g : Network) (wid : Nat) (w : WireData) (p0 p1 : PortRef) :
    (disconnectWire g wid w p0 p1).nodes = g.nodes := rfl

@[simp] theorem disconnectWire_registry (g : Network) (wid : Nat) (w : WireData) (p0 p1 : PortRef) :
    (disconnectWire g wid w p0 p1).registry = g.registry := rfl

@[simp] theorem disconnectWire_nextId (g : Network) (wid : Nat) (w : WireData) (p0 p1 : PortRef) :
    (disconnectWire g wid w p0 p1).nextId = g.nextId := rfl

@[simp] theorem disconnectWire_nextWire (g : Network) (wid : Nat) (w : WireData) (p0 p1 : PortRef) :
    (disconnectWire g wid w p0 p1).nextWire = g.nextWire := rfl

@[simp] theorem disconnectWire_sched (g : Network) (wid : Nat) (w : WireData) (p0 p1 : PortRef) :
    (disconnectWire g wid w p0 p1).sched = g.sched := rfl

@[simp] theorem disconnectWire_phase (g : Network) (wid : Nat) (w : WireData) (p0 p1 : PortRef) :
    (disconnectWire g wid w p0 p1).phase = g.phase := rfl

theorem disconnectWire_portWire_at (g : Network) (wid : Nat) (w : WireData) (p0 p1 p : PortRef)
    (h : p = p0 ∨ p = p1) :
    (disconnectWire g wid w p0 p1).portWire p = none := by
  simp [disconnectWire, h]

theorem disconnectWire_portWire_frame (g : Network) (wid : Nat) (w : WireData) (p0 p1 p : PortRef)
    (h0 : p ≠ p0) (h1 : p ≠ p1) :
    (disconnectWire g wid w p0 p1).portWire p = g.portWire p := by
  simp [disconnectWire, h0, h1]

theorem disconnectWire_wires_at (g : Network) (wid : Nat) (w : WireData) (p0 p1 : PortRef) :
    (disconnectWire g wid w p0 p1).wires wid = some { w with p0 := none, p1 := none } := by
  simp [disconnectWire, updWires]

theorem disconnectWire_wires_frame (g : Network) (wid : Nat) (w : WireData) (p0 p1 : PortRef)
    (wid' : Nat) (h : wid' ≠ wid) :
    (disconnectWire g wid w p0 p1).wires wid' = g.wires wid' := by
  simp [disconnectWire, updWires, h]

/- The node constructors are thin wrappers over `addNode`; letting
`simp` unfold them exposes the `addNode` frame lemmas. -/
attribute [simp] newFan newEraser newReplicator newVar newData newNative
attribute [simp] createReplicatorCopy createReplicatorCopyWithLevel

/- Statistics frames for the rule bodies: none of the wiring loops
touches a counter (the counters are bumped only in `reducePair`'s
dispatch, `mergeReplicators` and `reduceRepDecay`). -/

@[simp] theorem annihilateLoop_stats (a b : Nat) (L : List Nat) :
    ∀ g : Network, (annihilateLoop g a b L).stats = g.stats := by
  induction L with
  | nil => intro g; rfl
  | cons i rest ih =>
    intro g
    simp only [annihilateLoop]
    rw [ih]
    simp

@[simp] theorem annihilate_stats (g : Network) (a b : Nat) :
    (annihilate g a b).stats = g.stats := by
  unfold annihilate
  simp

@[simp] theorem eraseLoop_stats (v : Nat) (L : List Nat) :
    ∀ g : Network, (eraseLoop g v L).stats = g.stats := by
  induction L with
  | nil => intro g; rfl
  | cons i rest ih =>
    intro g
    simp only [eraseLoop]
    rw [ih]
    simp

@[simp] theorem erase_stats (g : Network) (e v : Nat) :
    (erase g e v).stats = g.stats := by
  unfold erase
  simp

@[simp] theorem fanRepLoop_stats (rep r1 r2 : Nat) (depth : Nat) (L : List Nat) :
    ∀ g : Network, (fanRepLoop g rep r1 r2 depth L).stats = g.stats := by
  induction L with
  | nil => intro g; rfl
  | cons i rest ih =>
    intro g
    simp only [fanRepLoop]
    rw [ih]
    split <;> simp

@[simp] theorem commuteFanReplicator_stats (g : Network) (fan rep : Nat) (depth : Nat) :
    (commuteFanReplicator g fan rep depth).stats = g.stats := by
  unfold commuteFanReplicator
  rw [fanRepLoop_stats]
  split <;> split <;> simp [createReplicatorCopy]

@[simp] theorem auxFanReplication_stats (g : Network) (fan rep : Nat) (depth : Nat) :
    (auxFanReplication g fan rep depth).stats = g.stats := by
  unfold auxFanReplication
  simp

@[simp] theorem commuteBLoop_stats (a b : Nat) (L : List Nat) :
    ∀ g : Network, (commuteBLoop g a b L).1.stats = g.stats := by
  induction L with
  | nil => intro g; rfl
  | cons i rest ih =>
    intro g
    simp only [commuteBLoop]
    rw [ih]
    split <;> simp [createReplicatorCopyWithLevel, newReplicator]

@[simp] theorem connectRow_stats (aCopy i depth : Nat) (L : List (Nat × Nat)) :
    ∀ g : Network, (connectRow g aCopy i depth L).stats = g.stats := by
  induction L with
  | nil => intro g; rfl
  | cons kb rest ih =>
    intro g
    cases kb with
    | mk k bk =>
      simp only [connectRow]
      rw [ih]
      simp

@[simp] theorem commuteALoop_stats (a b : Nat) (bCopies : List Nat) (depth : Nat) (L : List Nat) :
    ∀ g : Network, (commuteALoop g a b bCopies depth L).stats = g.stats := by
  induction L with
  | nil => intro g; rfl
  | cons i rest ih =>
    intro g
    simp only [commuteALoop]
    rw [ih, connectRow_stats]
    split <;> simp [createReplicatorCopy, newReplicator]

@[simp] theorem commuteReplicatorsGo_stats (g : Network) (a b : Nat) (depth : Nat) :
    (commuteReplicatorsGo g a b depth).stats = g.stats := by
  unfold commuteReplicatorsGo
  simp

@[simp] theorem commuteReplicators_stats (g : Network) (a b : Nat) (depth : Nat) :
    (commuteReplicators g a b depth).stats = g.stats := by
  unfold commuteReplicators
  split <;> simp

@[simp] theorem applyNative_stats (g : Network) (fan native : Nat) (depth : Nat) :
    (applyNative g fan native depth).stats = g.stats := by
  unfold applyNative
  dsimp only
  repeat' split
  all_goals simp

@[simp] theorem mergeBRun_stats (newRep repB portIdx : Nat) (L : List Nat) :
    ∀ g : Network, (mergeBRun g newRep repB portIdx L).stats = g.stats := by
  induction L with
  | nil => intro g; rfl
  | cons m rest ih =>
    intro g
    simp only [mergeBRun]
    rw [ih]
    split <;> simp

@[simp] theorem mergeAuxLoop_stats (newRep repA repB auxIndexA lenB : Nat) (L : List Nat) :
    ∀ (portIdx : Nat) (g : Network),
      (mergeAuxLoop g newRep repA repB auxIndexA lenB L portIdx).stats = g.stats := by
  induction L with
  | nil => intro portIdx g; rfl
  | cons k rest ih =>
    intro portIdx g
    simp only [mergeAuxLoop]
    split
    · rw [ih]; simp
    · rw [ih]; split <;> simp

theorem mergeReplicators_stats (g : Network) (ra rb idx : Nat) :
    (mergeReplicators g ra rb idx).stats =
      { g.stats with repMerge := g.stats.repMerge + 1 } := by
  unfold mergeReplicators bumpRepMerge
  dsimp only
  rw [mergeAuxLoop_stats]
  split <;> simp

/- The canonical rules change the statistics in exactly one way: a
successful pass bumps its own dedicated counter by one; every failure
path leaves the counters untouched. -/
theorem reduceRepDecay_stats (g : Network) (r : Nat) :
    (reduceRepDecay g r).stats = g.stats ∨
    (reduceRepDecay g r).stats = { g.stats with repDecay := g.stats.repDecay + 1 } := by
  unfold reduceRepDecay bumpRepDecay
  dsimp only
  repeat' split
  all_goals first
  | (left; simp; done)
  | (right; simp; done)

theorem mergeScan_stats (r : Nat) (L : List Nat) :
    ∀ g : Network,
      (mergeScan g r L).stats = g.stats ∨
      (mergeScan g r L).stats = { g.stats with repMerge := g.stats.repMerge + 1 } := by
  induction L with
  | nil => intro g; left; rfl
  | cons i rest ih =>
    intro g
    rw [mergeScan]
    dsimp only
    repeat' split
    all_goals first
    | exact ih g
    | (left; simp; done)
    | (right; rw [mergeReplicators_stats]; simp; done)

theorem reduceRepMerge_stats (g : Network) (r : Nat) :
    (reduceRepMerge g r).stats = g.stats ∨
    (reduceRepMerge g r).stats = { g.stats with repMerge := g.stats.repMerge + 1 } := by
  unfold reduceRepMerge
  split
  · left; rfl
  · exact mergeScan_stats r _ g

/- `TotalReductions` is untouched by the dispatch table (it is bumped
once, before the switch). -/
theorem dispatchRule_ops (g : Network) (a b d : Nat) :
    (dispatchRule g a b d).stats.ops = g.stats.ops := by
  unfold dispatchRule
  dsimp only
  repeat' split
  all_goals simp [bumpRepAnn, bumpRepComm, bumpFanAnn, bumpErasure,
    bumpAuxFanRep, bumpFanRepComm]

theorem reducePair_ops (g : Network) (wid : Nat) :
    (reducePair g wid).stats.ops =
      g.stats.ops + (if dispatchGuard g wid = true then 1 else 0) := by
  unfold reducePair dispatchGuard
  repeat' split
  all_goals simp_all [dispatchRule_ops, bumpOps]

theorem reducePair_ops_le (g : Network) (wid : Nat) :
    g.stats.ops ≤ (reducePair g wid).stats.ops ∧
    (reducePair g wid).stats.ops ≤ g.stats.ops + 1 := by
  rw [reducePair_ops]
  split <;> omega

@[simp] theorem collectGarbage_stats (g : Network) :
    (collectGarbage g).1.stats = g.stats := rfl

theorem rwlLoop_ops (rem : Nat) :
    ∀ (i : Nat) (g : Network),
      g.stats.ops ≤ (rwlLoop g rem i).stats.ops ∧
      (rwlLoop g rem i).stats.ops ≤ g.stats.ops + rem := by
  induction rem with
  | zero => intro i g; simp [rwlLoop]
  | succ rem ih =>
    intro i g
    rw [rwlLoop]
    cases hp : g.sched.pop with
    | none => simp
    | some ws =>
      dsimp only
      have h1 := reducePair_ops_le { g with sched := ws.2 } ws.1
      dsimp only at h1
      by_cases hgc : (i + 1) % 10 = 0
      · rw [if_pos hgc]
        have h2 := ih (i + 1) (collectGarbage (reducePair { g with sched := ws.2 } ws.1)).1
        simp only [collectGarbage_stats] at h2
        constructor
        · calc g.stats.ops ≤ (reducePair { g with sched := ws.2 } ws.1).stats.ops := h1.1
            _ ≤ _ := h2.1
        · calc (rwlLoop (collectGarbage (reducePair { g with sched := ws.2 } ws.1)).1 rem (i+1)).stats.ops
              ≤ (reducePair { g with sched := ws.2 } ws.1).stats.ops + rem := h2.2
            _ ≤ g.stats.ops + 1 + rem := by
                have := h1.2
                omega
            _ = g.stats.ops + (rem + 1) := by omega
      · rw [if_neg hgc]
        have h2 := ih (i + 1) (reducePair { g with sched := ws.2 } ws.1)
        constructor
        · calc g.stats.ops ≤ (reducePair { g with sched := ws.2 } ws.1).stats.ops := h1.1
            _ ≤ _ := h2.1
        · calc (rwlLoop (reducePair { g with sched := ws.2 } ws.1) rem (i+1)).stats.ops
              ≤ (reducePair { g with sched := ws.2 } ws.1).stats.ops + rem := h2.2
            _ ≤ g.stats.ops + 1 + rem := by
                have := h1.2
                omega
            _ = g.stats.ops + (rem + 1) := by omega

/-- C4: For every network state and every bound N, `ReduceWithLimit N`
performs at most N rewrites during the call — the `TotalReductions`
counter advances by at most N, each dispatched rewrite advancing it by
exactly one — and returns exactly the number of rewrites performed
(the counter's advance); in particular `ReduceWithLimit 0` performs no
rewrite, returns 0 and leaves the state untouched. -/
theorem c4_reduce_with_limit_bounded (g : Network) (N : Nat) :
    (reduceWithLimit g N).1.stats.ops = g.stats.ops + (reduceWithLimit g N).2 ∧
    (reduceWithLimit g N).2 ≤ N ∧
    reduceWithLimit g 0 = (g, 0) := by
  refine ⟨?_, ?_, rfl⟩
  · unfold reduceWithLimit
    by_cases h0 : N = 0
    · simp [h0]
    · rw [if_neg h0]
      have h := rwlLoop_ops N 0 g
      simp only
      omega
  · unfold reduceWithLimit
    by_cases h0 : N = 0
    · simp [h0]
    · rw [if_neg h0]
      have h := rwlLoop_ops N 0 g
      simp only
      omega

/- The bucket scan of `Pop` always yields the head of the lowest-index
non-empty bucket and removes exactly that element. -/
theorem popQueues_spec : ∀ qs : List (List Nat), (∃ q ∈ qs, q ≠ []) →
    ∃ i w rest, qs[i]? = some (w :: rest) ∧ (∀ j, j < i → qs[j]? = some []) ∧
      popQueues qs = some (w, qs.set i rest) := by
  intro qs
  induction qs with
  | nil => intro h; simp at h
  | cons q qs' ih =>
    intro h
    cases q with
    | nil =>
      have h' : ∃ x ∈ qs', x ≠ [] := by
        rcases h with ⟨x, hx, hne⟩
        rcases List.mem_cons.mp hx with rfl | hmem
        · exact absurd rfl hne
        · exact ⟨x, hmem, hne⟩
      rcases ih h' with ⟨i, w, rst, h1, h2, h3⟩
      refine ⟨i + 1, w, rst, ?_, ?_, ?_⟩
      · simpa using h1
      · intro j hj
        cases j with
        | zero => simp
        | succ j' => simpa using h2 j' (by omega)
      · rw [popQueues, h3]
        simp [List.set]
    | cons w t =>
      refine ⟨0, w, t, by simp, by intro j hj; omega, rfl⟩

theorem clampIdx_eq (d : Int) : clampIdx d = (max 0 (min d 63)).toNat := by
  unfold clampIdx
  split <;> rename_i h
  · omega
  · rcases le_or_lt d 63 with h2 | h2
    · omega
    · omega

theorem clampIdx_lt (d : Int) : clampIdx d < 64 := by
  unfold clampIdx
  split <;> omega

/-- C5: the scheduler keeps 64 FIFO buckets; `Push` stores a wire of
depth d into the bucket with index clamp(d, 0, 63), appending at the
tail, leaving every other bucket unchanged; and whenever some bucket
is non-empty, `Pop` returns the head of the non-empty bucket with the
lowest index and removes exactly that element, so wires of one bucket
leave in FIFO order and the returned wire comes from the lowest-depth
bucket currently present. -/
theorem c5_scheduler_priority :
    (∀ d : Int, clampIdx d = (max 0 (min d 63)).toNat) ∧
    (∀ (s : Scheduler) (w : Nat) (d : Int), s.queues.length = 64 →
      (s.push w d).queues[clampIdx d]? =
          some (s.queues.getD (clampIdx d) [] ++ [w]) ∧
      ∀ j, j ≠ clampIdx d → (s.push w d).queues[j]? = s.queues[j]?) ∧
    (∀ s : Scheduler, (∃ q ∈ s.queues, q ≠ []) →
      ∃ i w rest, s.queues[i]? = some (w :: rest) ∧
        (∀ j, j < i → s.queues[j]? = some []) ∧
        s.pop = some (w, ⟨s.queues.set i rest⟩)) := by
  refine ⟨clampIdx_eq, ?_, ?_⟩
  · intro s w d h64
    constructor
    · show ((s.queues.set (clampIdx d) _))[clampIdx d]? = _
      exact List.getElem?_set_eq_of_lt _ (by rw [h64]; exact clampIdx_lt d)
    · intro j hj
      show ((s.queues.set (clampIdx d) _))[j]? = _
      exact List.getElem?_set_ne (fun he => hj he.symm)
  · intro s hne
    rcases popQueues_spec s.queues hne with ⟨i, w, rest, h1, h2, h3⟩
    refine ⟨i, w, rest, h1, h2, ?_⟩
    unfold Scheduler.pop
    rw [h3]

/-- C5 witness: a scheduler holding one wire in bucket 2 satisfies the
non-emptiness hypothesis, and `Pop` returns that wire from bucket 2. -/
theorem c5_scheduler_priority_witness :
    (∃ q ∈ (emptyScheduler.push 5 2).queues, q ≠ []) ∧
    (∃ i w rest, (emptyScheduler.push 5 2).queues[i]? = some (w :: rest) ∧
      (∀ j, j < i → (emptyScheduler.push 5 2).queues[j]? = some []) ∧
      (emptyScheduler.push 5 2).pop = some (w, ⟨(emptyScheduler.push 5 2).queues.set i rest⟩)) :=
  ⟨by decide, c5_scheduler_priority.2.2 (emptyScheduler.push 5 2) (by decide)⟩

/- The dead flag does not affect any structural accessor. -/
@[simp] theorem typeOf_setDead (g : Network) (n m : Nat) :
    typeOf (setDeadN g n) m = typeOf g m := by
  unfold typeOf setDeadN updNodes
  dsimp only
  by_cases h : m = n
  · subst h; cases g.nodes m <;> simp
  · simp [h]

@[simp] theorem typeOf_revive (g : Network) (n m : Nat) :
    typeOf (reviveN g n) m = typeOf g m := by
  unfold typeOf reviveN updNodes
  dsimp only
  by_cases h : m = n
  · subst h; cases g.nodes m <;> simp
  · simp [h]

@[simp] theorem levelOf_setDead (g : Network) (n m : Nat) :
    levelOf (setDeadN g n) m = levelOf g m := by
  unfold levelOf setDeadN updNodes
  dsimp only
  by_cases h : m = n
  · subst h; cases g.nodes m <;> simp
  · simp [h]

@[simp] theorem deltasOf_setDead (g : Network) (n m : Nat) :
    deltasOf (setDeadN g n) m = deltasOf g m := by
  unfold deltasOf setDeadN updNodes
  dsimp only
  by_cases h : m = n
  · subst h; cases g.nodes m <;> simp
  · simp [h]

@[simp] theorem numPortsOf_setDead (g : Network) (n m : Nat) :
    numPortsOf (setDeadN g n) m = numPortsOf g m := by
  unfold numPortsOf setDeadN updNodes
  dsimp only
  by_cases h : m = n
  · subst h; cases g.nodes m <;> simp
  · simp [h]

@[simp] theorem typeOf_bumpOps (g : Network) (m : Nat) :
    typeOf (bumpOps g) m = typeOf g m := rfl

@[simp] theorem typeOf_disconnect (g : Network) (wid : Nat) (w : WireData) (p0 p1 : PortRef)
    (m : Nat) :
    typeOf (disconnectWire g wid w p0 p1) m = typeOf g m := rfl

/-- C10: the `TotalReductions` counter advances by exactly one for
every active pair the engine dispatches (and is untouched by an
abandoned pop); an Eraser–Eraser dispatch is counted under the
FanAnnihilation counter, not Erasure; and the replicator decay and
merge passes never touch `TotalReductions` or any counter other than
their own dedicated one. -/
theorem c10_stats_accounting :
    (∀ (g : Network) (wid : Nat),
      (reducePair g wid).stats.ops =
        g.stats.ops + (if dispatchGuard g wid = true then 1 else 0)) ∧
    (∀ (g : Network) (wid : Nat) (w : WireData) (p0 p1 : PortRef),
      g.wires wid = some w → w.p0 = some p0 → w.p1 = some p1 →
      dispatchGuard g wid = true →
      typeOf g p0.node = NodeType.eraser → typeOf g p1.node = NodeType.eraser →
      (reducePair g wid).stats.fanAnn = g.stats.fanAnn + 1 ∧
      (reducePair g wid).stats.erasure = g.stats.erasure ∧
      (reducePair g wid).stats.ops = g.stats.ops + 1) ∧
    (∀ (g : Network) (r : Nat),
      (reduceRepDecay g r).stats.ops = g.stats.ops ∧
      (reduceRepDecay g r).stats.fanAnn = g.stats.fanAnn ∧
      (reduceRepDecay g r).stats.repAnn = g.stats.repAnn ∧
      (reduceRepDecay g r).stats.repComm = g.stats.repComm ∧
      (reduceRepDecay g r).stats.fanRepComm = g.stats.fanRepComm ∧
      (reduceRepDecay g r).stats.erasure = g.stats.erasure ∧
      (reduceRepDecay g r).stats.repMerge = g.stats.repMerge ∧
      (reduceRepDecay g r).stats.auxFanRep = g.stats.auxFanRep) ∧
    (∀ (g : Network) (r : Nat),
      (reduceRepMerge g r).stats.ops = g.stats.ops ∧
      (reduceRepMerge g r).stats.fanAnn = g.stats.fanAnn ∧
      (reduceRepMerge g r).stats.repAnn = g.stats.repAnn ∧
      (reduceRepMerge g r).stats.repComm = g.stats.repComm ∧
      (reduceRepMerge g r).stats.fanRepComm = g.stats.fanRepComm ∧
      (reduceRepMerge g r).stats.erasure = g.stats.erasure ∧
      (reduceRepMerge g r).stats.repDecay = g.stats.repDecay ∧
      (reduceRepMerge g r).stats.auxFanRep = g.stats.auxFanRep) := by
  refine ⟨reducePair_ops, ?_, ?_, ?_⟩
  · intro g wid w p0 p1 hw hp0 hp1 hguard hta htb
    have hops := reducePair_ops g wid
    rw [hguard] at hops
    simp only [if_pos rfl] at hops
    unfold dispatchGuard at hguard
    rw [hw] at hguard
    simp only [hp0, hp1, Bool.and_eq_true, decide_eq_true_eq, Bool.not_eq_true'] at hguard
    obtain ⟨⟨⟨h1, h2⟩, h3⟩, h4⟩ := hguard
    unfold reducePair
    rw [hw]
    simp only [hp0, hp1]
    rw [if_pos ⟨h1, h2⟩]
    rw [if_neg (by simp [h3])]
    rw [if_neg (by simp [h4])]
    unfold dispatchRule
    dsimp only
    rw [if_pos (by simp [hta, htb])]
    rw [if_neg (by simp [hta])]
    unfold reducePair at hops
    rw [hw] at hops
    simp only [hp0, hp1] at hops
    rw [if_pos ⟨h1, h2⟩] at hops
    rw [if_neg (by simp [h3])] at hops
    simp [bumpFanAnn, bumpOps]
  · intro g r
    rcases reduceRepDecay_stats g r with h | h <;> rw [h] <;> simp
  · intro g r
    rcases reduceRepMerge_stats g r with h | h <;> rw [h] <;> simp

/-- C10 witness: on the Eraser–Eraser active pair of `netC10` the
dispatch guard holds, the pair is counted as a fan annihilation and
not as an erasure, and `TotalReductions` advances by one. -/
theorem c10_stats_accounting_witness :
    dispatchGuard netC10 1 = true ∧
    (reducePair netC10 1).stats.fanAnn = netC10.stats.fanAnn + 1 ∧
    (reducePair netC10 1).stats.erasure = netC10.stats.erasure ∧
    (reducePair netC10 1).stats.ops = netC10.stats.ops + 1 :=
  ⟨by decide,
    c10_stats_accounting.2.1 netC10 1 ⟨some ⟨1, 0⟩, some ⟨2, 0⟩, 0⟩ ⟨1, 0⟩ ⟨2, 0⟩
      (by decide) (by decide) (by decide) (by decide) (by decide) (by decide)⟩

theorem isDeadN_setDead_self (g : Network) (n : Nat) (h : (g.nodes n).isSome = true) :
    isDeadN (setDeadN g n) n = true := by
  rcases Option.isSome_iff_exists.mp h with ⟨nd, hnd⟩
  simp [isDeadN, setDeadN, updNodes, hnd]

theorem isDeadN_setDead_other (g : Network) (n m : Nat) (h : m ≠ n) :
    isDeadN (setDeadN g n) m = isDeadN g m := by
  simp [isDeadN, setDeadN, updNodes, h]

theorem isDeadN_revive_self (g : Network) (n : Nat) :
    isDeadN (reviveN g n) n = false := by
  cases hnd : g.nodes n <;> simp [isDeadN, reviveN, updNodes, hnd]

theorem isDeadN_revive_other (g : Network) (n m : Nat) (h : m ≠ n) :
    isDeadN (reviveN g n) m = isDeadN g m := by
  simp [isDeadN, reviveN, updNodes, h]

theorem nodes_setDead_isSome (g : Network) (n m : Nat) (h : (g.nodes m).isSome = true) :
    ((setDeadN g n).nodes m).isSome = true := by
  by_cases he : m = n
  · subst he
    rcases Option.isSome_iff_exists.mp h with ⟨nd, hnd⟩
    simp [setDeadN, updNodes, hnd]
  · simpa [setDeadN, updNodes, he] using h

/-- C7 counterexample: the active pair Replicator–Data matches no
rewrite rule, and after dispatching it `reducePair` leaves BOTH agents
dead — the claim says both agents are revived.  (The Go default branch
prints its diagnostic with `fmt.Printf`, i.e. on standard output, and
never calls `Revive`; only the separate Fan–Data branch revives.) -/
theorem c7_unknown_pair_counterexample :
    typeOf netC7 1 = NodeType.replicator ∧ typeOf netC7 2 = NodeType.data ∧
    dispatchGuard netC7 1 = true ∧
    isDeadN netC7 1 = false ∧ isDeadN netC7 2 = false ∧
    isDeadN (reducePair netC7 1) 1 = true ∧ isDeadN (reducePair netC7 1) 2 = true := by
  decide

/-- C7 amended: when a dispatched active pair's combination of agent
kinds matches none of the rewrite rules, the engine emits a diagnostic
(on standard output, not the error stream) and leaves both agents
dead, creating no node; only the Fan–Data combination revives both
agents. -/
theorem c7_unknown_pair_amended (g : Network) (wid : Nat) (w : WireData) (p0 p1 : PortRef)
    (hw : g.wires wid = some w) (hp0 : w.p0 = some p0) (hp1 : w.p1 = some p1)
    (hguard : dispatchGuard g wid = true)
    (ha : (g.nodes p0.node).isSome = true) (hb : (g.nodes p1.node).isSome = true) :
    (unknownPair (typeOf g p0.node) (typeOf g p1.node) →
      isDeadN (reducePair g wid) p0.node = true ∧
      isDeadN (reducePair g wid) p1.node = true ∧
      (reducePair g wid).nextId = g.nextId ∧
      (reducePair g wid).registry = g.registry) ∧
    (((typeOf g p0.node = NodeType.fan ∧ typeOf g p1.node = NodeType.data) ∨
      (typeOf g p0.node = NodeType.data ∧ typeOf g p1.node = NodeType.fan)) →
      isDeadN (reducePair g wid) p0.node = false ∧
      isDeadN (reducePair g wid) p1.node = false) := by
  unfold dispatchGuard at hguard
  rw [hw] at hguard
  simp only [hp0, hp1, Bool.and_eq_true, decide_eq_true_eq, Bool.not_eq_true'] at hguard
  obtain ⟨⟨⟨h1, h2⟩, h3⟩, h4⟩ := hguard
  have hab : p0.node ≠ p1.node := by
    intro he
    rw [← he, isDeadN_setDead_self g p0.node ha] at h4
    exact Bool.noConfusion h4
  have hred : reducePair g wid =
      dispatchRule
        (bumpOps (disconnectWire (setDeadN (setDeadN g p0.node) p1.node) wid w p0 p1))
        p0.node p1.node w.depth := by
    unfold reducePair
    rw [hw]
    simp only [hp0, hp1]
    rw [if_pos ⟨h1, h2⟩]
    rw [if_neg (by simp [h3])]
    rw [if_neg (by simp [h4])]
  constructor
  · intro hu
    obtain ⟨u1, u2, u3, u4, u5, u6⟩ := hu
    have hrule : reducePair g wid =
        bumpOps (disconnectWire (setDeadN (setDeadN g p0.node) p1.node) wid w p0 p1) := by
      rw [hred]
      unfold dispatchRule
      dsimp only
      simp only [typeOf_bumpOps, typeOf_disconnect, typeOf_setDead]
      rw [if_neg u1, if_neg u2, if_neg u3, if_neg u4, if_neg u5, if_neg u6]
    rw [hrule]
    have hd0 : isDeadN (bumpOps (disconnectWire (setDeadN (setDeadN g p0.node) p1.node) wid w p0 p1)) p0.node =
        isDeadN (setDeadN (setDeadN g p0.node) p1.node) p0.node := rfl
    have hd1 : isDeadN (bumpOps (disconnectWire (setDeadN (setDeadN g p0.node) p1.node) wid w p0 p1)) p1.node =
        isDeadN (setDeadN (setDeadN g p0.node) p1.node) p1.node := rfl
    refine ⟨?_, ?_, rfl, rfl⟩
    · rw [hd0, isDeadN_setDead_other _ _ _ hab, isDeadN_setDead_self g p0.node ha]
    · rw [hd1, isDeadN_setDead_self _ p1.node (nodes_setDead_isSome g p0.node p1.node hb)]
  · intro hfd
    have hrule : reducePair g wid =
        reviveN (reviveN
          (bumpOps (disconnectWire (setDeadN (setDeadN g p0.node) p1.node) wid w p0 p1))
          p0.node) p1.node := by
      rw [hred]
      unfold dispatchRule
      dsimp only
      simp only [typeOf_bumpOps, typeOf_disconnect, typeOf_setDead]
      rcases hfd with ⟨hfa, hfb⟩ | ⟨hfa, hfb⟩ <;>
        rw [if_neg (by simp [hfa, hfb]), if_neg (by simp [hfa, hfb]),
          if_neg (by simp [hfa, hfb]), if_neg (by simp [hfa, hfb]),
          if_neg (by simp [hfa, hfb]), if_pos (by simp [hfa, hfb])]
    rw [hrule]
    constructor
    · rw [isDeadN_revive_other _ _ _ hab, isDeadN_revive_self]
    · rw [isDeadN_revive_self]

/-- C7 amended witness: the Replicator–Data pair of `netC7` satisfies
the guard and the unknown-combination condition, and both agents stay
dead. -/
theorem c7_unknown_pair_amended_witness :
    unknownPair (typeOf netC7 1) (typeOf netC7 2) ∧
    isDeadN (reducePair netC7 1) 1 = true ∧
    isDeadN (reducePair netC7 1) 2 = true ∧
    (reducePair netC7 1).nextId = netC7.nextId ∧
    (reducePair netC7 1).registry = netC7.registry :=
  ⟨by decide,
    (c7_unknown_pair_amended netC7 1 ⟨some ⟨1, 0⟩, some ⟨2, 0⟩, 0⟩ ⟨1, 0⟩ ⟨2, 0⟩
      (by decide) (by decide) (by decide) (by decide) (by decide) (by decide)).1 (by decide)⟩

/- Every failure path of the canonical rules is the exact identity on
the state; every success path bumps the rule's counter. -/
theorem reduceRepDecay_id_or_bump (g : Network) (r : Nat) :
    reduceRepDecay g r = g ∨
    (reduceRepDecay g r).stats = { g.stats with repDecay := g.stats.repDecay + 1 } := by
  unfold reduceRepDecay
  split
  · left; rfl
  rename_i hd
  have halive : isDeadN g r = false := by
    simpa using hd
  dsimp only
  repeat' split
  all_goals first
  | (left; exact revive_setDead_of_alive g r halive)
  | (right; simp [bumpRepDecay]; done)

theorem mergeScan_id_or_bump (r : Nat) (L : List Nat) :
    ∀ g : Network, isDeadN g r = false →
      mergeScan g r L = g ∨
      (mergeScan g r L).stats = { g.stats with repMerge := g.stats.repMerge + 1 } := by
  induction L with
  | nil => intro g _; left; rfl
  | cons i rest ih =>
    intro g halive
    rw [mergeScan]
    dsimp only
    repeat' split
    all_goals first
    | exact ih g halive
    | (left; rfl)
    | (left; exact revive_setDead_of_alive g r halive)
    | (right; rw [mergeReplicators_stats]; simp; done)

theorem reduceRepMerge_id_or_bump (g : Network) (r : Nat) :
    reduceRepMerge g r = g ∨
    (reduceRepMerge g r).stats = { g.stats with repMerge := g.stats.repMerge + 1 } := by
  unfold reduceRepMerge
  split
  · left; rfl
  · rename_i hd
    exact mergeScan_id_or_bump r _ g (by simpa using hd)

theorem canonStep_cases (g : Network) (nid : Nat) :
    canonStep g nid = g ∨
    (canonStep g nid).stats = { g.stats with repDecay := g.stats.repDecay + 1 } ∨
    (canonStep g nid).stats = { g.stats with repMerge := g.stats.repMerge + 1 } := by
  unfold canonStep
  repeat' split
  · left; rfl
  · left; rfl
  · rcases reduceRepDecay_id_or_bump g nid with h | h
    · left; exact h
    · right; left; exact h
  · rcases reduceRepMerge_id_or_bump g nid with h | h
    · left; exact h
    · right; right; exact h
  · left; rfl

theorem canonStep_mono (g : Network) (nid : Nat) :
    g.stats.repDecay ≤ (canonStep g nid).stats.repDecay ∧
    g.stats.repMerge ≤ (canonStep g nid).stats.repMerge := by
  rcases canonStep_cases g nid with h | h | h
  · rw [h]; omega
  · rw [h]; constructor <;> simp
  · rw [h]; constructor <;> simp

theorem canonFold_mono (L : List Nat) :
    ∀ g : Network,
      g.stats.repDecay ≤ (L.foldl canonStep g).stats.repDecay ∧
      g.stats.repMerge ≤ (L.foldl canonStep g).stats.repMerge := by
  induction L with
  | nil => intro g; simp
  | cons n rest ih =>
    intro g
    have h1 := canonStep_mono g n
    have h2 := ih (canonStep g n)
    simp only [List.foldl_cons]
    omega

theorem canonFold_id (L : List Nat) :
    ∀ g : Network,
      (L.foldl canonStep g).stats.repDecay = g.stats.repDecay →
      (L.foldl canonStep g).stats.repMerge = g.stats.repMerge →
      L.foldl canonStep g = g := by
  induction L with
  | nil => intro g _ _; rfl
  | cons n rest ih =>
    intro g hd hm
    simp only [List.foldl_cons] at hd hm ⊢
    have hstep : canonStep g n = g := by
      rcases canonStep_cases g n with h | h | h
      · exact h
      · exfalso
        have h1 := canonFold_mono rest (canonStep g n)
        rw [h] at h1
        simp at h1
        omega
      · exfalso
        have h1 := canonFold_mono rest (canonStep g n)
        rw [h] at h1
        simp at h1
        omega
    rw [hstep] at hd hm ⊢
    exact ih g hd hm

/-- C6 counterexample: on `netC6` a first `ApplyCanonicalRules` sweep
fires exactly one merge (of R into S1) and returns true, and an
IMMEDIATE second call fires a second merge (the merged replicator,
created during the first sweep, was not in that sweep's snapshot) and
returns true again — the claim says a second call fires no decay and
no merge and returns false. -/
theorem c6_canonical_rules_counterexample :
    (applyCanonicalRules netC6).2 = true ∧
    (applyCanonicalRules netC6).1.stats.repMerge = 1 ∧
    (applyCanonicalRules (applyCanonicalRules netC6).1).2 = true ∧
    (applyCanonicalRules (applyCanonicalRules netC6).1).1.stats.repMerge = 2 := by
  decide

/-- C6 amended: a single `ApplyCanonicalRules` call need not be a
fixed point — its merges can enable further merges, and the driver
iterates the call until it returns false.  What holds is: a call that
returns false has left the graph exactly unchanged, and the sweep is
then stable — an immediate further call also changes nothing and
returns false. -/
theorem c6_canonical_rules_amended (g : Network)
    (h : (applyCanonicalRules g).2 = false) :
    (applyCanonicalRules g).1 = g ∧
    applyCanonicalRules ((applyCanonicalRules g).1) = (g, false) := by
  have hcount : (g.registry.foldl canonStep g).stats.repDecay = g.stats.repDecay ∧
      (g.registry.foldl canonStep g).stats.repMerge = g.stats.repMerge := by
    unfold applyCanonicalRules at h
    simp only [decide_eq_false_iff_not, not_or, not_lt] at h
    have hm := canonFold_mono g.registry g
    omega
  have hid : g.registry.foldl canonStep g = g :=
    canonFold_id g.registry g hcount.1 hcount.2
  have h1 : (applyCanonicalRules g).1 = g := by
    unfold applyCanonicalRules
    exact hid
  refine ⟨h1, ?_⟩
  rw [h1]
  unfold applyCanonicalRules
  dsimp only
  rw [hid]
  have h2 : decide (g.stats.repDecay < g.stats.repDecay ∨
      g.stats.repMerge < g.stats.repMerge) = false := by simp
  rw [h2]

/-- C6 amended witness: on the empty network the sweep returns false,
and hence both calls leave the state unchanged. -/
theorem c6_canonical_rules_amended_witness :
    (applyCanonicalRules emptyNet).2 = false ∧
    ((applyCanonicalRules emptyNet).1 = emptyNet ∧
      applyCanonicalRules ((applyCanonicalRules emptyNet).1) = (emptyNet, false)) :=
  ⟨by decide, c6_canonical_rules_amended emptyNet (by decide)⟩

theorem foldSkipAll (vis : List Nat) (L : List Nat) :
    ∀ g0 : Network, (∀ id ∈ L, vis.contains id = true) →
      L.foldl (fun acc nid => if vis.contains nid then acc else pruneNode acc nid) g0 = g0 := by
  induction L with
  | nil => intro g0 _; rfl
  | cons n rest ih =>
    intro g0 h
    simp only [List.foldl_cons]
    rw [if_pos (h n (List.mem_cons_self n rest))]
    exact ih g0 (fun id hid => h id (List.mem_cons_of_mem n hid))

/-- C8 counterexample: `Canonicalize(root, port)` is not idempotent.
In `netC8r`'s sibling net `netC8` (a wire-free root Var plus a
disconnected pair of linked Vars), the first call splices two fresh
erasers over the unreachable pair (node counter 3 → 5), and the
SECOND call creates two further erasers (counter 5 → 7) and clears the
ports of the erasers the first call introduced — the claim says the
second call creates no erasers and clears no ports. -/
theorem c8_canonicalize_counterexample :
    netC8.nextId = 3 ∧
    (canonicalize netC8 1 0).nextId = 5 ∧
    (canonicalize (canonicalize netC8 1 0) 1 0).nextId = 7 ∧
    (canonicalize netC8 1 0).portWire ⟨4, 0⟩ = some 1 ∧
    (canonicalize (canonicalize netC8 1 0) 1 0).portWire ⟨4, 0⟩ = none := by
  decide

/-- C8 amended: reachability canonicalisation is idempotent only on
graphs where the first call prunes nothing: when every registered node
is visited by the traversal from (root, port), `Canonicalize` leaves
the graph exactly unchanged, and so does a repeated call.  When the
first call does prune a wired node, the second call replaces the
erasers introduced by the first one with fresh erasers (see the
counterexample), so the graph keeps changing. -/
theorem c8_canonicalize_amended (g : Network) (root port : Nat)
    (h : ∀ id ∈ g.registry, (canonVisited g root).contains id = true) :
    canonicalize g root port = g ∧
    canonicalize (canonicalize g root port) root port = canonicalize g root port := by
  have h1 : canonicalize g root port = g := by
    unfold canonicalize
    exact foldSkipAll (canonVisited g root) g.registry g h
  exact ⟨h1, by rw [h1]; exact h1⟩

/-- C8 amended witness: in the two-var net every node is reachable
from the root, so canonicalisation is the identity twice over. -/
theorem c8_canonicalize_amended_witness :
    (∀ id ∈ netC8r.registry, (canonVisited netC8r 1).contains id = true) ∧
    (canonicalize netC8r 1 0 = netC8r ∧
      canonicalize (canonicalize netC8r 1 0) 1 0 = canonicalize netC8r 1 0) :=
  ⟨by decide, c8_canonicalize_amended netC8r 1 0 (by decide)⟩

/- Transport of a per-node invariant along the operations. -/
theorem nodesInv_of_nodes_eq (P : NodeData → Prop) (g1 g2 : Network)
    (h : g1.nodes = g2.nodes) (hi : nodesInv P g2) : nodesInv P g1 := by
  intro id nd hnd
  rw [h] at hnd
  exact hi id nd hnd

theorem nodesInv_addNode (P : NodeData → Prop) (g : Network) (nd : NodeData)
    (hnd : P nd) (hi : nodesInv P g) : nodesInv P (addNode g nd).1 := by
  intro id nd' h
  by_cases he : id = g.nextId + 1
  · subst he
    rw [addNode_nodes_new] at h
    cases h
    exact hnd
  · rw [addNode_nodes_frame g nd id he] at h
    exact hi id nd' h

theorem nodesInv_splice (P : NodeData → Prop) (g : Network) (pN pO : PortRef)
    (hi : nodesInv P g) : nodesInv P (splice g pN pO) :=
  nodesInv_of_nodes_eq P _ g (splice_nodes g pN pO) hi

@[simp] theorem connectRow_nodes (aCopy i depth : Nat) (L : List (Nat × Nat)) :
    ∀ g : Network, (connectRow g aCopy i depth L).nodes = g.nodes := by
  induction L with
  | nil => intro g; rfl
  | cons kb rest ih =>
    intro g
    cases kb with
    | mk k bk =>
      simp only [connectRow]
      rw [ih]
      simp

@[simp] theorem connectRow_nextId (aCopy i depth : Nat) (L : List (Nat × Nat)) :
    ∀ g : Network, (connectRow g aCopy i depth L).nextId = g.nextId := by
  induction L with
  | nil => intro g; rfl
  | cons kb rest ih =>
    intro g
    cases kb with
    | mk k bk =>
      simp only [connectRow]
      rw [ih]
      simp

@[simp] theorem mergeBRun_nodes (newRep repB portIdx : Nat) (L : List Nat) :
    ∀ g : Network, (mergeBRun g newRep repB portIdx L).nodes = g.nodes := by
  induction L with
  | nil => intro g; rfl
  | cons m rest ih =>
    intro g
    simp only [mergeBRun]
    rw [ih]
    split <;> simp

@[simp] theorem mergeAuxLoop_nodes (newRep repA repB auxIndexA lenB : Nat) (L : List Nat) :
    ∀ (portIdx : Nat) (g : Network),
      (mergeAuxLoop g newRep repA repB auxIndexA lenB L portIdx).nodes = g.nodes := by
  induction L with
  | nil => intro portIdx g; rfl
  | cons k rest ih =>
    intro portIdx g
    simp only [mergeAuxLoop]
    split
    · rw [ih]; simp
    · rw [ih]; split <;> simp

theorem getD_nonneg (ds : List Int) (i : Nat) (h : ∀ d ∈ ds, 0 ≤ d) :
    0 ≤ ds.getD i 0 := by
  rw [List.getD_eq_getElem?_getD]
  cases he : ds[i]? with
  | none => simp
  | some v =>
    have hv : v ∈ ds := List.getElem?_mem he
    simpa using h v hv

/- Arity preservation: every replicator the engine constructs gets
`1 + deltas.length` ports by construction. -/
theorem commuteBLoop_arity (a b : Nat) (L : List Nat) :
    ∀ g : Network, nodesInv repOK g → nodesInv repOK (commuteBLoop g a b L).1 := by
  induction L with
  | nil => intro g h; exact h
  | cons i rest ih =>
    intro g h
    simp only [commuteBLoop, createReplicatorCopyWithLevel, newReplicator]
    apply ih
    split
    · apply nodesInv_splice
      apply nodesInv_addNode
      · intro _; rfl
      · exact h
    · apply nodesInv_addNode
      · intro _; rfl
      · exact h

theorem commuteALoop_arity (a b : Nat) (bCopies : List Nat) (depth : Nat) (L : List Nat) :
    ∀ g : Network, nodesInv repOK g → nodesInv repOK (commuteALoop g a b bCopies depth L) := by
  induction L with
  | nil => intro g h; exact h
  | cons i rest ih =>
    intro g h
    simp only [commuteALoop, createReplicatorCopy, newReplicator]
    apply ih
    apply nodesInv_of_nodes_eq repOK _ _ (connectRow_nodes _ _ _ _ _)
    split
    · apply nodesInv_splice
      apply nodesInv_addNode
      · intro _; rfl
      · exact h
    · apply nodesInv_addNode
      · intro _; rfl
      · exact h

theorem commuteReplicatorsGo_arity (g : Network) (a b d : Nat)
    (h : nodesInv repOK g) : nodesInv repOK (commuteReplicatorsGo g a b d) := by
  unfold commuteReplicatorsGo
  exact commuteALoop_arity a b _ d _ _ (commuteBLoop_arity a b _ g h)

theorem mergeReplicators_arity (g : Network) (ra rb i : Nat)
    (h : nodesInv repOK g) : nodesInv repOK (mergeReplicators g ra rb i) := by
  unfold mergeReplicators bumpRepMerge newReplicator
  dsimp only
  intro id nd hnd
  simp only [mergeAuxLoop_nodes] at hnd
  revert hnd
  split <;> intro hnd
  · exact nodesInv_splice repOK _ _ _ (nodesInv_addNode repOK g _ (fun _ => rfl) h) id nd hnd
  · exact nodesInv_addNode repOK g _ (fun _ => rfl) h id nd hnd

theorem levelOf_nonneg (g : Network) (a : Nat)
    (ht : typeOf g a = NodeType.replicator) (hl : nodesInv repLevelOK g) :
    0 ≤ levelOf g a := by
  unfold typeOf at ht
  unfold levelOf
  cases hn : g.nodes a with
  | none => rw [hn] at ht
  | some nd =>
    rw [hn] at ht
    exact hl a nd hn ht

theorem deltasOf_nonneg (g : Network) (a : Nat)
    (ht : typeOf g a = NodeType.replicator) (hd : nodesInv repDeltasOK g) :
    ∀ d ∈ deltasOf g a, 0 ≤ d := by
  unfold typeOf at ht
  unfold deltasOf
  cases hn : g.nodes a with
  | none => rw [hn] at ht; exact absurd ht (by decide)
  | some nd =>
    rw [hn] at ht
    exact hd a nd hn ht

theorem typeOf_of_nodes_eq (g1 g2 : Network) (a : Nat) (h : g1.nodes a = g2.nodes a) :
    typeOf g1 a = typeOf g2 a := by
  unfold typeOf
  rw [h]

/- Level preservation through the copy loops of the replicator
commutation, under the data-model assumption that all replicator
deltas are non-negative. -/
theorem commuteBLoop_level (a b : Nat) (L : List Nat) :
    ∀ g : Network, a ≤ g.nextId → b ≤ g.nextId →
      nodesInv repLevelOK g → nodesInv repDeltasOK g →
      typeOf g a = NodeType.replicator → typeOf g b = NodeType.replicator →
      nodesInv repLevelOK (commuteBLoop g a b L).1 ∧
      nodesInv repDeltasOK (commuteBLoop g a b L).1 ∧
      (commuteBLoop g a b L).1.nodes a = g.nodes a ∧
      (commuteBLoop g a b L).1.nodes b = g.nodes b ∧
      g.nextId ≤ (commuteBLoop g a b L).1.nextId := by
  induction L with
  | nil => intro g _ _ hl hd _ _; exact ⟨hl, hd, rfl, rfl, le_refl _⟩
  | cons i rest ih =>
    intro g ha hb hl hd hta htb
    have hlvlB : 0 ≤ levelOf g b := levelOf_nonneg g b htb hl
    have hdelA : 0 ≤ (deltasOf g a).getD i 0 :=
      getD_nonneg _ i (deltasOf_nonneg g a hta hd)
    have hdelB : ∀ d ∈ deltasOf g b, 0 ≤ d := deltasOf_nonneg g b htb hd
    simp only [commuteBLoop, createReplicatorCopyWithLevel, newReplicator]
    have hfa : a ≠ g.nextId + 1 := by omega
    have hfb : b ≠ g.nextId + 1 := by omega
    set ndNew : NodeData :=
      { typ := NodeType.replicator, numPorts := 1 + (deltasOf g b).length,
        level := levelOf g b + (deltasOf g a).getD i 0, deltas := deltasOf g b } with hnd
    have hPl : repLevelOK ndNew := by
      intro _
      simp only [hnd]
      omega
    have hPd : repDeltasOK ndNew := by
      intro _
      simpa [hnd] using hdelB
    have hg1l : nodesInv repLevelOK (addNode g ndNew).1 := nodesInv_addNode _ g _ hPl hl
    have hg1d : nodesInv repDeltasOK (addNode g ndNew).1 := nodesInv_addNode _ g _ hPd hd
    have hg1a : (addNode g ndNew).1.nodes a = g.nodes a := addNode_nodes_frame g ndNew a hfa
    have hg1b : (addNode g ndNew).1.nodes b = g.nodes b := addNode_nodes_frame g ndNew b hfb
    set g1 := (addNode g ndNew).1 with hg1
    set g2 := if (g1.portWire ⟨a, i + 1⟩).isSome = true then
        splice g1 ⟨(addNode g ndNew).2, 0⟩ ⟨a, i + 1⟩ else g1 with hg2
    have hg2nodes : g2.nodes = g1.nodes := by
      rw [hg2]; split <;> simp
    have h2l : nodesInv repLevelOK g2 := nodesInv_of_nodes_eq _ _ _ hg2nodes hg1l
    have h2d : nodesInv repDeltasOK g2 := nodesInv_of_nodes_eq _ _ _ hg2nodes hg1d
    have h2a : g2.nodes a = g.nodes a := by rw [hg2nodes, hg1a]
    have h2b : g2.nodes b = g.nodes b := by rw [hg2nodes, hg1b]
    have h2next : g.nextId + 1 = g2.nextId := by
      rw [hg2]; split <;> simp [hg1]
    have hres := ih g2 (by omega) (by omega) h2l h2d
      (by rw [typeOf_of_nodes_eq g2 g a h2a]; exact hta)
      (by rw [typeOf_of_nodes_eq g2 g b h2b]; exact htb)
    refine ⟨hres.1, hres.2.1, ?_, ?_, ?_⟩
    · rw [hres.2.2.1, h2a]
    · rw [hres.2.2.2.1, h2b]
    · have := hres.2.2.2.2
      omega

theorem commuteALoop_level (a b : Nat) (bCopies : List Nat) (depth : Nat) (L : List Nat) :
    ∀ g : Network, a ≤ g.nextId →
      nodesInv repLevelOK g → nodesInv repDeltasOK g →
      typeOf g a = NodeType.replicator →
      nodesInv repLevelOK (commuteALoop g a b bCopies depth L) := by
  induction L with
  | nil => intro g _ hl _ _; exact hl
  | cons i rest ih =>
    intro g ha hl hd hta
    have hlvlA : 0 ≤ levelOf g a := levelOf_nonneg g a hta hl
    have hdelA : ∀ d ∈ deltasOf g a, 0 ≤ d := deltasOf_nonneg g a hta hd
    simp only [commuteALoop, createReplicatorCopy, newReplicator]
    have hfa : a ≠ g.nextId + 1 := by omega
    set ndNew : NodeData :=
      { typ := NodeType.replicator, numPorts := 1 + (deltasOf g a).length,
        level := levelOf g a, deltas := deltasOf g a } with hnd
    have hPl : repLevelOK ndNew := fun _ => hlvlA
    have hPd : repDeltasOK ndNew := fun _ => hdelA
    have hg1l : nodesInv repLevelOK (addNode g ndNew).1 := nodesInv_addNode _ g _ hPl hl
    have hg1d : nodesInv repDeltasOK (addNode g ndNew).1 := nodesInv_addNode _ g _ hPd hd
    have hg1a : (addNode g ndNew).1.nodes a = g.nodes a := addNode_nodes_frame g ndNew a hfa
    set g1 := (addNode g ndNew).1 with hg1
    set g2 := if (g1.portWire ⟨b, i + 1⟩).isSome = true then
        splice g1 ⟨(addNode g ndNew).2, 0⟩ ⟨b, i + 1⟩ else g1 with hg2
    have hg2nodes : g2.nodes = g1.nodes := by
      rw [hg2]; split <;> simp
    set g3 := connectRow g2 (addNode g ndNew).2 i depth bCopies.enum with hg3
    have hg3nodes : g3.nodes = g2.nodes := connectRow_nodes _ _ _ _ g2
    have h3l : nodesInv repLevelOK g3 :=
      nodesInv_of_nodes_eq _ _ _ hg3nodes (nodesInv_of_nodes_eq _ _ _ hg2nodes hg1l)
    have h3d : nodesInv repDeltasOK g3 :=
      nodesInv_of_nodes_eq _ _ _ hg3nodes (nodesInv_of_nodes_eq _ _ _ hg2nodes hg1d)
    have h3a : g3.nodes a = g.nodes a := by rw [hg3nodes, hg2nodes, hg1a]
    have h3next : g.nextId + 1 ≤ g3.nextId := by
      have hcn : g3.nextId = g2.nextId := by
        rw [hg3, connectRow_nextId]
      have h2n : g2.nextId = g1.nextId := by
        rw [hg2]; split <;> simp
      have h1n : g1.nextId = g.nextId + 1 := by rw [hg1]; simp
      omega
    exact ih g3 (by omega) h3l h3d
      (by rw [typeOf_of_nodes_eq g3 g a h3a]; exact hta)

theorem commuteReplicatorsGo_level (g : Network) (a b d : Nat)
    (ha : a ≤ g.nextId) (hb : b ≤ g.nextId)
    (hta : typeOf g a = NodeType.replicator) (htb : typeOf g b = NodeType.replicator)
    (hl : nodesInv repLevelOK g) (hd : nodesInv repDeltasOK g) :
    nodesInv repLevelOK (commuteReplicatorsGo g a b d) := by
  unfold commuteReplicatorsGo
  obtain ⟨hl1, hd1, hna, hnb, hnext⟩ :=
    commuteBLoop_level a b (List.range (numPortsOf g a - 1)) g ha hb hl hd hta htb
  exact commuteALoop_level a b _ d _ _ (by omega) hl1 hd1
    (by rw [typeOf_of_nodes_eq _ g a hna]; exact hta)

theorem mergeReplicators_level (g : Network) (ra rb i : Nat)
    (hta : typeOf g ra = NodeType.replicator)
    (hl : nodesInv repLevelOK g) : nodesInv repLevelOK (mergeReplicators g ra rb i) := by
  have hra : 0 ≤ levelOf g ra := levelOf_nonneg g ra hta hl
  unfold mergeReplicators bumpRepMerge newReplicator
  dsimp only
  intro id nd hnd
  simp only [mergeAuxLoop_nodes] at hnd
  revert hnd
  split <;> intro hnd
  · exact nodesInv_splice repLevelOK _ _ _
      (nodesInv_addNode repLevelOK g _ (fun _ => hra) hl) id nd hnd
  · exact nodesInv_addNode repLevelOK g _ (fun _ => hra) hl id nd hnd

/-- C9 counterexample: the claim's level invariant is not preserved by
replicator commutation.  In `netC9` every node satisfies both
conjuncts — the two replicators have levels 0 and 1 and the right
arities — yet rewriting their active pair (a commutation, since the
levels differ) creates the copy node 3, a replicator at level
0 + 1 + (−2) = −1 < 0, because the lower replicator carries the
negative delta −2. -/
theorem c9_replicator_invariants_counterexample :
    typeOf netC9 1 = NodeType.replicator ∧ levelOf netC9 1 = 0 ∧
    numPortsOf netC9 1 = 1 + (deltasOf netC9 1).length ∧
    typeOf netC9 2 = NodeType.replicator ∧ levelOf netC9 2 = 1 ∧
    numPortsOf netC9 2 = 1 + (deltasOf netC9 2).length ∧
    netC9.registry = [1, 2] ∧
    dispatchGuard netC9 1 = true ∧
    (reducePair netC9 1).stats.repComm = 1 ∧
    typeOf (reducePair netC9 1) 3 = NodeType.replicator ∧
    levelOf (reducePair netC9 1) 3 = -1 := by
  decide

/-- C9 amended: `len(r.ports) = 1 + len(r.deltas)` holds for every
replicator any of the three creating operations builds — construction,
the commutation copies, and the merged replicator — with no side
condition.  The conjunct `r.level ≥ 0` is preserved by construction
when the requested level is non-negative and by the merge rule (whose
result reuses R's level), but by commutation only under the additional
assumption that all replicator deltas are non-negative: a commutation
copy receives `level(B) + delta`, which goes negative for a negative
delta (see the counterexample). -/
theorem c9_replicator_invariants_amended :
    (∀ (g : Network) (l : Int) (ds : List Int),
      nodesInv repOK g → nodesInv repOK (newReplicator g l ds).1) ∧
    (∀ (g : Network) (a b d : Nat),
      nodesInv repOK g → nodesInv repOK (commuteReplicators g a b d)) ∧
    (∀ (g : Network) (ra rb i : Nat),
      nodesInv repOK g → nodesInv repOK (mergeReplicators g ra rb i)) ∧
    (∀ (g : Network) (l : Int) (ds : List Int), 0 ≤ l →
      nodesInv repLevelOK g → nodesInv repLevelOK (newReplicator g l ds).1) ∧
    (∀ (g : Network) (a b d : Nat),
      a ≤ g.nextId → b ≤ g.nextId →
      typeOf g a = NodeType.replicator → typeOf g b = NodeType.replicator →
      nodesInv repLevelOK g → nodesInv repDeltasOK g →
      nodesInv repLevelOK (commuteReplicators g a b d)) ∧
    (∀ (g : Network) (ra rb i : Nat),
      typeOf g ra = NodeType.replicator →
      nodesInv repLevelOK g → nodesInv repLevelOK (mergeReplicators g ra rb i)) := by
  refine ⟨?_, ?_, ?_, ?_, ?_, ?_⟩
  · intro g l ds h
    unfold newReplicator
    exact nodesInv_addNode repOK g _ (fun _ => rfl) h
  · intro g a b d h
    unfold commuteReplicators
    split
    · exact commuteReplicatorsGo_arity g b a d h
    · exact commuteReplicatorsGo_arity g a b d h
  · intro g ra rb i h
    exact mergeReplicators_arity g ra rb i h
  · intro g l ds h0 h
    unfold newReplicator
    exact nodesInv_addNode repLevelOK g _ (fun _ => h0) h
  · intro g a b d ha hb hta htb hl hd
    unfold commuteReplicators
    split
    · exact commuteReplicatorsGo_level g b a d hb ha htb hta hl hd
    · exact commuteReplicatorsGo_level g a b d ha hb hta htb hl hd
  · intro g ra rb i hta hl
    exact mergeReplicators_level g ra rb i hta hl

/-- C9 amended witness: on a two-replicator net with non-negative
levels and deltas (levels 0 and 1, deltas [1] and [3]) the level
invariant holds and is preserved by commuting the pair, and a fresh
replicator built at level 2 preserves it as well. -/
theorem c9_replicator_invariants_amended_witness :
    ((0 : Int) ≤ 2 ∧ nodesInv repLevelOK emptyNet) ∧
    nodesInv repLevelOK (newReplicator emptyNet 2 [0, 1]).1 ∧
    ((1 ≤ netTiny.nextId ∧ 2 ≤ netTiny.nextId ∧
      typeOf netTiny 1 = NodeType.replicator ∧ typeOf netTiny 2 = NodeType.replicator ∧
      nodesInv repLevelOK netTiny ∧ nodesInv repDeltasOK netTiny) ∧
    nodesInv repLevelOK (commuteReplicators netTiny 1 2 0)) := by
  have hempty : nodesInv repLevelOK emptyNet := by
    intro id nd h
    exact Option.noConfusion h
  have hl : nodesInv repLevelOK netTiny := by
    intro id nd h
    have hh : (if id = 2 then
        some { typ := NodeType.replicator, numPorts := 2, level := 1, deltas := ([3] : List Int) }
        else if id = 1 then
        some { typ := NodeType.replicator, numPorts := 2, level := 0, deltas := ([1] : List Int) }
        else none) = some nd := h
    by_cases h2 : id = 2
    · rw [if_pos h2] at hh
      cases hh
      decide
    · rw [if_neg h2] at hh
      by_cases h1 : id = 1
      · rw [if_pos h1] at hh
        cases hh
        decide
      · rw [if_neg h1] at hh
        exact Option.noConfusion hh
  have hd : nodesInv repDeltasOK netTiny := by
    intro id nd h
    have hh : (if id = 2 then
        some { typ := NodeType.replicator, numPorts := 2, level := 1, deltas := ([3] : List Int) }
        else if id = 1 then
        some { typ := NodeType.replicator, numPorts := 2, level := 0, deltas := ([1] : List Int) }
        else none) = some nd := h
    by_cases h2 : id = 2
    · rw [if_pos h2] at hh
      cases hh
      decide
    · rw [if_neg h2] at hh
      by_cases h1 : id = 1
      · rw [if_pos h1] at hh
        cases hh
        decide
      · rw [if_neg h1] at hh
        exact Option.noConfusion hh
  refine ⟨⟨by decide, hempty⟩, ?_, ⟨⟨by decide, by decide, by decide, by decide, hl, hd⟩, ?_⟩⟩
  · exact c9_replicator_invariants_amended.2.2.2.1 emptyNet 2 [0, 1] (by decide) hempty
  · exact c9_replicator_invariants_amended.2.2.2.2.1 netTiny 1 2 0 (by decide) (by decide)
      (by decide) (by decide) hl hd

/- The success path of `reduceRepDecay` in full: the replicator dies,
its two ports are cleared, the neighbour on port 1 is re-pointed onto
the port-0 wire, which now joins the two former neighbours and keeps
its pre-existing depth, and the port-1 wire is emptied. -/
theorem reduceRepDecay_outcome (g : Network) (r : Nat)
    (w0id w1id : Nat) (w0 w1 : WireData) (q0 q1 : PortRef)
    (halive : isDeadN g r = false) (hsome : (g.nodes r).isSome = true)
    (hpw0 : g.portWire ⟨r, 0⟩ = some w0id) (hpw1 : g.portWire ⟨r, 1⟩ = some w1id)
    (hne : w0id ≠ w1id)
    (hw0 : g.wires w0id = some w0) (hw1 : g.wires w1id = some w1)
    (he0 : (w0.p0 = some ⟨r, 0⟩ ∧ w0.p1 = some q0) ∨
           (w0.p0 = some q0 ∧ w0.p1 = some ⟨r, 0⟩))
    (he1 : (w1.p0 = some ⟨r, 1⟩ ∧ w1.p1 = some q1) ∨
           (w1.p0 = some q1 ∧ w1.p1 = some ⟨r, 1⟩))
    (hq00 : q0 ≠ ⟨r, 0⟩) (hq01 : q0 ≠ ⟨r, 1⟩)
    (hq10 : q1 ≠ ⟨r, 0⟩) (hq11 : q1 ≠ ⟨r, 1⟩) (hq : q1 ≠ q0) :
    (reduceRepDecay g r).stats.repDecay = g.stats.repDecay + 1 ∧
    isDeadN (reduceRepDecay g r) r = true ∧
    (reduceRepDecay g r).portWire ⟨r, 0⟩ = none ∧
    (reduceRepDecay g r).portWire ⟨r, 1⟩ = none ∧
    (reduceRepDecay g r).portWire q1 = some w0id ∧
    (reduceRepDecay g r).portWire q0 = g.portWire q0 ∧
    (∃ w', (reduceRepDecay g r).wires w0id = some w' ∧
      w'.depth = w0.depth ∧ connectsWD w' q1 q0) ∧
    (reduceRepDecay g r).wires w1id = some { w1 with p0 := none, p1 := none } := by
  have hred : reduceRepDecay g r =
      bumpRepDecay (pushNb2
        { setDeadN g r with
            wires := updWires (updWires g.wires w0id
                (some (if w0.p0 = some ⟨r, 0⟩ then { w0 with p0 := otherOf w1 ⟨r, 1⟩ }
                       else { w0 with p1 := otherOf w1 ⟨r, 1⟩ })))
              w1id (some { w1 with p0 := none, p1 := none })
            portWire := fun p =>
              if p = ⟨r, 0⟩ ∨ p = ⟨r, 1⟩ then none
              else if otherOf w1 ⟨r, 1⟩ = some p then some w0id
              else (setDeadN g r).portWire p }
        w0id (otherOf w0 ⟨r, 0⟩) (otherOf w1 ⟨r, 1⟩) w0.depth) := by
    unfold reduceRepDecay
    rw [if_neg (by simp [halive])]
    dsimp only
    simp only [setDeadN_portWire, setDeadN_wires, hpw0, hpw1, hw0, hw1]
    rw [if_neg hne]
  have hn0 : otherOf w0 ⟨r, 0⟩ = some q0 := by
    rcases he0 with ⟨h0, h1⟩ | ⟨h0, h1⟩
    · unfold otherOf; rw [if_pos h0]; exact h1
    · unfold otherOf
      rw [if_neg (by rw [h0]; simp [hq00])]
      exact h0
  have hn1 : otherOf w1 ⟨r, 1⟩ = some q1 := by
    rcases he1 with ⟨h0, h1⟩ | ⟨h0, h1⟩
    · unfold otherOf; rw [if_pos h0]; exact h1
    · unfold otherOf
      rw [if_neg (by rw [h0]; simp [hq11])]
      exact h0
  rw [hred, hn0, hn1]
  simp only [bumpRepDecay, pushNb2, pushActive]
  refine ⟨?_, ?_, ?_, ?_, ?_, ?_, ?_, ?_⟩
  · repeat' split
    all_goals simp
  · repeat' split
    all_goals exact isDeadN_setDead_self g r hsome
  · repeat' split
    all_goals simp
  · repeat' split
    all_goals simp
  · repeat' split
    all_goals simp [hq10, hq11]
  · repeat' split
    all_goals simp [hq00, hq01, hq]
  · refine ⟨if w0.p0 = some ⟨r, 0⟩ then { w0 with p0 := some q1 }
      else { w0 with p1 := some q1 }, ?_, ?_, ?_⟩
    · repeat' split
      all_goals simp_all [updWires, hne, Ne.symm hne]
    · split <;> rfl
    · rcases he0 with ⟨h0, h1⟩ | ⟨h0, h1⟩
      · rw [if_pos h0]
        left
        exact ⟨rfl, h1⟩
      · rw [if_neg (by rw [h0]; simp [hq00])]
        right
        exact ⟨h0, rfl⟩
  · repeat' split
    all_goals simp [updWires]

/-- C3: within the canonical-rule sweep, a connected replicator is
sent to the decay rule exactly when it has exactly one auxiliary port
(two ports) and its single delta is 0 — otherwise it goes to the merge
rule, which never touches the decay counter; and when the decay rule
runs on a replicator whose two ports are wired (to two distinct wires
with external neighbours), it marks the replicator dead, clears both
of its ports, and joins the two former neighbours by the pre-existing
port-0 wire, whose depth is preserved, emptying the port-1 wire. -/
theorem c3_replicator_decay :
    (∀ (g : Network) (nid : Nat) (nd : NodeData),
      g.nodes nid = some nd → nd.typ = NodeType.replicator →
      g.portWire ⟨nid, 0⟩ ≠ none →
      ((nd.numPorts = 2 ∧ nd.deltas.head? = some 0) →
        canonStep g nid = reduceRepDecay g nid) ∧
      (¬(nd.numPorts = 2 ∧ nd.deltas.head? = some 0) →
        canonStep g nid = reduceRepMerge g nid ∧
        (canonStep g nid).stats.repDecay = g.stats.repDecay)) ∧
    (∀ (g : Network) (r w0id w1id : Nat) (w0 w1 : WireData) (q0 q1 : PortRef),
      isDeadN g r = false → (g.nodes r).isSome = true →
      g.portWire ⟨r, 0⟩ = some w0id → g.portWire ⟨r, 1⟩ = some w1id →
      w0id ≠ w1id →
      g.wires w0id = some w0 → g.wires w1id = some w1 →
      ((w0.p0 = some ⟨r, 0⟩ ∧ w0.p1 = some q0) ∨
        (w0.p0 = some q0 ∧ w0.p1 = some ⟨r, 0⟩)) →
      ((w1.p0 = some ⟨r, 1⟩ ∧ w1.p1 = some q1) ∨
        (w1.p0 = some q1 ∧ w1.p1 = some ⟨r, 1⟩)) →
      q0 ≠ ⟨r, 0⟩ → q0 ≠ ⟨r, 1⟩ → q1 ≠ ⟨r, 0⟩ → q1 ≠ ⟨r, 1⟩ → q1 ≠ q0 →
      (reduceRepDecay g r).stats.repDecay = g.stats.repDecay + 1 ∧
      isDeadN (reduceRepDecay g r) r = true ∧
      (reduceRepDecay g r).portWire ⟨r, 0⟩ = none ∧
      (reduceRepDecay g r).portWire ⟨r, 1⟩ = none ∧
      (reduceRepDecay g r).portWire q1 = some w0id ∧
      (reduceRepDecay g r).portWire q0 = g.portWire q0 ∧
      (∃ w', (reduceRepDecay g r).wires w0id = some w' ∧
        w'.depth = w0.depth ∧ connectsWD w' q1 q0) ∧
      (reduceRepDecay g r).wires w1id = some { w1 with p0 := none, p1 := none }) := by
  constructor
  · intro g nid nd hnode ht hpw
    have hguard : ¬(0 < nd.numPorts ∧ g.portWire ⟨nid, 0⟩ = none) := by
      intro hc
      exact hpw hc.2
    constructor
    · intro hcond
      unfold canonStep
      simp only [hnode]
      rw [if_neg hguard, if_pos ht, if_pos hcond]
    · intro hcond
      have heq : canonStep g nid = reduceRepMerge g nid := by
        unfold canonStep
        simp only [hnode]
        rw [if_neg hguard, if_pos ht, if_neg hcond]
      refine ⟨heq, ?_⟩
      rw [heq]
      rcases reduceRepMerge_stats g nid with h | h <;> rw [h]
  · intro g r w0id w1id w0 w1 q0 q1 halive hsome hpw0 hpw1 hne hw0 hw1 he0 he1
      hq00 hq01 hq10 hq11 hq
    exact reduceRepDecay_outcome g r w0id w1id w0 w1 q0 q1 halive hsome hpw0 hpw1
      hne hw0 hw1 he0 he1 hq00 hq01 hq10 hq11 hq

/-- C3 witness: the unit replicator of `netC3` (one auxiliary port,
delta 0, both ports wired to the vars 2 and 3) is dispatched to decay
by the sweep, and decaying it joins the two vars by the pre-existing
port-0 wire at its original depth. -/
theorem c3_replicator_decay_witness :
    (netC3.nodes 1 = some ⟨NodeType.replicator, 2, 0, [0], Value.num 0, "", false⟩ ∧
      canonStep netC3 1 = reduceRepDecay netC3 1) ∧
    ((reduceRepDecay netC3 1).stats.repDecay = netC3.stats.repDecay + 1 ∧
      isDeadN (reduceRepDecay netC3 1) 1 = true ∧
      (reduceRepDecay netC3 1).portWire ⟨1, 0⟩ = none ∧
      (reduceRepDecay netC3 1).portWire ⟨1, 1⟩ = none ∧
      (reduceRepDecay netC3 1).portWire ⟨3, 0⟩ = some 1 ∧
      (reduceRepDecay netC3 1).portWire ⟨2, 0⟩ = netC3.portWire ⟨2, 0⟩ ∧
      (∃ w', (reduceRepDecay netC3 1).wires 1 = some w' ∧
        w'.depth = 0 ∧ connectsWD w' ⟨3, 0⟩ ⟨2, 0⟩) ∧
      (reduceRepDecay netC3 1).wires 2 = some ⟨none, none, 0⟩) :=
  ⟨⟨by decide,
    (c3_replicator_decay.1 netC3 1 ⟨NodeType.replicator, 2, 0, [0], Value.num 0, "", false⟩
      (by decide) (by decide) (by decide)).1 (by decide)⟩,
    c3_replicator_decay.2 netC3 1 1 2 ⟨some ⟨2, 0⟩, some ⟨1, 0⟩, 0⟩
      ⟨some ⟨3, 0⟩, some ⟨1, 1⟩, 0⟩ ⟨2, 0⟩ ⟨3, 0⟩
      (by decide) (by decide) (by decide) (by decide) (by decide) (by decide)
      (by decide) (by decide) (by decide) (by decide) (by decide) (by decide)
      (by decide) (by decide)⟩

/- The effect of the `mergeBRun` splice run: for every index in the
window, the new replicator's port `portIdx + m` takes over repB's
aux-(m+1) wire; everything else is untouched. -/
theorem mergeBRun_spec (nr rb : Nat) (hnrb : nr ≠ rb)
    (wv : Nat → Nat) (wdv : Nat → WireData) (portIdx : Nat) :
    ∀ (cnt m0 : Nat) (g : Network),
    (∀ m, m0 ≤ m → m < m0 + cnt →
      g.portWire ⟨rb, m + 1⟩ = some (wv m) ∧ g.wires (wv m) = some (wdv m) ∧
      ((wdv m).p0 = some ⟨rb, m + 1⟩ ∨ (wdv m).p1 = some ⟨rb, m + 1⟩)) →
    (∀ m m', m0 ≤ m → m < m0 + cnt → m0 ≤ m' → m' < m0 + cnt → m ≠ m' →
      wv m ≠ wv m') →
    (∀ m, m0 ≤ m → m < m0 + cnt →
      (mergeBRun g nr rb portIdx (List.range' m0 cnt)).portWire ⟨nr, portIdx + m⟩ = some (wv m) ∧
      (mergeBRun g nr rb portIdx (List.range' m0 cnt)).portWire ⟨rb, m + 1⟩ = none ∧
      (mergeBRun g nr rb portIdx (List.range' m0 cnt)).wires (wv m) =
        some (replaceEndpoint (wdv m) ⟨rb, m + 1⟩ ⟨nr, portIdx + m⟩)) ∧
    (∀ p : PortRef,
      (∀ m, m0 ≤ m → m < m0 + cnt → p ≠ ⟨nr, portIdx + m⟩ ∧ p ≠ ⟨rb, m + 1⟩) →
      (mergeBRun g nr rb portIdx (List.range' m0 cnt)).portWire p = g.portWire p) ∧
    (∀ wid, (∀ m, m0 ≤ m → m < m0 + cnt → wid ≠ wv m) →
      (mergeBRun g nr rb portIdx (List.range' m0 cnt)).wires wid = g.wires wid) ∧
    (mergeBRun g nr rb portIdx (List.range' m0 cnt)).nextId = g.nextId ∧
    (mergeBRun g nr rb portIdx (List.range' m0 cnt)).nextWire = g.nextWire ∧
    (mergeBRun g nr rb portIdx (List.range' m0 cnt)).nodes = g.nodes ∧
    (mergeBRun g nr rb portIdx (List.range' m0 cnt)).registry = g.registry := by
  intro cnt
  induction cnt with
  | zero =>
    intro m0 g hw hinj
    refine ⟨?_, ?_, ?_, rfl, rfl, rfl, rfl⟩
    · intro m hm1 hm2; omega
    · intro p _; rfl
    · intro wid _; rfl
  | succ cnt ih =>
    intro m0 g hw hinj
    have hw0 := hw m0 (le_refl m0) (by omega)
    obtain ⟨hpw0, hwi0, hep0⟩ := hw0
    have hrun : mergeBRun g nr rb portIdx (List.range' m0 (cnt + 1)) =
        mergeBRun (splice g ⟨nr, portIdx + m0⟩ ⟨rb, m0 + 1⟩) nr rb portIdx
          (List.range' (m0 + 1) cnt) := by
      show mergeBRun g nr rb portIdx (m0 :: List.range' (m0 + 1) cnt) = _
      rw [mergeBRun]
      rw [if_pos (by rw [hpw0]; simp)]
    set g1 := splice g ⟨nr, portIdx + m0⟩ ⟨rb, m0 + 1⟩ with hg1
    have hsp := splice_spec g ⟨nr, portIdx + m0⟩ ⟨rb, m0 + 1⟩ (wv m0) (wdv m0) hpw0 hwi0 hep0
    have hnew : g1.portWire ⟨nr, portIdx + m0⟩ = some (wv m0) := hsp.1
    have hold : g1.portWire ⟨rb, m0 + 1⟩ = none :=
      hsp.2.1 (by intro hc; exact hnrb (congrArg PortRef.node hc).symm)
    have hwat : g1.wires (wv m0) =
        some (replaceEndpoint (wdv m0) ⟨rb, m0 + 1⟩ ⟨nr, portIdx + m0⟩) := hsp.2.2
    have hw1 : ∀ m, m0 + 1 ≤ m → m < m0 + 1 + cnt →
        g1.portWire ⟨rb, m + 1⟩ = some (wv m) ∧ g1.wires (wv m) = some (wdv m) ∧
        ((wdv m).p0 = some ⟨rb, m + 1⟩ ∨ (wdv m).p1 = some ⟨rb, m + 1⟩) := by
      intro m hm1 hm2
      obtain ⟨ha, hb, hc⟩ := hw m (by omega) (by omega)
      refine ⟨?_, ?_, hc⟩
      · rw [hg1, splice_portWire_frame]
        · exact ha
        · intro hc2
          exact hnrb (congrArg PortRef.node hc2).symm
        · intro hc2
          have : m = m0 := by
            have := congrArg PortRef.idx hc2
            simpa using this
          omega
      · rw [hg1, splice_wires_frame]
        · exact hb
        · have hwvne : wv m0 ≠ wv m :=
            hinj m0 m (le_refl m0) (by omega) (by omega) (by omega) (by omega)
          rw [hpw0]
          simp only [ne_eq, Option.some.injEq]
          exact hwvne
    have hinj1 : ∀ m m', m0 + 1 ≤ m → m < m0 + 1 + cnt → m0 + 1 ≤ m' →
        m' < m0 + 1 + cnt → m ≠ m' → wv m ≠ wv m' := by
      intro m m' h1 h2 h3 h4 h5
      exact hinj m m' (by omega) (by omega) (by omega) (by omega) h5
    have hres := ih (m0 + 1) g1 hw1 hinj1
    obtain ⟨hA, hB, hC, hD, hE, hF, hG⟩ := hres
    rw [hrun]
    refine ⟨?_, ?_, ?_, ?_, ?_, ?_, ?_⟩
    · intro m hm1 hm2
      by_cases hm : m = m0
      · subst hm
        refine ⟨?_, ?_, ?_⟩
        · rw [hB]
          · exact hnew
          · intro m' hm'1 hm'2
            constructor
            · intro hc
              have := congrArg PortRef.idx hc
              simp at this
              omega
            · intro hc
              exact hnrb (congrArg PortRef.node hc)
        · rw [hB]
          · exact hold
          · intro m' hm'1 hm'2
            constructor
            · intro hc
              exact hnrb (congrArg PortRef.node hc).symm
            · intro hc
              have := congrArg PortRef.idx hc
              simp at this
              omega
        · rw [hC]
          · exact hwat
          · intro m' hm'1 hm'2
            exact hinj m m' (le_refl m) (by omega) (by omega) (by omega) (by omega)
      · have hmm : m0 + 1 ≤ m := by omega
        exact hA m hmm (by omega)
    · intro p hp
      rw [hB, hg1, splice_portWire_frame]
      · exact (hp m0 (le_refl m0) (by omega)).1
      · exact (hp m0 (le_refl m0) (by omega)).2
      · intro m hm1 hm2
        exact hp m (by omega) (by omega)
    · intro wid hwid
      rw [hC, hg1, splice_wires_frame]
      · rw [hpw0]
        intro hc
        exact hwid m0 (le_refl m0) (by omega) (by injection hc with h; exact h.symm)
      · intro m hm1 hm2
        exact hwid m (by omega) (by omega)
    · rw [hD, hg1]; simp
    · rw [hE, hg1]; simp
    · rw [hF, hg1]; simp
    · rw [hG, hg1]; simp

/- The enumerated fold of `mergeReplicators`' delta construction never
hits the target index when scanning past it. -/
theorem bmd_nomatch (dsB : List Int) (dA : Int) :
    ∀ (dsA : List Int) (n idx : Nat), idx < n →
    ((dsA.enumFrom n).map (fun kd =>
      if kd.1 = idx then dsB.map (fun dB => dA + dB) else [kd.2])).flatten = dsA := by
  intro dsA
  induction dsA with
  | nil => intro n idx _; rfl
  | cons a t ih =>
    intro n idx h
    show ((if n = idx then dsB.map (fun dB => dA + dB) else [a]) ++
      ((t.enumFrom (n + 1)).map (fun kd =>
        if kd.1 = idx then dsB.map (fun dB => dA + dB) else [kd.2])).flatten) = a :: t
    rw [if_neg (by omega), ih (n + 1) idx (by omega)]
    rfl

/- Core shape of the merged delta vector, with an explicit enumeration
offset. -/
theorem bmd_core (dsB : List Int) (dA : Int) :
    ∀ (dsA : List Int) (n idx : Nat), n ≤ idx → idx < n + dsA.length →
    ((dsA.enumFrom n).map (fun kd =>
      if kd.1 = idx then dsB.map (fun dB => dA + dB) else [kd.2])).flatten =
    dsA.take (idx - n) ++ dsB.map (fun dB => dA + dB) ++ dsA.drop (idx - n + 1) := by
  intro dsA
  induction dsA with
  | nil => intro n idx h1 h2; simp at h2; omega
  | cons a t ih =>
    intro n idx h1 h2
    show ((if n = idx then dsB.map (fun dB => dA + dB) else [a]) ++
      ((t.enumFrom (n + 1)).map (fun kd =>
        if kd.1 = idx then dsB.map (fun dB => dA + dB) else [kd.2])).flatten) = _
    by_cases hn : n = idx
    · subst hn
      rw [if_pos rfl, bmd_nomatch dsB dA t (n + 1) n (by omega)]
      simp
    · rw [if_neg hn]
      have h2' : idx < (n + 1) + t.length := by
        simp only [List.length_cons] at h2
        omega
      rw [ih (n + 1) idx (by omega) h2']
      have hk : idx - n = (idx - (n + 1)) + 1 := by omega
      rw [hk]
      simp [List.take_succ_cons, List.drop_succ_cons]

/- Go `mergeReplicators` builds the combined delta vector: A's deltas
with entry `idx` replaced by B's deltas each shifted by A's delta at
`idx`. -/
theorem buildMergedDeltas_eq (dsA dsB : List Int) (idx : Nat) (dA : Int)
    (h : idx < dsA.length) :
    buildMergedDeltas dsA dsB idx dA =
    dsA.take idx ++ dsB.map (fun dB => dA + dB) ++ dsA.drop (idx + 1) := by
  unfold buildMergedDeltas
  rw [show dsA.enum = dsA.enumFrom 0 from rfl]
  simpa using bmd_core dsB dA dsA 0 idx (Nat.zero_le idx) (by omega)

/- A run of the aux-connection loop that never hits `auxIndexA` is the
same splice run as `mergeBRun` on A's ports, with the running port
index advancing by one per step. -/
theorem mergeAuxLoop_no_target (nr ra rb aIdx lenB : Nat) :
    ∀ (cnt k0 pIdx : Nat) (g : Network) (l2 : List Nat),
    (∀ k, k0 ≤ k → k < k0 + cnt → k ≠ aIdx) →
    mergeAuxLoop g nr ra rb aIdx lenB (List.range' k0 cnt ++ l2) (pIdx + k0) =
    mergeAuxLoop (mergeBRun g nr ra pIdx (List.range' k0 cnt)) nr ra rb aIdx lenB l2
      (pIdx + k0 + cnt) := by
  intro cnt
  induction cnt with
  | zero => intro k0 pIdx g l2 _; rfl
  | succ cnt ih =>
    intro k0 pIdx g l2 h
    have hstep : mergeAuxLoop g nr ra rb aIdx lenB (List.range' k0 (cnt + 1) ++ l2) (pIdx + k0) =
        mergeAuxLoop
          (if (g.portWire ⟨ra, k0 + 1⟩).isSome then splice g ⟨nr, pIdx + k0⟩ ⟨ra, k0 + 1⟩ else g)
          nr ra rb aIdx lenB (List.range' (k0 + 1) cnt ++ l2) (pIdx + k0 + 1) := by
      show mergeAuxLoop g nr ra rb aIdx lenB (k0 :: (List.range' (k0 + 1) cnt ++ l2)) (pIdx + k0) = _
      rw [mergeAuxLoop]
      rw [if_neg (h k0 (le_refl k0) (by omega))]
    rw [hstep]
    have hr : mergeBRun g nr ra pIdx (List.range' k0 (cnt + 1)) =
        mergeBRun
          (if (g.portWire ⟨ra, k0 + 1⟩).isSome then splice g ⟨nr, pIdx + k0⟩ ⟨ra, k0 + 1⟩ else g)
          nr ra pIdx (List.range' (k0 + 1) cnt) := by
      show mergeBRun g nr ra pIdx (k0 :: List.range' (k0 + 1) cnt) = _
      rw [mergeBRun]
    rw [hr]
    have hcnt : pIdx + k0 + (cnt + 1) = pIdx + (k0 + 1) + cnt := by omega
    rw [hcnt]
    exact ih (k0 + 1) pIdx _ l2 (fun k hk1 hk2 => h k (by omega) (by omega))

/- At the target index the aux-connection loop runs the `mergeBRun`
splice run over B's auxiliary ports and advances the port index by
B's arity. -/
theorem mergeAuxLoop_target (g : Network) (nr ra rb aIdx lenB pIdx : Nat) (rest : List Nat) :
    mergeAuxLoop g nr ra rb aIdx lenB (aIdx :: rest) pIdx =
    mergeAuxLoop (mergeBRun g nr rb pIdx (List.range lenB)) nr ra rb aIdx lenB rest
      (pIdx + lenB) := by
  rw [mergeAuxLoop]
  rw [if_pos rfl]

/- The Go merge scan skips an auxiliary port whose neighbour is not a
compatible replicator principal. -/
theorem mergeScan_skip (g : Network) (r j : Nat) (rest : List Nat)
    (h : ∀ wid w other, g.portWire ⟨r, j⟩ = some wid → g.wires wid = some w →
      otherOf w ⟨r, j⟩ = some other →
      ¬(typeOf g other.node = NodeType.replicator ∧ other.idx = 0 ∧
        levelOf g other.node = levelOf g r + (deltasOf g r).getD (j - 1) 0)) :
    mergeScan g r (j :: rest) = mergeScan g r rest := by
  rw [mergeScan]
  dsimp only
  split
  · rfl
  rename_i wid hpw
  split
  · rfl
  rename_i w hww
  split
  · rfl
  rename_i other hot
  split
  · rename_i hc
    split
    · rename_i hlev
      exact absurd ⟨hc.1, hc.2, hlev⟩ (h wid w other hpw hww hot)
    · rfl
  · rfl

/- Iterated skip over a whole range of incompatible ports. -/
theorem mergeScan_skipRange (g : Network) (r : Nat) :
    ∀ (cnt j0 : Nat) (rest : List Nat),
    (∀ j, j0 ≤ j → j < j0 + cnt → ∀ wid w other, g.portWire ⟨r, j⟩ = some wid →
      g.wires wid = some w → otherOf w ⟨r, j⟩ = some other →
      ¬(typeOf g other.node = NodeType.replicator ∧ other.idx = 0 ∧
        levelOf g other.node = levelOf g r + (deltasOf g r).getD (j - 1) 0)) →
    mergeScan g r (List.range' j0 cnt ++ rest) = mergeScan g r rest := by
  intro cnt
  induction cnt with
  | zero => intro j0 rest _; rfl
  | succ cnt ih =>
    intro j0 rest h
    show mergeScan g r (j0 :: (List.range' (j0 + 1) cnt ++ rest)) = _
    rw [mergeScan_skip g r j0 _ (h j0 (le_refl j0) (by omega))]
    exact ih (j0 + 1) rest (fun j h1 h2 => h j (by omega) (by omega))

/- The Go merge scan fires at a port whose neighbour is the principal
of a live replicator at the compatible level: it claims both nodes and
merges, touching nothing after that port. -/
theorem mergeScan_fire (g : Network) (r s : Nat) (i : Nat) (wid : Nat) (w : WireData)
    (rest : List Nat)
    (hpw : g.portWire ⟨r, i⟩ = some wid) (hww : g.wires wid = some w)
    (hot : otherOf w ⟨r, i⟩ = some ⟨s, 0⟩)
    (htyp : typeOf g s = NodeType.replicator)
    (hlev : levelOf g s = levelOf g r + (deltasOf g r).getD (i - 1) 0)
    (halive : isDeadN g r = false) (hsalive : isDeadN g s = false) (hrs : r ≠ s) :
    mergeScan g r (i :: rest) = mergeReplicators (setDeadN (setDeadN g r) s) r s (i - 1) := by
  rw [mergeScan]
  dsimp only
  simp only [hpw, hww, hot]
  rw [if_pos ⟨htyp, trivial⟩]
  rw [if_pos hlev]
  rw [if_neg (by simp [halive])]
  rw [if_neg (by rw [isDeadN_setDead_other g r s (Ne.symm hrs)]; simp [hsalive])]

theorem portRef_ne_of_node (a b i j : Nat) (h : a ≠ b) : (⟨a, i⟩ : PortRef) ≠ ⟨b, j⟩ := by
  intro hc
  exact h (congrArg PortRef.node hc)

theorem portRef_ne_of_idx (a b i j : Nat) (h : i ≠ j) : (⟨a, i⟩ : PortRef) ≠ ⟨b, j⟩ := by
  intro hc
  exact h (congrArg PortRef.idx hc)

/- Full characterisation of Go `mergeReplicators`: a fresh replicator
at A's level carrying the combined deltas is registered under the next
node id; A's principal neighbour moves to its principal port, A's
auxiliary neighbours before/after the merge index move to ports `1+k` /
`lenB+k`, B's auxiliary neighbours move to ports `1+aIdx+m`; the
vacated ports of A and B are cleared, every re-spliced wire gets the
corresponding new endpoint, and only the RepMerge counter is bumped. -/
theorem mergeReplicators_spec (g : Network) (ra rb aIdx lenA lenB : Nat)
    (w0 : Nat) (wd0 : WireData) (wvA wvB : Nat → Nat) (wdA wdB : Nat → WireData)
    (hra : ra ≠ g.nextId + 1) (hrb : rb ≠ g.nextId + 1) (hrarb : ra ≠ rb)
    (hdA : (deltasOf g ra).length = lenA) (hdB : (deltasOf g rb).length = lenB)
    (haIdx : aIdx < lenA)
    (hw0 : g.portWire ⟨ra, 0⟩ = some w0) (hw0w : g.wires w0 = some wd0)
    (hw0e : wd0.p0 = some ⟨ra, 0⟩ ∨ wd0.p1 = some ⟨ra, 0⟩)
    (hA : ∀ k, k < lenA → k ≠ aIdx →
      g.portWire ⟨ra, k + 1⟩ = some (wvA k) ∧ g.wires (wvA k) = some (wdA k) ∧
      ((wdA k).p0 = some ⟨ra, k + 1⟩ ∨ (wdA k).p1 = some ⟨ra, k + 1⟩))
    (hB : ∀ m, m < lenB →
      g.portWire ⟨rb, m + 1⟩ = some (wvB m) ∧ g.wires (wvB m) = some (wdB m) ∧
      ((wdB m).p0 = some ⟨rb, m + 1⟩ ∨ (wdB m).p1 = some ⟨rb, m + 1⟩))
    (hinjA : ∀ k k', k < lenA → k ≠ aIdx → k' < lenA → k' ≠ aIdx → k ≠ k' → wvA k ≠ wvA k')
    (hinjB : ∀ m m', m < lenB → m' < lenB → m ≠ m' → wvB m ≠ wvB m')
    (hAB : ∀ k m, k < lenA → k ≠ aIdx → m < lenB → wvA k ≠ wvB m)
    (hw0A : ∀ k, k < lenA → k ≠ aIdx → w0 ≠ wvA k)
    (hw0B : ∀ m, m < lenB → w0 ≠ wvB m) :
    (mergeReplicators g ra rb aIdx).nodes (g.nextId + 1) = some { typ := NodeType.replicator, numPorts := 1 + (buildMergedDeltas (deltasOf g ra) (deltasOf g rb) aIdx ((deltasOf g ra).getD aIdx 0)).length, level := levelOf g ra, deltas := buildMergedDeltas (deltasOf g ra) (deltasOf g rb) aIdx ((deltasOf g ra).getD aIdx 0) } ∧
    (∀ nid, nid ≠ g.nextId + 1 → (mergeReplicators g ra rb aIdx).nodes nid = g.nodes nid) ∧
    (mergeReplicators g ra rb aIdx).stats.repMerge = g.stats.repMerge + 1 ∧
    (mergeReplicators g ra rb aIdx).portWire ⟨g.nextId + 1, 0⟩ = some w0 ∧
    (mergeReplicators g ra rb aIdx).wires w0 = some (replaceEndpoint wd0 ⟨ra, 0⟩ ⟨g.nextId + 1, 0⟩) ∧
    (mergeReplicators g ra rb aIdx).portWire ⟨ra, 0⟩ = none ∧
    (∀ k, k < aIdx →
      (mergeReplicators g ra rb aIdx).portWire ⟨g.nextId + 1, 1 + k⟩ = some (wvA k) ∧
      (mergeReplicators g ra rb aIdx).wires (wvA k) = some (replaceEndpoint (wdA k) ⟨ra, k + 1⟩ ⟨g.nextId + 1, 1 + k⟩) ∧
      (mergeReplicators g ra rb aIdx).portWire ⟨ra, k + 1⟩ = none) ∧
    (∀ m, m < lenB →
      (mergeReplicators g ra rb aIdx).portWire ⟨g.nextId + 1, 1 + aIdx + m⟩ = some (wvB m) ∧
      (mergeReplicators g ra rb aIdx).wires (wvB m) = some (replaceEndpoint (wdB m) ⟨rb, m + 1⟩ ⟨g.nextId + 1, 1 + aIdx + m⟩) ∧
      (mergeReplicators g ra rb aIdx).portWire ⟨rb, m + 1⟩ = none) ∧
    (∀ k, aIdx < k → k < lenA →
      (mergeReplicators g ra rb aIdx).portWire ⟨g.nextId + 1, lenB + k⟩ = some (wvA k) ∧
      (mergeReplicators g ra rb aIdx).wires (wvA k) = some (replaceEndpoint (wdA k) ⟨ra, k + 1⟩ ⟨g.nextId + 1, lenB + k⟩) ∧
      (mergeReplicators g ra rb aIdx).portWire ⟨ra, k + 1⟩ = none) := by
  have hndsome : ∀ (nd : NodeData), ((addNode g nd).1.portWire ⟨ra, 0⟩) = some w0 := by
    intro nd
    rw [addNode_portWire_frame g nd ⟨ra, 0⟩ hra]
    exact hw0
  have hdelsp : ∀ (nd : NodeData) (x : Nat), x ≠ g.nextId + 1 →
      deltasOf (splice (addNode g nd).1 ⟨g.nextId + 1, 0⟩ ⟨ra, 0⟩) x = deltasOf g x := by
    intro nd x hx
    unfold deltasOf
    rw [splice_nodes, addNode_nodes_frame g nd x hx]
  have heq : mergeReplicators g ra rb aIdx = bumpRepMerge (mergeAuxLoop (splice (addNode g { typ := NodeType.replicator, numPorts := 1 + (buildMergedDeltas (deltasOf g ra) (deltasOf g rb) aIdx ((deltasOf g ra).getD aIdx 0)).length, level := levelOf g ra, deltas := buildMergedDeltas (deltasOf g ra) (deltasOf g rb) aIdx ((deltasOf g ra).getD aIdx 0) }).1 ⟨g.nextId + 1, 0⟩ ⟨ra, 0⟩) (g.nextId + 1) ra rb aIdx lenB (List.range lenA) 1) := by
    unfold mergeReplicators
    dsimp only
    unfold newReplicator
    simp only [addNode_id]
    rw [if_pos (by rw [hndsome]; rfl)]
    rw [hdelsp _ ra hra, hdelsp _ rb hrb, hdA, hdB]
  rw [heq]
  set nds := buildMergedDeltas (deltasOf g ra) (deltasOf g rb) aIdx ((deltasOf g ra).getD aIdx 0) with hnds
  set nd : NodeData := { typ := NodeType.replicator, numPorts := 1 + nds.length, level := levelOf g ra, deltas := nds } with hnd
  set nr := g.nextId + 1 with hnr
  set g1 : Network := (addNode g nd).1 with hg1
  set g2 : Network := splice g1 ⟨nr, 0⟩ ⟨ra, 0⟩ with hg2
  have hloop : mergeAuxLoop g2 nr ra rb aIdx lenB (List.range lenA) 1 = mergeBRun (mergeBRun (mergeBRun g2 nr ra 1 (List.range' 0 aIdx)) nr rb (1 + aIdx) (List.range' 0 lenB)) nr ra lenB (List.range' (aIdx + 1) (lenA - aIdx - 1)) := by
    have hsplit : List.range lenA = List.range' 0 aIdx ++ (aIdx :: List.range' (aIdx + 1) (lenA - aIdx - 1)) := by
      have h1 : (aIdx :: List.range' (aIdx + 1) (lenA - aIdx - 1)) = List.range' aIdx (lenA - aIdx) := by
        have h2 : lenA - aIdx = (lenA - aIdx - 1) + 1 := by omega
        rw [h2]
        rfl
      rw [h1]
      have h3 := List.range'_append 0 aIdx (lenA - aIdx) 1
      simp only [Nat.zero_add, Nat.one_mul] at h3
      have h4 : (lenA - aIdx) + aIdx = lenA := by omega
      rw [h4] at h3
      rw [List.range_eq_range' lenA]
      exact h3.symm
    rw [hsplit]
    have hnt1 := mergeAuxLoop_no_target nr ra rb aIdx lenB aIdx 0 1 g2 (aIdx :: List.range' (aIdx + 1) (lenA - aIdx - 1)) (fun k hk1 hk2 => by omega)
    simp only [Nat.add_zero] at hnt1
    rw [hnt1]
    rw [mergeAuxLoop_target]
    have hnt2 := mergeAuxLoop_no_target nr ra rb aIdx lenB (lenA - aIdx - 1) (aIdx + 1) lenB (mergeBRun (mergeBRun g2 nr ra 1 (List.range' 0 aIdx)) nr rb (1 + aIdx) (List.range lenB)) [] (fun k hk1 hk2 => by omega)
    simp only [List.append_nil] at hnt2
    have h5 : 1 + aIdx + lenB = lenB + (aIdx + 1) := by omega
    rw [h5]
    rw [hnt2]
    rw [List.range_eq_range' lenB]
    rfl
  rw [hloop]
  have hnra : nr ≠ ra := fun hc => hra hc.symm
  have hnrb : nr ≠ rb := fun hc => hrb hc.symm
  have hpw1 : g1.portWire ⟨ra, 0⟩ = some w0 := hndsome nd
  have hw1w : g1.wires w0 = some wd0 := by rw [hg1, addNode_wires]; exact hw0w
  have hsp := splice_spec g1 ⟨nr, 0⟩ ⟨ra, 0⟩ w0 wd0 hpw1 hw1w hw0e
  have h2new : g2.portWire ⟨nr, 0⟩ = some w0 := hsp.1
  have h2old : g2.portWire ⟨ra, 0⟩ = none := hsp.2.1 (portRef_ne_of_node ra nr 0 0 hra)
  have h2wat : g2.wires w0 = some (replaceEndpoint wd0 ⟨ra, 0⟩ ⟨nr, 0⟩) := hsp.2.2
  have hg2pw : ∀ p : PortRef, p.node ≠ nr → p ≠ ⟨ra, 0⟩ → g2.portWire p = g.portWire p := by
    intro p h1 h2
    rw [hg2, splice_portWire_frame g1 ⟨nr, 0⟩ ⟨ra, 0⟩ p (fun hc => h1 (congrArg PortRef.node hc)) h2]
    rw [hg1, addNode_portWire_frame g nd p h1]
  have hg2w : ∀ wid, wid ≠ w0 → g2.wires wid = g.wires wid := by
    intro wid hne
    rw [hg2, splice_wires_frame g1 ⟨nr, 0⟩ ⟨ra, 0⟩ wid (by rw [hpw1]; simp only [ne_eq, Option.some.injEq]; exact fun hc => hne hc.symm)]
    rw [hg1, addNode_wires]
  have HA := mergeBRun_spec nr ra hnra wvA wdA 1 aIdx 0 g2
    (by
      intro m hm0 hm
      obtain ⟨ha1, ha2, ha3⟩ := hA m (by omega) (by omega)
      refine ⟨?_, ?_, ha3⟩
      · rw [hg2pw ⟨ra, m + 1⟩ hra (portRef_ne_of_idx ra ra (m + 1) 0 (by omega))]
        exact ha1
      · rw [hg2w (wvA m) (Ne.symm (hw0A m (by omega) (by omega)))]
        exact ha2)
    (fun m m' h1 h2 h3 h4 h5 => hinjA m m' (by omega) (by omega) (by omega) (by omega) h5)
  obtain ⟨HA1, HA2, HA3, HAni, HAnw, HAno, HAre⟩ := HA
  have HB := mergeBRun_spec nr rb hnrb wvB wdB (1 + aIdx) lenB 0 (mergeBRun g2 nr ra 1 (List.range' 0 aIdx))
    (by
      intro m hm0 hm
      obtain ⟨hb1, hb2, hb3⟩ := hB m (by omega)
      refine ⟨?_, ?_, hb3⟩
      · rw [HA2 ⟨rb, m + 1⟩ (fun k hk1 hk2 => ⟨portRef_ne_of_node rb nr (m + 1) (1 + k) hrb, portRef_ne_of_node rb ra (m + 1) (k + 1) (Ne.symm hrarb)⟩)]
        rw [hg2pw ⟨rb, m + 1⟩ hrb (portRef_ne_of_node rb ra (m + 1) 0 (Ne.symm hrarb))]
        exact hb1
      · rw [HA3 (wvB m) (fun k hk1 hk2 => Ne.symm (hAB k m (by omega) (by omega) (by omega)))]
        rw [hg2w (wvB m) (Ne.symm (hw0B m (by omega)))]
        exact hb2)
    (fun m m' h1 h2 h3 h4 h5 => hinjB m m' (by omega) (by omega) h5)
  obtain ⟨HB1, HB2, HB3, HBni, HBnw, HBno, HBre⟩ := HB
  have HC := mergeBRun_spec nr ra hnra wvA wdA lenB (lenA - aIdx - 1) (aIdx + 1) (mergeBRun (mergeBRun g2 nr ra 1 (List.range' 0 aIdx)) nr rb (1 + aIdx) (List.range' 0 lenB))
    (by
      intro m hm1 hm2
      have hmA : m < lenA := by omega
      obtain ⟨ha1, ha2, ha3⟩ := hA m hmA (by omega)
      refine ⟨?_, ?_, ha3⟩
      · rw [HB2 ⟨ra, m + 1⟩ (fun m' h1 h2 => ⟨portRef_ne_of_node ra nr (m + 1) (1 + aIdx + m') hra, portRef_ne_of_node ra rb (m + 1) (m' + 1) hrarb⟩)]
        rw [HA2 ⟨ra, m + 1⟩ (fun k hk1 hk2 => ⟨portRef_ne_of_node ra nr (m + 1) (1 + k) hra, portRef_ne_of_idx ra ra (m + 1) (k + 1) (by omega)⟩)]
        rw [hg2pw ⟨ra, m + 1⟩ hra (portRef_ne_of_idx ra ra (m + 1) 0 (by omega))]
        exact ha1
      · rw [HB3 (wvA m) (fun m' h1 h2 => hAB m m' hmA (by omega) (by omega))]
        rw [HA3 (wvA m) (fun k hk1 hk2 => hinjA m k hmA (by omega) (by omega) (by omega) (by omega))]
        rw [hg2w (wvA m) (Ne.symm (hw0A m hmA (by omega)))]
        exact ha2)
    (fun m m' h1 h2 h3 h4 h5 => hinjA m m' (by omega) (by omega) (by omega) (by omega) h5)
  obtain ⟨HC1, HC2, HC3, HCni, HCnw, HCno, HCre⟩ := HC
  refine ⟨?_, ?_, ?_, ?_, ?_, ?_, ?_, ?_, ?_⟩
  · show (mergeBRun (mergeBRun (mergeBRun g2 nr ra 1 (List.range' 0 aIdx)) nr rb (1 + aIdx) (List.range' 0 lenB)) nr ra lenB (List.range' (aIdx + 1) (lenA - aIdx - 1))).nodes nr = some nd
    rw [mergeBRun_nodes, mergeBRun_nodes, mergeBRun_nodes, hg2, splice_nodes, hg1]
    exact addNode_nodes_new g nd
  · intro nid hne
    show (mergeBRun (mergeBRun (mergeBRun g2 nr ra 1 (List.range' 0 aIdx)) nr rb (1 + aIdx) (List.range' 0 lenB)) nr ra lenB (List.range' (aIdx + 1) (lenA - aIdx - 1))).nodes nid = g.nodes nid
    rw [mergeBRun_nodes, mergeBRun_nodes, mergeBRun_nodes, hg2, splice_nodes, hg1]
    exact addNode_nodes_frame g nd nid hne
  · show (mergeBRun (mergeBRun (mergeBRun g2 nr ra 1 (List.range' 0 aIdx)) nr rb (1 + aIdx) (List.range' 0 lenB)) nr ra lenB (List.range' (aIdx + 1) (lenA - aIdx - 1))).stats.repMerge + 1 = g.stats.repMerge + 1
    rw [mergeBRun_stats, mergeBRun_stats, mergeBRun_stats, hg2, splice_stats, hg1, addNode_stats]
  · show (mergeBRun (mergeBRun (mergeBRun g2 nr ra 1 (List.range' 0 aIdx)) nr rb (1 + aIdx) (List.range' 0 lenB)) nr ra lenB (List.range' (aIdx + 1) (lenA - aIdx - 1))).portWire ⟨nr, 0⟩ = some w0
    rw [HC2 ⟨nr, 0⟩ (fun m h1 h2 => ⟨portRef_ne_of_idx nr nr 0 (lenB + m) (by omega), portRef_ne_of_node nr ra 0 (m + 1) hnra⟩)]
    rw [HB2 ⟨nr, 0⟩ (fun m h1 h2 => ⟨portRef_ne_of_idx nr nr 0 (1 + aIdx + m) (by omega), portRef_ne_of_node nr rb 0 (m + 1) hnrb⟩)]
    rw [HA2 ⟨nr, 0⟩ (fun k h1 h2 => ⟨portRef_ne_of_idx nr nr 0 (1 + k) (by omega), portRef_ne_of_node nr ra 0 (k + 1) hnra⟩)]
    exact h2new
  · show (mergeBRun (mergeBRun (mergeBRun g2 nr ra 1 (List.range' 0 aIdx)) nr rb (1 + aIdx) (List.range' 0 lenB)) nr ra lenB (List.range' (aIdx + 1) (lenA - aIdx - 1))).wires w0 = some (replaceEndpoint wd0 ⟨ra, 0⟩ ⟨nr, 0⟩)
    rw [HC3 w0 (fun m h1 h2 => hw0A m (by omega) (by omega))]
    rw [HB3 w0 (fun m h1 h2 => hw0B m (by omega))]
    rw [HA3 w0 (fun k h1 h2 => hw0A k (by omega) (by omega))]
    exact h2wat
  · show (mergeBRun (mergeBRun (mergeBRun g2 nr ra 1 (List.range' 0 aIdx)) nr rb (1 + aIdx) (List.range' 0 lenB)) nr ra lenB (List.range' (aIdx + 1) (lenA - aIdx - 1))).portWire ⟨ra, 0⟩ = none
    rw [HC2 ⟨ra, 0⟩ (fun m h1 h2 => ⟨portRef_ne_of_node ra nr 0 (lenB + m) hra, portRef_ne_of_idx ra ra 0 (m + 1) (by omega)⟩)]
    rw [HB2 ⟨ra, 0⟩ (fun m h1 h2 => ⟨portRef_ne_of_node ra nr 0 (1 + aIdx + m) hra, portRef_ne_of_node ra rb 0 (m + 1) hrarb⟩)]
    rw [HA2 ⟨ra, 0⟩ (fun k h1 h2 => ⟨portRef_ne_of_node ra nr 0 (1 + k) hra, portRef_ne_of_idx ra ra 0 (k + 1) (by omega)⟩)]
    exact h2old
  · intro k hk
    refine ⟨?_, ?_, ?_⟩
    · show (mergeBRun (mergeBRun (mergeBRun g2 nr ra 1 (List.range' 0 aIdx)) nr rb (1 + aIdx) (List.range' 0 lenB)) nr ra lenB (List.range' (aIdx + 1) (lenA - aIdx - 1))).portWire ⟨nr, 1 + k⟩ = some (wvA k)
      rw [HC2 ⟨nr, 1 + k⟩ (fun m h1 h2 => ⟨portRef_ne_of_idx nr nr (1 + k) (lenB + m) (by omega), portRef_ne_of_node nr ra (1 + k) (m + 1) hnra⟩)]
      rw [HB2 ⟨nr, 1 + k⟩ (fun m h1 h2 => ⟨portRef_ne_of_idx nr nr (1 + k) (1 + aIdx + m) (by omega), portRef_ne_of_node nr rb (1 + k) (m + 1) hnrb⟩)]
      exact (HA1 k (by omega) (by omega)).1
    · show (mergeBRun (mergeBRun (mergeBRun g2 nr ra 1 (List.range' 0 aIdx)) nr rb (1 + aIdx) (List.range' 0 lenB)) nr ra lenB (List.range' (aIdx + 1) (lenA - aIdx - 1))).wires (wvA k) = some (replaceEndpoint (wdA k) ⟨ra, k + 1⟩ ⟨nr, 1 + k⟩)
      rw [HC3 (wvA k) (fun m h1 h2 => hinjA k m (by omega) (by omega) (by omega) (by omega) (by omega))]
      rw [HB3 (wvA k) (fun m h1 h2 => hAB k m (by omega) (by omega) (by omega))]
      exact (HA1 k (by omega) (by omega)).2.2
    · show (mergeBRun (mergeBRun (mergeBRun g2 nr ra 1 (List.range' 0 aIdx)) nr rb (1 + aIdx) (List.range' 0 lenB)) nr ra lenB (List.range' (aIdx + 1) (lenA - aIdx - 1))).portWire ⟨ra, k + 1⟩ = none
      rw [HC2 ⟨ra, k + 1⟩ (fun m h1 h2 => ⟨portRef_ne_of_node ra nr (k + 1) (lenB + m) hra, portRef_ne_of_idx ra ra (k + 1) (m + 1) (by omega)⟩)]
      rw [HB2 ⟨ra, k + 1⟩ (fun m h1 h2 => ⟨portRef_ne_of_node ra nr (k + 1) (1 + aIdx + m) hra, portRef_ne_of_node ra rb (k + 1) (m + 1) hrarb⟩)]
      exact (HA1 k (by omega) (by omega)).2.1
  · intro m hm
    refine ⟨?_, ?_, ?_⟩
    · show (mergeBRun (mergeBRun (mergeBRun g2 nr ra 1 (List.range' 0 aIdx)) nr rb (1 + aIdx) (List.range' 0 lenB)) nr ra lenB (List.range' (aIdx + 1) (lenA - aIdx - 1))).portWire ⟨nr, 1 + aIdx + m⟩ = some (wvB m)
      rw [HC2 ⟨nr, 1 + aIdx + m⟩ (fun m' h1 h2 => ⟨portRef_ne_of_idx nr nr (1 + aIdx + m) (lenB + m') (by omega), portRef_ne_of_node nr ra (1 + aIdx + m) (m' + 1) hnra⟩)]
      exact (HB1 m (by omega) (by omega)).1
    · show (mergeBRun (mergeBRun (mergeBRun g2 nr ra 1 (List.range' 0 aIdx)) nr rb (1 + aIdx) (List.range' 0 lenB)) nr ra lenB (List.range' (aIdx + 1) (lenA - aIdx - 1))).wires (wvB m) = some (replaceEndpoint (wdB m) ⟨rb, m + 1⟩ ⟨nr, 1 + aIdx + m⟩)
      rw [HC3 (wvB m) (fun m' h1 h2 => Ne.symm (hAB m' m (by omega) (by omega) (by omega)))]
      exact (HB1 m (by omega) (by omega)).2.2
    · show (mergeBRun (mergeBRun (mergeBRun g2 nr ra 1 (List.range' 0 aIdx)) nr rb (1 + aIdx) (List.range' 0 lenB)) nr ra lenB (List.range' (aIdx + 1) (lenA - aIdx - 1))).portWire ⟨rb, m + 1⟩ = none
      rw [HC2 ⟨rb, m + 1⟩ (fun m' h1 h2 => ⟨portRef_ne_of_node rb nr (m + 1) (lenB + m') hrb, portRef_ne_of_node rb ra (m + 1) (m' + 1) (Ne.symm hrarb)⟩)]
      exact (HB1 m (by omega) (by omega)).2.1
  · intro k hk1 hk2
    refine ⟨?_, ?_, ?_⟩
    · exact (HC1 k (by omega) (by omega)).1
    · exact (HC1 k (by omega) (by omega)).2.2
    · exact (HC1 k (by omega) (by omega)).2.1

/-- C2: for a replicator R whose auxiliary port `aIdx+1` is the first
candidate port (all earlier auxiliary ports fail the candidate test)
and is wired to the principal port of another live replicator S, the
canonical merge rule fires exactly when `S.level = R.level +
R.deltas[aIdx]`: if the level test fails (and no later port is a
candidate) the pass changes nothing, and if it holds the pass kills R
and S, registers one new replicator under the next node id at R's
level whose delta vector is R's deltas with entry `aIdx` replaced by
S's deltas each increased by `R.deltas[aIdx]`, re-splices every
neighbour of R and S onto the new replicator's ports, clears the
vacated ports, and bumps the RepMerge counter. -/
theorem c2_replicator_merge (g : Network) (r s lenA lenB aIdx : Nat) (wi : Nat) (w : WireData)
    (w0 : Nat) (wd0 : WireData) (wvA wvB : Nat → Nat) (wdA wdB : Nat → WireData)
    (htyp_r : typeOf g r = NodeType.replicator) (htyp_s : typeOf g s = NodeType.replicator)
    (halive_r : isDeadN g r = false) (halive_s : isDeadN g s = false)
    (hrs : r ≠ s) (hrid : r ≠ g.nextId + 1) (hsid : s ≠ g.nextId + 1)
    (hnp : numPortsOf g r = 1 + lenA)
    (hdA : (deltasOf g r).length = lenA) (hdB : (deltasOf g s).length = lenB)
    (haIdx : aIdx < lenA)
    (hwi : g.portWire ⟨r, aIdx + 1⟩ = some wi) (hwiw : g.wires wi = some w)
    (hother : otherOf w ⟨r, aIdx + 1⟩ = some ⟨s, 0⟩)
    (hskip : ∀ j, 1 ≤ j → j < aIdx + 1 → ∀ wid' w' other, g.portWire ⟨r, j⟩ = some wid' →
      g.wires wid' = some w' → otherOf w' ⟨r, j⟩ = some other →
      ¬(typeOf g other.node = NodeType.replicator ∧ other.idx = 0 ∧
        levelOf g other.node = levelOf g r + (deltasOf g r).getD (j - 1) 0))
    (hw0 : g.portWire ⟨r, 0⟩ = some w0) (hw0w : g.wires w0 = some wd0)
    (hw0e : wd0.p0 = some ⟨r, 0⟩ ∨ wd0.p1 = some ⟨r, 0⟩)
    (hA : ∀ k, k < lenA → k ≠ aIdx → g.portWire ⟨r, k + 1⟩ = some (wvA k) ∧
      g.wires (wvA k) = some (wdA k) ∧
      ((wdA k).p0 = some ⟨r, k + 1⟩ ∨ (wdA k).p1 = some ⟨r, k + 1⟩))
    (hB : ∀ m, m < lenB → g.portWire ⟨s, m + 1⟩ = some (wvB m) ∧
      g.wires (wvB m) = some (wdB m) ∧
      ((wdB m).p0 = some ⟨s, m + 1⟩ ∨ (wdB m).p1 = some ⟨s, m + 1⟩))
    (hinjA : ∀ k k', k < lenA → k ≠ aIdx → k' < lenA → k' ≠ aIdx → k ≠ k' → wvA k ≠ wvA k')
    (hinjB : ∀ m m', m < lenB → m' < lenB → m ≠ m' → wvB m ≠ wvB m')
    (hAB : ∀ k m, k < lenA → k ≠ aIdx → m < lenB → wvA k ≠ wvB m)
    (hw0A : ∀ k, k < lenA → k ≠ aIdx → w0 ≠ wvA k)
    (hw0B : ∀ m, m < lenB → w0 ≠ wvB m) :
    ((levelOf g s ≠ levelOf g r + (deltasOf g r).getD aIdx 0 →
      (∀ j, aIdx + 1 < j → j < 1 + lenA → ∀ wid' w' other, g.portWire ⟨r, j⟩ = some wid' →
        g.wires wid' = some w' → otherOf w' ⟨r, j⟩ = some other →
        ¬(typeOf g other.node = NodeType.replicator ∧ other.idx = 0 ∧
          levelOf g other.node = levelOf g r + (deltasOf g r).getD (j - 1) 0)) →
      reduceRepMerge g r = g) ∧
    (levelOf g s = levelOf g r + (deltasOf g r).getD aIdx 0 →
      isDeadN (reduceRepMerge g r) r = true ∧
      isDeadN (reduceRepMerge g r) s = true ∧
      (reduceRepMerge g r).stats.repMerge = g.stats.repMerge + 1 ∧
      (reduceRepMerge g r).nodes (g.nextId + 1) = some { typ := NodeType.replicator, numPorts := 1 + ((deltasOf g r).take aIdx ++ (deltasOf g s).map (fun dB => (deltasOf g r).getD aIdx 0 + dB) ++ (deltasOf g r).drop (aIdx + 1)).length, level := levelOf g r, deltas := (deltasOf g r).take aIdx ++ (deltasOf g s).map (fun dB => (deltasOf g r).getD aIdx 0 + dB) ++ (deltasOf g r).drop (aIdx + 1) } ∧
      (reduceRepMerge g r).portWire ⟨g.nextId + 1, 0⟩ = some w0 ∧
      (reduceRepMerge g r).wires w0 = some (replaceEndpoint wd0 ⟨r, 0⟩ ⟨g.nextId + 1, 0⟩) ∧
      (reduceRepMerge g r).portWire ⟨r, 0⟩ = none ∧
      (∀ k, k < aIdx → (reduceRepMerge g r).portWire ⟨g.nextId + 1, 1 + k⟩ = some (wvA k) ∧ (reduceRepMerge g r).wires (wvA k) = some (replaceEndpoint (wdA k) ⟨r, k + 1⟩ ⟨g.nextId + 1, 1 + k⟩) ∧ (reduceRepMerge g r).portWire ⟨r, k + 1⟩ = none) ∧
      (∀ m, m < lenB → (reduceRepMerge g r).portWire ⟨g.nextId + 1, 1 + aIdx + m⟩ = some (wvB m) ∧ (reduceRepMerge g r).wires (wvB m) = some (replaceEndpoint (wdB m) ⟨s, m + 1⟩ ⟨g.nextId + 1, 1 + aIdx + m⟩) ∧ (reduceRepMerge g r).portWire ⟨s, m + 1⟩ = none) ∧
      (∀ k, aIdx < k → k < lenA → (reduceRepMerge g r).portWire ⟨g.nextId + 1, lenB + k⟩ = some (wvA k) ∧ (reduceRepMerge g r).wires (wvA k) = some (replaceEndpoint (wdA k) ⟨r, k + 1⟩ ⟨g.nextId + 1, lenB + k⟩) ∧ (reduceRepMerge g r).portWire ⟨r, k + 1⟩ = none))) := by
  have hnp' : numPortsOf g r - 1 = lenA := by omega
  have hscan0 : reduceRepMerge g r = mergeScan g r (List.range' 1 lenA) := by
    unfold reduceRepMerge
    rw [if_neg (by simp [halive_r])]
    rw [hnp']
  have hsplitScan : List.range' 1 lenA = List.range' 1 aIdx ++ ((aIdx + 1) :: List.range' (aIdx + 2) (lenA - aIdx - 1)) := by
    have h1 : ((aIdx + 1) :: List.range' (aIdx + 2) (lenA - aIdx - 1)) = List.range' (aIdx + 1) (lenA - aIdx) := by
      have h2 : lenA - aIdx = (lenA - aIdx - 1) + 1 := by omega
      rw [h2]
      rfl
    rw [h1]
    have h3 := List.range'_append 1 aIdx (lenA - aIdx) 1
    simp only [Nat.one_mul] at h3
    have h4 : (lenA - aIdx) + aIdx = lenA := by omega
    rw [h4] at h3
    have h5 : 1 + aIdx = aIdx + 1 := by omega
    rw [h5] at h3
    exact h3.symm
  constructor
  · intro hlev hafter
    rw [hscan0, hsplitScan]
    rw [mergeScan_skipRange g r aIdx 1 _ (fun j hj1 hj2 => hskip j hj1 (by omega))]
    rw [mergeScan_skip g r (aIdx + 1) _ (by
      intro wid' w' other hpw' hww' hot'
      rw [hwi] at hpw'
      injection hpw' with h1
      subst h1
      rw [hwiw] at hww'
      injection hww' with h2
      subst h2
      rw [hother] at hot'
      injection hot' with h3
      subst h3
      intro hcond
      apply hlev
      have h4 := hcond.2.2
      simpa using h4)]
    have happ : List.range' (aIdx + 2) (lenA - aIdx - 1) = List.range' (aIdx + 2) (lenA - aIdx - 1) ++ [] := (List.append_nil _).symm
    rw [happ, mergeScan_skipRange g r (lenA - aIdx - 1) (aIdx + 2) [] (fun j hj1 hj2 => hafter j (by omega) (by omega))]
    rfl
  · intro hlev
    have hred : reduceRepMerge g r = mergeReplicators (setDeadN (setDeadN g r) s) r s aIdx := by
      rw [hscan0, hsplitScan]
      rw [mergeScan_skipRange g r aIdx 1 _ (fun j hj1 hj2 => hskip j hj1 (by omega))]
      have hfire := mergeScan_fire g r s (aIdx + 1) wi w (List.range' (aIdx + 2) (lenA - aIdx - 1)) hwi hwiw hother htyp_s (by simpa using hlev) halive_r halive_s hrs
      rw [hfire]
      rw [Nat.add_sub_cancel]
    rw [hred]
    have hspec := mergeReplicators_spec (setDeadN (setDeadN g r) s) r s aIdx lenA lenB w0 wd0 wvA wvB wdA wdB
      (by simpa using hrid) (by simpa using hsid) hrs
      (by simpa using hdA) (by simpa using hdB) haIdx
      (by simpa using hw0) (by simpa using hw0w) hw0e
      (by
        intro k hk1 hk2
        obtain ⟨a1, a2, a3⟩ := hA k hk1 hk2
        exact ⟨by simpa using a1, by simpa using a2, a3⟩)
      (by
        intro m hm
        obtain ⟨b1, b2, b3⟩ := hB m hm
        exact ⟨by simpa using b1, by simpa using b2, b3⟩)
      hinjA hinjB hAB hw0A hw0B
    obtain ⟨S1, S2, S3, S4, S5, S6, S7, S8, S9⟩ := hspec
    simp only [setDeadN_nextId, setDeadN_stats, levelOf_setDead, deltasOf_setDead] at S1 S2 S3 S4 S5 S6 S7 S8 S9
    have hlenr : aIdx < (deltasOf g r).length := by omega
    rw [buildMergedDeltas_eq (deltasOf g r) (deltasOf g s) aIdx ((deltasOf g r).getD aIdx 0) hlenr] at S1
    have hdeadr : isDeadN (mergeReplicators (setDeadN (setDeadN g r) s) r s aIdx) r = true := by
      unfold isDeadN
      rw [S2 r hrid]
      rw [setDeadN_nodes_frame (setDeadN g r) s r hrs]
      rw [setDeadN_nodes_at]
      cases hnd : g.nodes r with
      | none =>
        exfalso
        unfold typeOf at htyp_r
        rw [hnd] at htyp_r
        exact absurd htyp_r (by decide)
      | some ndv => simp
    have hdeads : isDeadN (mergeReplicators (setDeadN (setDeadN g r) s) r s aIdx) s = true := by
      unfold isDeadN
      rw [S2 s hsid]
      rw [setDeadN_nodes_at]
      rw [setDeadN_nodes_frame g r s (Ne.symm hrs)]
      cases hnd : g.nodes s with
      | none =>
        exfalso
        unfold typeOf at htyp_s
        rw [hnd] at htyp_s
        exact absurd htyp_s (by decide)
      | some ndv => simp
    exact ⟨hdeadr, hdeads, S3, S1, S4, S5, S6, S7, S8, S9⟩

/-- Witness for C2 on the net R(level 0, deltas [1]) with aux 1 wired
to the principal of S(level 1, deltas [3]): the merge fires, kills
nodes 1 and 2, creates replicator 5 at level 0 with deltas [4], and
re-splices R's principal neighbour (var 3) and S's aux neighbour
(var 4) onto ports 0 and 1 of the new replicator. -/
theorem c2_replicator_merge_witness :
    isDeadN (reduceRepMerge netC2 1) 1 = true ∧
    isDeadN (reduceRepMerge netC2 1) 2 = true ∧
    (reduceRepMerge netC2 1).stats.repMerge = netC2.stats.repMerge + 1 ∧
    (reduceRepMerge netC2 1).nodes (netC2.nextId + 1) = some { typ := NodeType.replicator, numPorts := 2, level := 0, deltas := [4] } ∧
    (reduceRepMerge netC2 1).portWire ⟨netC2.nextId + 1, 0⟩ = some 2 ∧
    (reduceRepMerge netC2 1).wires 2 = some ⟨some ⟨3, 0⟩, some ⟨netC2.nextId + 1, 0⟩, 0⟩ ∧
    (reduceRepMerge netC2 1).portWire ⟨1, 0⟩ = none ∧
    (reduceRepMerge netC2 1).portWire ⟨netC2.nextId + 1, 1⟩ = some 3 ∧
    (reduceRepMerge netC2 1).wires 3 = some ⟨some ⟨4, 0⟩, some ⟨netC2.nextId + 1, 1⟩, 0⟩ ∧
    (reduceRepMerge netC2 1).portWire ⟨2, 1⟩ = none := by
  have h := (c2_replicator_merge netC2 1 2 1 1 0 1 ⟨some ⟨1, 1⟩, some ⟨2, 0⟩, 0⟩ 2 ⟨some ⟨3, 0⟩, some ⟨1, 0⟩, 0⟩ (fun _ => 0) (fun _ => 3) (fun _ => ⟨none, none, 0⟩) (fun _ => ⟨some ⟨4, 0⟩, some ⟨2, 1⟩, 0⟩)
    (by decide) (by decide) (by decide) (by decide) (by decide) (by decide) (by decide)
    (by decide) (by decide) (by decide) (by decide) (by decide) (by decide) (by decide)
    (fun j hj1 hj2 => absurd (Nat.lt_of_le_of_lt hj1 hj2) (Nat.lt_irrefl 1))
    (by decide) (by decide) (by decide)
    (fun k hk1 hk2 => absurd (Nat.lt_one_iff.mp hk1) hk2)
    (fun m hm => by
      have h0 : m = 0 := Nat.lt_one_iff.mp hm
      subst h0
      exact ⟨by decide, by decide, by decide⟩)
    (fun k k' hk1 hk2 _ _ _ => absurd (Nat.lt_one_iff.mp hk1) hk2)
    (fun m m' hm hm' hne => absurd (by omega) hne)
    (fun k m hk1 hk2 _ => absurd (Nat.lt_one_iff.mp hk1) hk2)
    (fun k hk1 hk2 => absurd (Nat.lt_one_iff.mp hk1) hk2)
    (fun m hm => by simp)).2 (by decide)
  obtain ⟨h1, h2, h3, h4, h5, h6, h7, h8, h9, h10⟩ := h
  refine ⟨h1, h2, h3, ?_, h5, ?_, h7, ?_, ?_, ?_⟩
  · exact h4.trans (by decide)
  · exact h6.trans (by decide)
  · exact (h9 0 (by decide)).1
  · exact ((h9 0 (by decide)).2.1).trans (by decide)
  · exact (h9 0 (by decide)).2.2

/- Enumerating a `range'` pairs each element with its offset index. -/
theorem enumFrom_range'_zip : ∀ (n s t : Nat),
    List.enumFrom t (List.range' s n) = List.zip (List.range' t n) (List.range' s n) := by
  intro n
  induction n with
  | zero => intro s t; rfl
  | succ n ih =>
    intro s t
    show (t, s) :: List.enumFrom (t + 1) (List.range' (s + 1) n) =
      (t, s) :: List.zip (List.range' (t + 1) n) (List.range' (s + 1) n)
    rw [ih (s + 1) (t + 1)]

/- The wiring effect of one `connectRow` run: the row of internal
wires of one A-copy, one fresh wire per B-copy, at `depth + 1`. -/
theorem connectRow_spec (cid j depth bb : Nat) (wr : Nat → Nat) :
    ∀ (cnt k0 : Nat) (g : Network),
    (∀ k, k0 ≤ k → k < k0 + cnt → cid ≠ bb + k) →
    (∀ k, k0 ≤ k → k < k0 + cnt → wr k = g.nextWire + (k - k0) + 1) →
    (∀ k, k0 ≤ k → k < k0 + cnt →
      (connectRow g cid j depth (List.zip (List.range' k0 cnt) (List.range' (bb + k0) cnt))).wires (wr k) = some ⟨some ⟨cid, k + 1⟩, some ⟨bb + k, j + 1⟩, depth + 1⟩ ∧
      (connectRow g cid j depth (List.zip (List.range' k0 cnt) (List.range' (bb + k0) cnt))).portWire ⟨cid, k + 1⟩ = some (wr k) ∧
      (connectRow g cid j depth (List.zip (List.range' k0 cnt) (List.range' (bb + k0) cnt))).portWire ⟨bb + k, j + 1⟩ = some (wr k)) ∧
    (∀ p : PortRef, (∀ k, k0 ≤ k → k < k0 + cnt → p ≠ ⟨cid, k + 1⟩ ∧ p ≠ ⟨bb + k, j + 1⟩) →
      (connectRow g cid j depth (List.zip (List.range' k0 cnt) (List.range' (bb + k0) cnt))).portWire p = g.portWire p) ∧
    (∀ wid, wid ≤ g.nextWire →
      (connectRow g cid j depth (List.zip (List.range' k0 cnt) (List.range' (bb + k0) cnt))).wires wid = g.wires wid) ∧
    (connectRow g cid j depth (List.zip (List.range' k0 cnt) (List.range' (bb + k0) cnt))).nextWire = g.nextWire + cnt ∧
    (connectRow g cid j depth (List.zip (List.range' k0 cnt) (List.range' (bb + k0) cnt))).nextId = g.nextId ∧
    (connectRow g cid j depth (List.zip (List.range' k0 cnt) (List.range' (bb + k0) cnt))).nodes = g.nodes := by
  intro cnt
  induction cnt with
  | zero =>
    intro k0 g _ _
    refine ⟨?_, ?_, ?_, rfl, rfl, rfl⟩
    · intro k h1 h2; omega
    · intro p _; rfl
    · intro wid _; rfl
  | succ cnt ih =>
    intro k0 g hcb hwr
    have hrun : connectRow g cid j depth (List.zip (List.range' k0 (cnt + 1)) (List.range' (bb + k0) (cnt + 1))) = connectRow (connect g ⟨cid, k0 + 1⟩ ⟨bb + k0, j + 1⟩ depth) cid j depth (List.zip (List.range' (k0 + 1) cnt) (List.range' (bb + k0 + 1) cnt)) := by
      show connectRow g cid j depth ((k0, bb + k0) :: List.zip (List.range' (k0 + 1) cnt) (List.range' (bb + k0 + 1) cnt)) = _
      rw [connectRow]
    set g1 := connect g ⟨cid, k0 + 1⟩ ⟨bb + k0, j + 1⟩ depth with hg1
    have hres := ih (k0 + 1) g1 (fun k h1 h2 => hcb k (by omega) (by omega))
      (fun k h1 h2 => by
        rw [hwr k (by omega) (by omega), hg1]
        simp [connect]
        omega)
    have hbb : bb + (k0 + 1) = bb + k0 + 1 := by omega
    rw [hbb] at hres
    obtain ⟨R1, R2, R3, R4, R5, R6⟩ := hres
    have hg1nw : g1.nextWire = g.nextWire + 1 := by rw [hg1]; simp [connect]
    rw [hrun]
    refine ⟨?_, ?_, ?_, ?_, ?_, ?_⟩
    · intro k hk1 hk2
      by_cases hk : k = k0
      · subst hk
        have hwid : wr k = g.nextWire + 1 := by rw [hwr k (by omega) (by omega)]; omega
        refine ⟨?_, ?_, ?_⟩
        · rw [R3 (wr k) (by omega)]
          rw [hwid, hg1]
          exact connect_wires_new g ⟨cid, k + 1⟩ ⟨bb + k, j + 1⟩ depth
        · rw [R2 ⟨cid, k + 1⟩ (fun k' h1 h2 => ⟨portRef_ne_of_idx cid cid (k + 1) (k' + 1) (by omega), portRef_ne_of_node cid (bb + k') (k + 1) (j + 1) (hcb k' (by omega) (by omega))⟩)]
          rw [hwid, hg1]
          exact connect_portWire_at g ⟨cid, k + 1⟩ ⟨bb + k, j + 1⟩ depth ⟨cid, k + 1⟩ (Or.inl rfl)
        · rw [R2 ⟨bb + k, j + 1⟩ (fun k' h1 h2 => ⟨portRef_ne_of_node (bb + k) cid (j + 1) (k' + 1) (fun hc => hcb k (by omega) (by omega) hc.symm), portRef_ne_of_node (bb + k) (bb + k') (j + 1) (j + 1) (by omega)⟩)]
          rw [hwid, hg1]
          exact connect_portWire_at g ⟨cid, k + 1⟩ ⟨bb + k, j + 1⟩ depth ⟨bb + k, j + 1⟩ (Or.inr rfl)
      · exact R1 k (by omega) (by omega)
    · intro p hp
      rw [R2 p (fun k h1 h2 => hp k (by omega) (by omega))]
      rw [hg1]
      exact connect_portWire_frame g ⟨cid, k0 + 1⟩ ⟨bb + k0, j + 1⟩ depth p (hp k0 (by omega) (by omega)).1 (hp k0 (by omega) (by omega)).2
    · intro wid hwid
      rw [R3 wid (by omega)]
      rw [hg1]
      exact connect_wires_frame g ⟨cid, k0 + 1⟩ ⟨bb + k0, j + 1⟩ depth wid (by omega)
    · rw [R4, hg1nw]; omega
    · rw [R5, hg1]; simp [connect]
    · rw [R6, hg1]; simp [connect]

/- Full characterisation of the first `commuteReplicators` loop: one
B-copy per auxiliary port of A, at level `B.level + A.deltas[i]` with
B's deltas, its principal spliced over A's former aux-(i+1) wire; the
returned id list is consecutive from `nextId + 1`. -/
theorem commuteBLoop_spec (a b : Nat) (lb : Int) (dsa dsb : List Int)
    (wv : Nat → Nat) (wdv : Nat → WireData) (cv : Nat → Nat) :
    ∀ (cnt i0 : Nat) (g : Network),
    deltasOf g a = dsa → levelOf g b = lb → deltasOf g b = dsb →
    a ≤ g.nextId → b ≤ g.nextId →
    (∀ i, i0 ≤ i → i < i0 + cnt → cv i = g.nextId + 1 + (i - i0)) →
    (∀ i, i0 ≤ i → i < i0 + cnt →
      g.portWire ⟨a, i + 1⟩ = some (wv i) ∧ g.wires (wv i) = some (wdv i) ∧
      ((wdv i).p0 = some ⟨a, i + 1⟩ ∨ (wdv i).p1 = some ⟨a, i + 1⟩)) →
    (∀ i i', i0 ≤ i → i < i0 + cnt → i0 ≤ i' → i' < i0 + cnt → i ≠ i' → wv i ≠ wv i') →
    (commuteBLoop g a b (List.range' i0 cnt)).2 = List.range' (g.nextId + 1) cnt ∧
    (∀ i, i0 ≤ i → i < i0 + cnt →
      (commuteBLoop g a b (List.range' i0 cnt)).1.nodes (cv i) = some ⟨NodeType.replicator, 1 + dsb.length, lb + dsa.getD i 0, dsb, Value.num 0, "", false⟩ ∧
      (commuteBLoop g a b (List.range' i0 cnt)).1.portWire ⟨cv i, 0⟩ = some (wv i) ∧
      (commuteBLoop g a b (List.range' i0 cnt)).1.wires (wv i) = some (replaceEndpoint (wdv i) ⟨a, i + 1⟩ ⟨cv i, 0⟩) ∧
      (commuteBLoop g a b (List.range' i0 cnt)).1.portWire ⟨a, i + 1⟩ = none) ∧
    (∀ nid, nid ≤ g.nextId → (commuteBLoop g a b (List.range' i0 cnt)).1.nodes nid = g.nodes nid) ∧
    (∀ p : PortRef, p.node ≤ g.nextId → (∀ i, i0 ≤ i → i < i0 + cnt → p ≠ ⟨a, i + 1⟩) →
      (commuteBLoop g a b (List.range' i0 cnt)).1.portWire p = g.portWire p) ∧
    (∀ wid, (∀ i, i0 ≤ i → i < i0 + cnt → wid ≠ wv i) →
      (commuteBLoop g a b (List.range' i0 cnt)).1.wires wid = g.wires wid) ∧
    (commuteBLoop g a b (List.range' i0 cnt)).1.nextId = g.nextId + cnt ∧
    (commuteBLoop g a b (List.range' i0 cnt)).1.nextWire = g.nextWire := by
  intro cnt
  induction cnt with
  | zero =>
    intro i0 g _ _ _ _ _ _ _ _
    refine ⟨rfl, ?_, ?_, ?_, ?_, rfl, rfl⟩
    · intro i h1 h2; omega
    · intro nid _; rfl
    · intro p _ _; rfl
    · intro wid _; rfl
  | succ cnt ih =>
    intro i0 g hga hgb hgsb hale hble hcv hw hinj
    obtain ⟨hw0a, hw0b, hw0c⟩ := hw i0 (le_refl i0) (by omega)
    have hrun : commuteBLoop g a b (List.range' i0 (cnt + 1)) = ((commuteBLoop (splice (addNode g ⟨NodeType.replicator, 1 + dsb.length, lb + dsa.getD i0 0, dsb, Value.num 0, "", false⟩).1 ⟨g.nextId + 1, 0⟩ ⟨a, i0 + 1⟩) a b (List.range' (i0 + 1) cnt)).1, (g.nextId + 1) :: (commuteBLoop (splice (addNode g ⟨NodeType.replicator, 1 + dsb.length, lb + dsa.getD i0 0, dsb, Value.num 0, "", false⟩).1 ⟨g.nextId + 1, 0⟩ ⟨a, i0 + 1⟩) a b (List.range' (i0 + 1) cnt)).2) := by
      show commuteBLoop g a b (i0 :: List.range' (i0 + 1) cnt) = _
      rw [commuteBLoop]
      unfold createReplicatorCopyWithLevel newReplicator
      simp only [addNode_id]
      rw [hga, hgb, hgsb]
      rw [if_pos (by rw [addNode_portWire_frame g _ ⟨a, i0 + 1⟩ (by intro hc; simp at hc; omega), hw0a]; rfl)]
    set nd : NodeData := ⟨NodeType.replicator, 1 + dsb.length, lb + dsa.getD i0 0, dsb, Value.num 0, "", false⟩ with hnd
    set g1 : Network := (addNode g nd).1 with hg1
    set g2 : Network := splice g1 ⟨g.nextId + 1, 0⟩ ⟨a, i0 + 1⟩ with hg2
    have hg2nid : g2.nextId = g.nextId + 1 := by rw [hg2, splice_nextId, hg1, addNode_nextId]
    have hg2nw : g2.nextWire = g.nextWire := by rw [hg2, splice_nextWire, hg1, addNode_nextWire]
    have hg2nodes_frame : ∀ nid, nid ≤ g.nextId → g2.nodes nid = g.nodes nid := by
      intro nid hnid
      rw [hg2, splice_nodes, hg1, addNode_nodes_frame g nd nid (by omega)]
    have hg2nodes_new : g2.nodes (g.nextId + 1) = some nd := by
      rw [hg2, splice_nodes, hg1]
      exact addNode_nodes_new g nd
    have hpw1 : g1.portWire ⟨a, i0 + 1⟩ = some (wv i0) := by
      rw [hg1, addNode_portWire_frame g nd ⟨a, i0 + 1⟩ (by intro hc; simp at hc; omega)]
      exact hw0a
    have hw1w : g1.wires (wv i0) = some (wdv i0) := by rw [hg1, addNode_wires]; exact hw0b
    have hsp := splice_spec g1 ⟨g.nextId + 1, 0⟩ ⟨a, i0 + 1⟩ (wv i0) (wdv i0) hpw1 hw1w hw0c
    have h2new : g2.portWire ⟨g.nextId + 1, 0⟩ = some (wv i0) := hsp.1
    have h2old : g2.portWire ⟨a, i0 + 1⟩ = none :=
      hsp.2.1 (portRef_ne_of_node a (g.nextId + 1) (i0 + 1) 0 (by omega))
    have h2wat : g2.wires (wv i0) = some (replaceEndpoint (wdv i0) ⟨a, i0 + 1⟩ ⟨g.nextId + 1, 0⟩) := hsp.2.2
    have hg2pw : ∀ p : PortRef, p.node ≤ g.nextId → p ≠ ⟨a, i0 + 1⟩ → g2.portWire p = g.portWire p := by
      intro p h1 h2
      rw [hg2, splice_portWire_frame g1 ⟨g.nextId + 1, 0⟩ ⟨a, i0 + 1⟩ p (by intro hc; have := congrArg PortRef.node hc; simp at this; omega) h2]
      rw [hg1, addNode_portWire_frame g nd p (by omega)]
    have hg2w : ∀ wid, wid ≠ wv i0 → g2.wires wid = g.wires wid := by
      intro wid hne
      rw [hg2, splice_wires_frame g1 ⟨g.nextId + 1, 0⟩ ⟨a, i0 + 1⟩ wid (by rw [hpw1]; simp only [ne_eq, Option.some.injEq]; exact fun hc => hne hc.symm)]
      rw [hg1, addNode_wires]
    have hres := ih (i0 + 1) g2
      (by unfold deltasOf; rw [hg2, splice_nodes, hg1, addNode_nodes_frame g nd a (by omega)]; exact hga)
      (by unfold levelOf; rw [hg2, splice_nodes, hg1, addNode_nodes_frame g nd b (by omega)]; exact hgb)
      (by unfold deltasOf; rw [hg2, splice_nodes, hg1, addNode_nodes_frame g nd b (by omega)]; exact hgsb)
      (by omega) (by omega)
      (by intro i h1 h2; rw [hcv i (by omega) (by omega), hg2nid]; omega)
      (by
        intro i h1 h2
        obtain ⟨ha1, ha2, ha3⟩ := hw i (by omega) (by omega)
        refine ⟨?_, ?_, ha3⟩
        · rw [hg2pw ⟨a, i + 1⟩ (by simpa using hale) (portRef_ne_of_idx a a (i + 1) (i0 + 1) (by omega))]
          exact ha1
        · rw [hg2w (wv i) (hinj i i0 (by omega) (by omega) (by omega) (by omega) (by omega))]
          exact ha2)
      (fun i i' h1 h2 h3 h4 h5 => hinj i i' (by omega) (by omega) (by omega) (by omega) h5)
    obtain ⟨T1, T2, T3, T4, T5, T6, T7⟩ := hres
    rw [hrun]
    refine ⟨?_, ?_, ?_, ?_, ?_, ?_, ?_⟩
    · show (g.nextId + 1) :: (commuteBLoop g2 a b (List.range' (i0 + 1) cnt)).2 = List.range' (g.nextId + 1) (cnt + 1)
      rw [T1, hg2nid]
      rfl
    · intro i h1 h2
      by_cases hi : i = i0
      · subst hi
        have hcv0 : cv i = g.nextId + 1 := by rw [hcv i (le_refl i) (by omega)]; omega
        rw [hcv0]
        refine ⟨?_, ?_, ?_, ?_⟩
        · rw [T3 (g.nextId + 1) (by omega)]
          exact hg2nodes_new
        · rw [T4 ⟨g.nextId + 1, 0⟩ (by rw [hg2nid]) (fun i' hi1 hi2 => portRef_ne_of_node (g.nextId + 1) a 0 (i' + 1) (by omega))]
          exact h2new
        · rw [T5 (wv i) (fun i' hi1 hi2 => hinj i i' (by omega) (by omega) (by omega) (by omega) (by omega))]
          exact h2wat
        · rw [T4 ⟨a, i + 1⟩ (by simp; omega) (fun i' hi1 hi2 => portRef_ne_of_idx a a (i + 1) (i' + 1) (by omega))]
          exact h2old
      · have hT := T2 i (by omega) (by omega)
        exact hT
    · intro nid hnid
      rw [T3 nid (by omega)]
      exact hg2nodes_frame nid hnid
    · intro p hp1 hp2
      rw [T4 p (by omega) (fun i hi1 hi2 => hp2 i (by omega) (by omega))]
      exact hg2pw p hp1 (hp2 i0 (le_refl i0) (by omega))
    · intro wid hwid
      rw [T5 wid (fun i hi1 hi2 => hwid i (by omega) (by omega))]
      exact hg2w wid (hwid i0 (le_refl i0) (by omega))
    · rw [T6, hg2nid]
      omega
    · rw [T7, hg2nw]

/- Full characterisation of the second `commuteReplicators` loop: one
A-copy per auxiliary port of B (A's level and deltas), its principal
spliced over B's former aux wire, and a full row of fresh internal
wires at `depth + 1` from the A-copy's aux ports to the matching aux
ports of the B-copies. -/
theorem commuteALoop_spec (a b : Nat) (la : Int) (dsa : List Int) (bb n : Nat) (depth : Nat)
    (wvB : Nat → Nat) (wdB : Nat → WireData) (ca : Nat → Nat) (W : Nat → Nat) :
    ∀ (cnt j0 : Nat) (g : Network),
    deltasOf g a = dsa → levelOf g a = la →
    a ≤ g.nextId → b ≤ g.nextId → bb + n ≤ g.nextId + 1 →
    (∀ k, k < n → b ≠ bb + k) →
    (∀ j, j0 ≤ j → j < j0 + cnt → ca j = g.nextId + 1 + (j - j0)) →
    W j0 = g.nextWire →
    (∀ j, j0 ≤ j → j < j0 + cnt → W (j + 1) = W j + n) →
    (∀ j, j0 ≤ j → j < j0 + cnt →
      g.portWire ⟨b, j + 1⟩ = some (wvB j) ∧ g.wires (wvB j) = some (wdB j) ∧
      ((wdB j).p0 = some ⟨b, j + 1⟩ ∨ (wdB j).p1 = some ⟨b, j + 1⟩) ∧ wvB j ≤ g.nextWire) →
    (∀ j j', j0 ≤ j → j < j0 + cnt → j0 ≤ j' → j' < j0 + cnt → j ≠ j' → wvB j ≠ wvB j') →
    (∀ j, j0 ≤ j → j < j0 + cnt →
      (commuteALoop g a b (List.range' bb n) depth (List.range' j0 cnt)).nodes (ca j) = some ⟨NodeType.replicator, 1 + dsa.length, la, dsa, Value.num 0, "", false⟩ ∧
      (commuteALoop g a b (List.range' bb n) depth (List.range' j0 cnt)).portWire ⟨ca j, 0⟩ = some (wvB j) ∧
      (commuteALoop g a b (List.range' bb n) depth (List.range' j0 cnt)).wires (wvB j) = some (replaceEndpoint (wdB j) ⟨b, j + 1⟩ ⟨ca j, 0⟩) ∧
      (commuteALoop g a b (List.range' bb n) depth (List.range' j0 cnt)).portWire ⟨b, j + 1⟩ = none) ∧
    (∀ j, j0 ≤ j → j < j0 + cnt → ∀ k, k < n →
      (commuteALoop g a b (List.range' bb n) depth (List.range' j0 cnt)).wires (W j + k + 1) = some ⟨some ⟨ca j, k + 1⟩, some ⟨bb + k, j + 1⟩, depth + 1⟩ ∧
      (commuteALoop g a b (List.range' bb n) depth (List.range' j0 cnt)).portWire ⟨ca j, k + 1⟩ = some (W j + k + 1) ∧
      (commuteALoop g a b (List.range' bb n) depth (List.range' j0 cnt)).portWire ⟨bb + k, j + 1⟩ = some (W j + k + 1)) ∧
    (∀ nid, nid ≤ g.nextId → (commuteALoop g a b (List.range' bb n) depth (List.range' j0 cnt)).nodes nid = g.nodes nid) ∧
    (∀ p : PortRef, p.node ≤ g.nextId →
      (∀ j, j0 ≤ j → j < j0 + cnt → p ≠ ⟨b, j + 1⟩ ∧ (∀ k, k < n → p ≠ ⟨bb + k, j + 1⟩)) →
      (commuteALoop g a b (List.range' bb n) depth (List.range' j0 cnt)).portWire p = g.portWire p) ∧
    (∀ wid, wid ≤ g.nextWire → (∀ j, j0 ≤ j → j < j0 + cnt → wid ≠ wvB j) →
      (commuteALoop g a b (List.range' bb n) depth (List.range' j0 cnt)).wires wid = g.wires wid) ∧
    (commuteALoop g a b (List.range' bb n) depth (List.range' j0 cnt)).nextId = g.nextId + cnt ∧
    (commuteALoop g a b (List.range' bb n) depth (List.range' j0 cnt)).nextWire = W (j0 + cnt) := by
  intro cnt
  induction cnt with
  | zero =>
    intro j0 g _ _ _ _ _ _ _ hW0 _ _ _
    refine ⟨?_, ?_, ?_, ?_, ?_, rfl, ?_⟩
    · intro j h1 h2; omega
    · intro j h1 h2; omega
    · intro nid _; rfl
    · intro p _ _; rfl
    · intro wid _ _; rfl
    · rw [Nat.add_zero]
      exact hW0.symm
  | succ cnt ih =>
    intro j0 g hga hla hale hble hbbn hbk hca hW0 hWs hw hinj
    obtain ⟨hw0a, hw0b, hw0c, hw0d⟩ := hw j0 (le_refl j0) (by omega)
    have henum : (List.range' bb n).enum = List.zip (List.range' 0 n) (List.range' bb n) :=
      enumFrom_range'_zip n bb 0
    have hrun : commuteALoop g a b (List.range' bb n) depth (List.range' j0 (cnt + 1)) = commuteALoop (connectRow (splice (addNode g ⟨NodeType.replicator, 1 + dsa.length, la, dsa, Value.num 0, "", false⟩).1 ⟨g.nextId + 1, 0⟩ ⟨b, j0 + 1⟩) (g.nextId + 1) j0 depth (List.zip (List.range' 0 n) (List.range' bb n))) a b (List.range' bb n) depth (List.range' (j0 + 1) cnt) := by
      show commuteALoop g a b (List.range' bb n) depth (j0 :: List.range' (j0 + 1) cnt) = _
      rw [commuteALoop]
      unfold createReplicatorCopy newReplicator
      simp only [addNode_id]
      rw [hga, hla, henum]
      rw [if_pos (by rw [addNode_portWire_frame g _ ⟨b, j0 + 1⟩ (by intro hc; simp at hc; omega), hw0a]; rfl)]
    set nd : NodeData := ⟨NodeType.replicator, 1 + dsa.length, la, dsa, Value.num 0, "", false⟩ with hnd
    set g1 : Network := (addNode g nd).1 with hg1
    set g2 : Network := splice g1 ⟨g.nextId + 1, 0⟩ ⟨b, j0 + 1⟩ with hg2
    have hg2nid : g2.nextId = g.nextId + 1 := by rw [hg2, splice_nextId, hg1, addNode_nextId]
    have hg2nw : g2.nextWire = g.nextWire := by rw [hg2, splice_nextWire, hg1, addNode_nextWire]
    have hg2nodes_frame : ∀ nid, nid ≤ g.nextId → g2.nodes nid = g.nodes nid := by
      intro nid hnid
      rw [hg2, splice_nodes, hg1, addNode_nodes_frame g nd nid (by omega)]
    have hg2nodes_new : g2.nodes (g.nextId + 1) = some nd := by
      rw [hg2, splice_nodes, hg1]
      exact addNode_nodes_new g nd
    have hpw1 : g1.portWire ⟨b, j0 + 1⟩ = some (wvB j0) := by
      rw [hg1, addNode_portWire_frame g nd ⟨b, j0 + 1⟩ (by intro hc; simp at hc; omega)]
      exact hw0a
    have hw1w : g1.wires (wvB j0) = some (wdB j0) := by rw [hg1, addNode_wires]; exact hw0b
    have hsp := splice_spec g1 ⟨g.nextId + 1, 0⟩ ⟨b, j0 + 1⟩ (wvB j0) (wdB j0) hpw1 hw1w hw0c
    have h2new : g2.portWire ⟨g.nextId + 1, 0⟩ = some (wvB j0) := hsp.1
    have h2old : g2.portWire ⟨b, j0 + 1⟩ = none :=
      hsp.2.1 (portRef_ne_of_node b (g.nextId + 1) (j0 + 1) 0 (by omega))
    have h2wat : g2.wires (wvB j0) = some (replaceEndpoint (wdB j0) ⟨b, j0 + 1⟩ ⟨g.nextId + 1, 0⟩) := hsp.2.2
    have hg2pw : ∀ p : PortRef, p.node ≤ g.nextId → p ≠ ⟨b, j0 + 1⟩ → g2.portWire p = g.portWire p := by
      intro p h1 h2
      rw [hg2, splice_portWire_frame g1 ⟨g.nextId + 1, 0⟩ ⟨b, j0 + 1⟩ p (by intro hc; have := congrArg PortRef.node hc; simp at this; omega) h2]
      rw [hg1, addNode_portWire_frame g nd p (by omega)]
    have hg2w : ∀ wid, wid ≠ wvB j0 → g2.wires wid = g.wires wid := by
      intro wid hne
      rw [hg2, splice_wires_frame g1 ⟨g.nextId + 1, 0⟩ ⟨b, j0 + 1⟩ wid (by rw [hpw1]; simp only [ne_eq, Option.some.injEq]; exact fun hc => hne hc.symm)]
      rw [hg1, addNode_wires]
    have hCR := connectRow_spec (g.nextId + 1) j0 depth bb (fun k => W j0 + k + 1) n 0 g2
      (fun k h1 h2 => by omega)
      (fun k h1 h2 => by show W j0 + k + 1 = g2.nextWire + (k - 0) + 1; rw [hg2nw, hW0]; omega)
    simp only [Nat.add_zero] at hCR
    obtain ⟨C1, C2, C3, C4, C5, C6⟩ := hCR
    set g3 : Network := connectRow g2 (g.nextId + 1) j0 depth (List.zip (List.range' 0 n) (List.range' bb n)) with hg3
    have hg3nid : g3.nextId = g.nextId + 1 := by rw [C5, hg2nid]
    have hg3nw : g3.nextWire = g.nextWire + n := by rw [C4, hg2nw]
    have hg3nodes : g3.nodes = g2.nodes := C6
    have hres := ih (j0 + 1) g3
      (by unfold deltasOf; rw [hg3nodes, hg2, splice_nodes, hg1, addNode_nodes_frame g nd a (by omega)]; exact hga)
      (by unfold levelOf; rw [hg3nodes, hg2, splice_nodes, hg1, addNode_nodes_frame g nd a (by omega)]; exact hla)
      (by omega) (by omega) (by omega) hbk
      (by intro j h1 h2; rw [hca j (by omega) (by omega), hg3nid]; omega)
      (by rw [hWs j0 (le_refl j0) (by omega), hW0, hg3nw])
      (fun j h1 h2 => hWs j (by omega) (by omega))
      (by
        intro j h1 h2
        obtain ⟨hb1, hb2, hb3, hb4⟩ := hw j (by omega) (by omega)
        refine ⟨?_, ?_, hb3, ?_⟩
        · rw [C2 ⟨b, j + 1⟩ (fun k hk1 hk2 => ⟨portRef_ne_of_node b (g.nextId + 1) (j + 1) (k + 1) (by omega), portRef_ne_of_node b (bb + k) (j + 1) (j0 + 1) (hbk k (by omega))⟩)]
          rw [hg2pw ⟨b, j + 1⟩ (by simpa using hble) (portRef_ne_of_idx b b (j + 1) (j0 + 1) (by omega))]
          exact hb1
        · rw [C3 (wvB j) (by omega)]
          rw [hg2w (wvB j) (hinj j j0 (by omega) (by omega) (by omega) (by omega) (by omega))]
          exact hb2
        · rw [hg3nw]
          omega)
      (fun j j' h1 h2 h3 h4 h5 => hinj j j' (by omega) (by omega) (by omega) (by omega) h5)
    obtain ⟨A1, A2, A3, A4, A5, A6, A7⟩ := hres
    rw [hrun]
    refine ⟨?_, ?_, ?_, ?_, ?_, ?_, ?_⟩
    · intro j h1 h2
      by_cases hj : j = j0
      · subst hj
        have hca0 : ca j = g.nextId + 1 := by rw [hca j (le_refl j) (by omega)]; omega
        rw [hca0]
        refine ⟨?_, ?_, ?_, ?_⟩
        · rw [A3 (g.nextId + 1) (by omega)]
          rw [hg3nodes]
          exact hg2nodes_new
        · rw [A4 ⟨g.nextId + 1, 0⟩ (by simp; omega) (fun j' hj1 hj2 => ⟨portRef_ne_of_node (g.nextId + 1) b 0 (j' + 1) (by omega), fun k hk => portRef_ne_of_node (g.nextId + 1) (bb + k) 0 (j' + 1) (by omega)⟩)]
          rw [C2 ⟨g.nextId + 1, 0⟩ (fun k hk1 hk2 => ⟨portRef_ne_of_idx (g.nextId + 1) (g.nextId + 1) 0 (k + 1) (by omega), portRef_ne_of_node (g.nextId + 1) (bb + k) 0 (j + 1) (by omega)⟩)]
          exact h2new
        · rw [A5 (wvB j) (by rw [hg3nw]; omega) (fun j' hj1 hj2 => hinj j j' (by omega) (by omega) (by omega) (by omega) (by omega))]
          rw [C3 (wvB j) (by rw [hg2nw]; omega)]
          exact h2wat
        · rw [A4 ⟨b, j + 1⟩ (by simp; omega) (fun j' hj1 hj2 => ⟨portRef_ne_of_idx b b (j + 1) (j' + 1) (by omega), fun k hk => portRef_ne_of_node b (bb + k) (j + 1) (j' + 1) (hbk k hk)⟩)]
          rw [C2 ⟨b, j + 1⟩ (fun k hk1 hk2 => ⟨portRef_ne_of_node b (g.nextId + 1) (j + 1) (k + 1) (by omega), portRef_ne_of_node b (bb + k) (j + 1) (j + 1) (hbk k (by omega))⟩)]
          exact h2old
      · exact A1 j (by omega) (by omega)
    · intro j h1 h2 k hk
      by_cases hj : j = j0
      · subst hj
        have hca0 : ca j = g.nextId + 1 := by rw [hca j (le_refl j) (by omega)]; omega
        rw [hca0]
        have hCk := C1 k (by omega) (by omega)
        refine ⟨?_, ?_, ?_⟩
        · rw [A5 (W j + k + 1) (by rw [hg3nw, hW0]; omega) (fun j' hj1 hj2 => by have hle := (hw j' (by omega) (by omega)).2.2.2; rw [hW0]; omega)]
          exact hCk.1
        · rw [A4 ⟨g.nextId + 1, k + 1⟩ (by simp; omega) (fun j' hj1 hj2 => ⟨portRef_ne_of_node (g.nextId + 1) b (k + 1) (j' + 1) (by omega), fun k' hk' => portRef_ne_of_node (g.nextId + 1) (bb + k') (k + 1) (j' + 1) (by omega)⟩)]
          exact hCk.2.1
        · rw [A4 ⟨bb + k, j + 1⟩ (by simp; omega) (fun j' hj1 hj2 => ⟨portRef_ne_of_node (bb + k) b (j + 1) (j' + 1) (fun hc => hbk k hk hc.symm), fun k' hk' => portRef_ne_of_idx (bb + k) (bb + k') (j + 1) (j' + 1) (by omega)⟩)]
          exact hCk.2.2
      · exact A2 j (by omega) (by omega) k hk
    · intro nid hnid
      rw [A3 nid (by omega), hg3nodes]
      exact hg2nodes_frame nid hnid
    · intro p hp1 hp2
      rw [A4 p (by omega) (fun j hj1 hj2 => hp2 j (by omega) (by omega))]
      rw [C2 p (fun k hk1 hk2 => ⟨by intro hc; have := congrArg PortRef.node hc; simp at this; omega, (hp2 j0 (le_refl j0) (by omega)).2 k (by omega)⟩)]
      exact hg2pw p hp1 (hp2 j0 (le_refl j0) (by omega)).1
    · intro wid hwid1 hwid2
      rw [A5 wid (by rw [hg3nw]; omega) (fun j hj1 hj2 => hwid2 j (by omega) (by omega))]
      rw [C3 wid (by rw [hg2nw]; omega)]
      exact hg2w wid (hwid2 j0 (le_refl j0) (by omega))
    · rw [A6, hg3nid]
      omega
    · rw [A7]
      have hjc : (j0 + 1) + cnt = j0 + (cnt + 1) := by omega
      rw [hjc]

/-- C1: rewriting an active pair of replicators at unequal levels,
with A the lower-levelled one (the source swaps the arguments once
when A's level is higher), creates one B-copy per auxiliary port of A
at level `B.level + A.deltas[i]` carrying B's deltas, its principal
spliced over A's former aux-(i+1) wire; one A-copy per auxiliary port
of B at A's level and deltas, its principal spliced over B's former
aux-(j+1) wire; and for every pair (j,k) a fresh internal wire at the
parent depth plus one connecting aux k+1 of the j-th A-copy to aux
j+1 of the k-th B-copy. -/
theorem c1_replicator_commutation (g : Network) (a b : Nat) (depth : Nat) (n m : Nat)
    (wvA wvB : Nat → Nat) (wdA wdB : Nat → WireData)
    (htyp_a : typeOf g a = NodeType.replicator) (htyp_b : typeOf g b = NodeType.replicator)
    (hlev : levelOf g a ≤ levelOf g b) (hne : levelOf g a ≠ levelOf g b)
    (hab : a ≠ b) (hale : a ≤ g.nextId) (hble : b ≤ g.nextId)
    (hnpa : numPortsOf g a = 1 + n) (hnpb : numPortsOf g b = 1 + m)
    (hA : ∀ i, i < n → g.portWire ⟨a, i + 1⟩ = some (wvA i) ∧
      g.wires (wvA i) = some (wdA i) ∧
      ((wdA i).p0 = some ⟨a, i + 1⟩ ∨ (wdA i).p1 = some ⟨a, i + 1⟩) ∧ wvA i ≤ g.nextWire)
    (hB : ∀ j, j < m → g.portWire ⟨b, j + 1⟩ = some (wvB j) ∧
      g.wires (wvB j) = some (wdB j) ∧
      ((wdB j).p0 = some ⟨b, j + 1⟩ ∨ (wdB j).p1 = some ⟨b, j + 1⟩) ∧ wvB j ≤ g.nextWire)
    (hinjA : ∀ i i', i < n → i' < n → i ≠ i' → wvA i ≠ wvA i')
    (hinjB : ∀ j j', j < m → j' < m → j ≠ j' → wvB j ≠ wvB j')
    (hAB : ∀ i j, i < n → j < m → wvA i ≠ wvB j) :
    (∀ (g' : Network) (a' b' d' : Nat), levelOf g' a' > levelOf g' b' →
      commuteReplicators g' a' b' d' = commuteReplicatorsGo g' b' a' d') ∧
    (∀ i, i < n →
      (commuteReplicators g a b depth).nodes (g.nextId + 1 + i) = some ⟨NodeType.replicator, 1 + (deltasOf g b).length, levelOf g b + (deltasOf g a).getD i 0, deltasOf g b, Value.num 0, "", false⟩ ∧
      (commuteReplicators g a b depth).portWire ⟨g.nextId + 1 + i, 0⟩ = some (wvA i) ∧
      (commuteReplicators g a b depth).wires (wvA i) = some (replaceEndpoint (wdA i) ⟨a, i + 1⟩ ⟨g.nextId + 1 + i, 0⟩) ∧
      (commuteReplicators g a b depth).portWire ⟨a, i + 1⟩ = none) ∧
    (∀ j, j < m →
      (commuteReplicators g a b depth).nodes (g.nextId + n + 1 + j) = some ⟨NodeType.replicator, 1 + (deltasOf g a).length, levelOf g a, deltasOf g a, Value.num 0, "", false⟩ ∧
      (commuteReplicators g a b depth).portWire ⟨g.nextId + n + 1 + j, 0⟩ = some (wvB j) ∧
      (commuteReplicators g a b depth).wires (wvB j) = some (replaceEndpoint (wdB j) ⟨b, j + 1⟩ ⟨g.nextId + n + 1 + j, 0⟩) ∧
      (commuteReplicators g a b depth).portWire ⟨b, j + 1⟩ = none) ∧
    (∀ j, j < m → ∀ k, k < n →
      (commuteReplicators g a b depth).wires (g.nextWire + j * n + k + 1) = some ⟨some ⟨g.nextId + n + 1 + j, k + 1⟩, some ⟨g.nextId + 1 + k, j + 1⟩, depth + 1⟩ ∧
      (commuteReplicators g a b depth).portWire ⟨g.nextId + n + 1 + j, k + 1⟩ = some (g.nextWire + j * n + k + 1) ∧
      (commuteReplicators g a b depth).portWire ⟨g.nextId + 1 + k, j + 1⟩ = some (g.nextWire + j * n + k + 1)) := by
  have hswap : ∀ (g' : Network) (a' b' d' : Nat), levelOf g' a' > levelOf g' b' →
      commuteReplicators g' a' b' d' = commuteReplicatorsGo g' b' a' d' := by
    intro g' a' b' d' hgt
    unfold commuteReplicators
    rw [if_pos hgt]
  have hnoswap : commuteReplicators g a b depth = commuteReplicatorsGo g a b depth := by
    unfold commuteReplicators
    rw [if_neg (by omega)]
  have BS := commuteBLoop_spec a b (levelOf g b) (deltasOf g a) (deltasOf g b) wvA wdA
    (fun i => g.nextId + 1 + i) n 0 g rfl rfl rfl hale hble
    (fun i h1 h2 => by show g.nextId + 1 + i = g.nextId + 1 + (i - 0); omega)
    (fun i h1 h2 => ⟨(hA i (by omega)).1, (hA i (by omega)).2.1, (hA i (by omega)).2.2.1⟩)
    (fun i i' h1 h2 h3 h4 h5 => hinjA i i' (by omega) (by omega) h5)
  obtain ⟨B1, B2, B3, B4, B5, B6, B7⟩ := BS
  have hnpb1 : numPortsOf (commuteBLoop g a b (List.range' 0 n)).1 b = numPortsOf g b := by
    unfold numPortsOf
    rw [B3 b hble]
  have hgo : commuteReplicatorsGo g a b depth = commuteALoop (commuteBLoop g a b (List.range' 0 n)).1 a b (List.range' (g.nextId + 1) n) depth (List.range' 0 m) := by
    unfold commuteReplicatorsGo
    dsimp only
    rw [show numPortsOf g a - 1 = n from by omega]
    rw [List.range_eq_range' n]
    rw [show numPortsOf (commuteBLoop g a b (List.range' 0 n)).1 b - 1 = m from by rw [hnpb1]; omega]
    rw [List.range_eq_range' m]
    rw [B1]
  have AS := commuteALoop_spec a b (levelOf g a) (deltasOf g a) (g.nextId + 1) n depth wvB wdB
    (fun j => g.nextId + n + 1 + j) (fun j => g.nextWire + j * n) m 0
    (commuteBLoop g a b (List.range' 0 n)).1
    (by unfold deltasOf; rw [B3 a hale])
    (by unfold levelOf; rw [B3 a hale])
    (by omega) (by omega) (by omega)
    (fun k hk => by omega)
    (fun j h1 h2 => by show g.nextId + n + 1 + j = (commuteBLoop g a b (List.range' 0 n)).1.nextId + 1 + (j - 0); rw [B6]; omega)
    (by show g.nextWire + 0 * n = (commuteBLoop g a b (List.range' 0 n)).1.nextWire; rw [B7]; simp)
    (fun j h1 h2 => by show g.nextWire + (j + 1) * n = g.nextWire + j * n + n; ring)
    (by
      intro j h1 h2
      obtain ⟨hb1, hb2, hb3, hb4⟩ := hB j (by omega)
      refine ⟨?_, ?_, hb3, ?_⟩
      · rw [B4 ⟨b, j + 1⟩ (by simpa using hble) (fun i hi1 hi2 => portRef_ne_of_node b a (j + 1) (i + 1) (Ne.symm hab))]
        exact hb1
      · rw [B5 (wvB j) (fun i hi1 hi2 => Ne.symm (hAB i j (by omega) (by omega)))]
        exact hb2
      · rw [B7]
        exact hb4)
    (fun j j' h1 h2 h3 h4 h5 => hinjB j j' (by omega) (by omega) h5)
  obtain ⟨A1, A2, A3, A4, A5, A6, A7⟩ := AS
  refine ⟨hswap, ?_, ?_, ?_⟩
  · intro i hi
    obtain ⟨hb2a, hb2b, hb2c, hb2d⟩ := B2 i (by omega) (by omega)
    rw [hnoswap, hgo]
    refine ⟨?_, ?_, ?_, ?_⟩
    · rw [A3 (g.nextId + 1 + i) (by omega)]
      exact hb2a
    · rw [A4 ⟨g.nextId + 1 + i, 0⟩ (by simp; omega) (fun j hj1 hj2 => ⟨portRef_ne_of_node (g.nextId + 1 + i) b 0 (j + 1) (by omega), fun k hk => portRef_ne_of_idx (g.nextId + 1 + i) (g.nextId + 1 + k) 0 (j + 1) (by omega)⟩)]
      exact hb2b
    · rw [A5 (wvA i) (by rw [B7]; exact (hA i hi).2.2.2) (fun j hj1 hj2 => hAB i j (by omega) (by omega))]
      exact hb2c
    · rw [A4 ⟨a, i + 1⟩ (by simp; omega) (fun j hj1 hj2 => ⟨portRef_ne_of_node a b (i + 1) (j + 1) hab, fun k hk => portRef_ne_of_node a (g.nextId + 1 + k) (i + 1) (j + 1) (by omega)⟩)]
      exact hb2d
  · intro j hj
    rw [hnoswap, hgo]
    exact A1 j (by omega) (by omega)
  · intro j hj k hk
    rw [hnoswap, hgo]
    exact A2 j (by omega) (by omega) k hk

/-- Witness for C1 on the net A(id 1, level 0, deltas [1]) paired with
B(id 2, level 1, deltas [2]), vars 3 and 4 on their aux ports: the
commutation creates B-copy 5 at level 2 with deltas [2] spliced onto
var 3's wire, A-copy 6 at level 0 with deltas [1] spliced onto var 4's
wire, and one fresh internal wire 4 at depth 1 joining aux 1 of the
A-copy to aux 1 of the B-copy. -/
theorem c1_replicator_commutation_witness :
    (commuteReplicators netC1 1 2 0).nodes 5 = some ⟨NodeType.replicator, 2, 2, [2], Value.num 0, "", false⟩ ∧
    (commuteReplicators netC1 1 2 0).portWire ⟨5, 0⟩ = some 2 ∧
    (commuteReplicators netC1 1 2 0).wires 2 = some ⟨some ⟨5, 0⟩, some ⟨3, 0⟩, 0⟩ ∧
    (commuteReplicators netC1 1 2 0).portWire ⟨1, 1⟩ = none ∧
    (commuteReplicators netC1 1 2 0).nodes 6 = some ⟨NodeType.replicator, 2, 0, [1], Value.num 0, "", false⟩ ∧
    (commuteReplicators netC1 1 2 0).portWire ⟨6, 0⟩ = some 3 ∧
    (commuteReplicators netC1 1 2 0).wires 3 = some ⟨some ⟨6, 0⟩, some ⟨4, 0⟩, 0⟩ ∧
    (commuteReplicators netC1 1 2 0).portWire ⟨2, 1⟩ = none ∧
    (commuteReplicators netC1 1 2 0).wires 4 = some ⟨some ⟨6, 1⟩, some ⟨5, 1⟩, 1⟩ ∧
    (commuteReplicators netC1 1 2 0).portWire ⟨6, 1⟩ = some 4 ∧
    (commuteReplicators netC1 1 2 0).portWire ⟨5, 1⟩ = some 4 := by
  have h := c1_replicator_commutation netC1 1 2 0 1 1 (fun _ => 2) (fun _ => 3)
    (fun _ => ⟨some ⟨1, 1⟩, some ⟨3, 0⟩, 0⟩) (fun _ => ⟨some ⟨2, 1⟩, some ⟨4, 0⟩, 0⟩)
    (by decide) (by decide) (by decide) (by decide) (by decide) (by decide) (by decide)
    (by decide) (by decide)
    (fun i hi => by
      have h0 : i = 0 := Nat.lt_one_iff.mp hi
      subst h0
      exact ⟨by decide, by decide, by decide, by decide⟩)
    (fun j hj => by
      have h0 : j = 0 := Nat.lt_one_iff.mp hj
      subst h0
      exact ⟨by decide, by decide, by decide, by decide⟩)
    (fun i i' h1 h2 hne' => absurd (by omega) hne')
    (fun j j' h1 h2 hne' => absurd (by omega) hne')
    (fun i j hi hj => by simp)
  obtain ⟨hsw, hbc, hac, hiw⟩ := h
  obtain ⟨b1, b2, b3, b4⟩ := hbc 0 (by decide)
  obtain ⟨a1, a2, a3, a4⟩ := hac 0 (by decide)
  obtain ⟨w1, w2, w3⟩ := hiw 0 (by decide) 0 (by decide)
  exact ⟨b1.trans (by decide), b2, b3.trans (by decide), b4, a1.trans (by decide), a2, a3.trans (by decide), a4, w1, w2, w3⟩

end GoDNet
